import Mathlib

/-!
# Whitted-style ray tracer: `raytracer.cpp` and `raytracer-ssaa.cpp`

A shallow embedding of the two programs under `src/ref/`.

Modelling conventions.

* `float` is modelled in two ways.  The integrator (`Ref`, `SSAA`) and the drivers
  are written over exact rational arithmetic (`ℚ`): they describe the arithmetic the
  code writes down, and their theorems are about branches, paths and algebraic form.
  The namespace `F32` models IEEE 754 binary32 with rounding to nearest, ties to
  even, for the code whose properties depend on rounding: `reflect`, the pixel
  coordinates and the sample mean of `main`.  Every `float` operation is rounded on
  its own, as the source writes it (no fused multiply-add).
* `Scene::intersect` (header `scene.h`), `PinholeCamera::sampleRay`
  (`pinhole-camera.h`), `RNG::getNext` (`rng.h`) and the five-argument `refract`
  used by `raytracer.cpp` are not part of the two source files.  The integrator
  takes them as parameters, so every theorem holds for every implementation of
  them.  `Scene.intersect` below is in addition a model of the nearest-hit query
  written from the specification; it is used to build concrete sphere scenes.
* `LIGHT_DIRECTION = normalize(Vec3f(0.5, 1, 0.5))` is irrational; it is a
  parameter of the integrator.
* `reflect` is defined in `raytracer-ssaa.cpp` only; `raytracer.cpp` calls a
  `reflect` that it takes from a header.  Both programs use the definition of
  `raytracer-ssaa.cpp` here.
-/

namespace Raytracer

/-! ## Data model -/

/-- Three `float` components (`Vec3f`), used as point, direction or colour. -/
@[ext]
structure Vec3f where
  x : ℚ
  y : ℚ
  z : ℚ
  deriving DecidableEq

namespace Vec3f

/-- The constructor `Vec3f(a)`: all three components equal to `a`. -/
def splat (a : ℚ) : Vec3f := ⟨a, a, a⟩

instance : Zero Vec3f := ⟨splat 0⟩

instance : Add Vec3f := ⟨fun a b => ⟨a.x + b.x, a.y + b.y, a.z + b.z⟩⟩

instance : Sub Vec3f := ⟨fun a b => ⟨a.x - b.x, a.y - b.y, a.z - b.z⟩⟩

instance : Neg Vec3f := ⟨fun a => ⟨-a.x, -a.y, -a.z⟩⟩

/-- Component-wise product `Vec3f * Vec3f` (as in `Vec3f(0.1f) * kd`). -/
instance : Mul Vec3f := ⟨fun a b => ⟨a.x * b.x, a.y * b.y, a.z * b.z⟩⟩

/-- Component-wise quotient `Vec3f / Vec3f` (as in `color /= Vec3f(SSAA_samples)`). -/
instance : Div Vec3f := ⟨fun a b => ⟨a.x / b.x, a.y / b.y, a.z / b.z⟩⟩

/-- Scalar product `float * Vec3f`. -/
instance : HMul ℚ Vec3f Vec3f := ⟨fun k a => ⟨k * a.x, k * a.y, k * a.z⟩⟩

/-- Quotient `Vec3f / float`. -/
instance : HDiv Vec3f ℚ Vec3f := ⟨fun a k => ⟨a.x / k, a.y / k, a.z / k⟩⟩

end Vec3f

/-- The inner product `dot(a, b)`. -/
def dot (a b : Vec3f) : ℚ := a.x * b.x + a.y * b.y + a.z * b.z

/-- A ray: origin and direction. -/
structure Ray where
  origin : Vec3f
  direction : Vec3f
  deriving DecidableEq

/-- The closed enumeration `MaterialType`. -/
inductive MaterialType where
  | Diffuse
  | Mirror
  | Glass
  deriving DecidableEq

/-- A sphere: centre, radius, diffuse coefficient `kd` and material. -/
structure Sphere where
  center : Vec3f
  radius : ℚ
  kd : Vec3f
  material_type : MaterialType
  deriving DecidableEq

/-- The record filled in by a successful hit query.  `hitSphere` is a pointer into
the scene in the source; the scene is never modified, so it is a value here. -/
structure IntersectInfo where
  t : ℚ
  hitPos : Vec3f
  hitNormal : Vec3f
  hitSphere : Sphere
  deriving DecidableEq

/-- The nearest-hit query `scene.intersect(ray, info)` of one fixed scene:
`none` when it returns `false`, `some info` when it returns `true` and fills `info`. -/
abbrev Intersect := Ray → Option IntersectInfo

/-- The five-argument `refract(v, n, ior1, ior2, out)` of `raytracer.cpp`:
`none` when it returns `false`, `some out` when it returns `true`. -/
abbrev Refract := Vec3f → Vec3f → ℚ → ℚ → Option Vec3f

/-! ## Reflection and refraction (`raytracer-ssaa.cpp`, lines 12-19) -/

/-- The function `reflect`: `return -v + 2.0f * dot(v, n) * n;`. -/
def reflect (v n : Vec3f) : Vec3f := -v + (2 * dot v n) * n

/-- The four-argument `refract` of `raytracer-ssaa.cpp`: `return Vec3f(0);`. -/
def refract (_v _n : Vec3f) (_ior1 _ior2 : ℚ) : Vec3f := Vec3f.splat 0

/-! ## The bounce loop -/

/-- The mutable locals of `raytrace`: the current ray and the colour. -/
structure State where
  ray : Ray
  color : Vec3f
  deriving DecidableEq

/-- The constant `constexpr int MAX_DEPTH = 100`. -/
def MAX_DEPTH : Nat := 100

/-- The `for` loop of `raytrace`: `n` iterations remain; `body` returns `none`
when the iteration executes `break`. -/
def loop (body : State → Option State) : Nat → State → State
  | 0, s => s
  | n + 1, s =>
    match body s with
    | some s' => loop body n s'
    | none => s

/-! ### `raytracer.cpp` -/

namespace Ref

/-- The diffuse branch of `raytracer.cpp` (lines 48-62): shadow test and colour. -/
def directLight (LIGHT_DIRECTION : Vec3f) (intersect : Intersect) (info : IntersectInfo) :
    Vec3f :=
  let shadow_ray : Ray := ⟨info.hitPos, LIGHT_DIRECTION⟩
  if (intersect shadow_ray).isNone then
    max (dot LIGHT_DIRECTION info.hitNormal) 0 * info.hitSphere.kd +
      Vec3f.splat (1 / 10) * info.hitSphere.kd
  else
    Vec3f.splat (1 / 10) * info.hitSphere.kd

/-- The direction of the next ray on a Glass hit in `raytracer.cpp` (lines 28-42). -/
def glassDirection (refract : Refract) (direction hitNormal : Vec3f) : Vec3f :=
  let is_inside : Bool := decide (dot (-direction) hitNormal < 0)
  if !is_inside then
    match refract (-direction) hitNormal 1 (3 / 2) with
    | some next_direction => next_direction
    | none => reflect (-direction) hitNormal
  else
    match refract (-direction) (-hitNormal) (3 / 2) 1 with
    | some next_direction => next_direction
    | none => reflect (-direction) (-hitNormal)

/-- One iteration of the loop of `raytracer.cpp` (lines 19-66). -/
def body (LIGHT_DIRECTION : Vec3f) (intersect : Intersect) (refract : Refract) (s : State) :
    Option State :=
  match intersect s.ray with
  | some info =>
    if info.hitSphere.material_type = MaterialType.Mirror then
      some ⟨⟨info.hitPos, reflect (-s.ray.direction) info.hitNormal⟩, s.color⟩
    else if info.hitSphere.material_type = MaterialType.Glass then
      some ⟨⟨info.hitPos, glassDirection refract s.ray.direction info.hitNormal⟩, s.color⟩
    else
      some ⟨s.ray, directLight LIGHT_DIRECTION intersect info⟩
  | none => none

/-- The function `raytrace(ray_in, scene)` of `raytracer.cpp`. -/
def raytrace (LIGHT_DIRECTION : Vec3f) (intersect : Intersect) (refract : Refract)
    (ray_in : Ray) : Vec3f :=
  (loop (body LIGHT_DIRECTION intersect refract) MAX_DEPTH ⟨ray_in, Vec3f.splat 0⟩).color

end Ref

/-! ### `raytracer-ssaa.cpp` -/

namespace SSAA

/-- The diffuse branch of `raytracer-ssaa.cpp` (lines 48-59). -/
def directLight (LIGHT_DIRECTION : Vec3f) (intersect : Intersect) (info : IntersectInfo) :
    Vec3f :=
  let shadow_ray : Ray := ⟨info.hitPos, LIGHT_DIRECTION⟩
  if (intersect shadow_ray).isNone then
    max (dot LIGHT_DIRECTION info.hitNormal) 0 * info.hitSphere.kd
  else
    Vec3f.splat (1 / 10) * info.hitSphere.kd

/-- The Glass branch of `raytracer-ssaa.cpp` (lines 36-44) as a function of the
callee: `refractFn` stands for the function that the two calls of `refract` reach,
so that the arguments of the calls can be observed. -/
def glassDirectionOf (refractFn : Vec3f → Vec3f → ℚ → ℚ → Vec3f)
    (direction hitNormal : Vec3f) : Vec3f :=
  let is_inside : Bool := decide (dot (-direction) hitNormal < 0)
  if !is_inside then
    refractFn (-direction) hitNormal 1 (3 / 2)
  else
    refractFn (-direction) (-hitNormal) (3 / 2) 1

/-- The direction of the next ray on a Glass hit in `raytracer-ssaa.cpp` (lines 36-44):
the Glass branch with the `refract` of that file as callee. -/
def glassDirection (direction hitNormal : Vec3f) : Vec3f :=
  glassDirectionOf refract direction hitNormal

/-- One iteration of the loop of `raytracer-ssaa.cpp` (lines 30-63). -/
def body (LIGHT_DIRECTION : Vec3f) (intersect : Intersect) (s : State) : Option State :=
  match intersect s.ray with
  | some info =>
    if info.hitSphere.material_type = MaterialType.Mirror then
      some ⟨⟨info.hitPos, reflect (-s.ray.direction) info.hitNormal⟩, s.color⟩
    else if info.hitSphere.material_type = MaterialType.Glass then
      some ⟨⟨info.hitPos, glassDirection s.ray.direction info.hitNormal⟩, s.color⟩
    else
      some ⟨s.ray, directLight LIGHT_DIRECTION intersect info⟩
  | none => none

/-- The function `raytrace(ray_in, scene)` of `raytracer-ssaa.cpp`. -/
def raytrace (LIGHT_DIRECTION : Vec3f) (intersect : Intersect) (ray_in : Ray) : Vec3f :=
  (loop (body LIGHT_DIRECTION intersect) MAX_DEPTH ⟨ray_in, Vec3f.splat 0⟩).color

end SSAA

/-! ## The sampling drivers (`main`) -/

namespace Ref

/-- The coordinate `u` of pixel column `i` in `raytracer.cpp` (line 97):
`(2.0f * i - width) / height`. -/
def pixelU (width height i : ℤ) : ℚ := (2 * (i : ℚ) - width) / height

/-- The coordinate `v` of pixel row `j` in `raytracer.cpp` (line 98):
`(2.0f * j - height) / height`. -/
def pixelV (height j : ℤ) : ℚ := (2 * (j : ℚ) - height) / height

/-- The colour handed to `img.setPixel(i, j, ...)` by `raytracer.cpp` (lines 97-104),
before the gamma correction of the whole image. -/
def pixel (LIGHT_DIRECTION : Vec3f) (intersect : Intersect) (refract : Refract)
    (sampleRay : ℚ → ℚ → Ray) (width height i j : ℤ) : Vec3f :=
  raytrace LIGHT_DIRECTION intersect refract (sampleRay (pixelU width height i) (pixelV height j))

end Ref

namespace SSAA

/-- The constant `constexpr int SSAA_samples = 16`. -/
def SSAA_samples : Nat := 16

/-- The coordinate computed from a pixel index `i` and a jitter draw `r` in
`raytracer-ssaa.cpp` (lines 96-97): `(2.0f * (i + r) - extent) / height`, with
`extent = width` for `u` and `extent = height` for `v`. -/
def sampleCoord (extent height i : ℤ) (r : ℚ) : ℚ := (2 * ((i : ℚ) + r) - extent) / height

/-- The colour handed to `img.setPixel(i, j, color)` by `raytracer-ssaa.cpp`
(lines 93-110).  The generator is the stream `rng` of the values returned by the
successive calls of `rng.getNext()`; `base` calls were made before this pixel, so
sample `k` draws `rng (base + 2*k)` for `u` and then `rng (base + 2*k + 1)` for `v`. -/
def pixel (LIGHT_DIRECTION : Vec3f) (intersect : Intersect) (sampleRay : ℚ → ℚ → Ray)
    (rng : Nat → ℚ) (base : Nat) (width height i j : ℤ) : Vec3f :=
  let color := (List.range SSAA_samples).foldl
    (fun color k =>
      let u := sampleCoord width height i (rng (base + 2 * k))
      let v := sampleCoord height height j (rng (base + 2 * k + 1))
      color + raytrace LIGHT_DIRECTION intersect (sampleRay u v))
    (Vec3f.splat 0)
  color / Vec3f.splat (SSAA_samples : ℚ)

end SSAA

/-! ## The path of a ray through the loop -/

/-- The state of `raytrace` after `k` complete iterations started in state `s`;
`none` when one of these iterations executed `break`. -/
def stateAt (body : State → Option State) : Nat → State → Option State
  | 0, s => some s
  | k + 1, s => (body s).bind (stateAt body k)

/-- The iteration started in state `s` exists (`s` is not `none`) and its
nearest-hit query hits a Mirror or a Glass sphere. -/
def HitsSpecular (intersect : Intersect) (s : Option State) : Prop :=
  ∃ st info, s = some st ∧ intersect st.ray = some info ∧
    (info.hitSphere.material_type = MaterialType.Mirror ∨
      info.hitSphere.material_type = MaterialType.Glass)

/-! ## The scene query -/

/-- Modelled from the spec: the square root used by the sphere intersection of
`scene.h` (absent from the sources), restricted to the rationals.  It is the square
root on squares of rationals, where every theorem below evaluates it; elsewhere it
rounds numerator and denominator down separately and is not the square root of the
specification (`sqrtQ (3/4) = 1/2`). -/
def sqrtQ (a : ℚ) : ℚ := (Nat.sqrt a.num.toNat : ℚ) / (Nat.sqrt a.den : ℚ)

/-- Modelled from the spec: the record of a hit of `sphere` at parameter `t`
(`scene.h` is absent from the sources): position `origin + t*direction`, normal
`(hitPos - center)/radius`. -/
def Sphere.hitAt (sphere : Sphere) (ray : Ray) (t : ℚ) : IntersectInfo :=
  let hitPos := ray.origin + t * ray.direction
  ⟨t, hitPos, (hitPos - sphere.center) / sphere.radius, sphere⟩

/-- Modelled from the spec: the ray-sphere intersection of `scene.h` (absent from
the sources).  With `oc = origin - center`, `b = dot(oc, direction)`,
`c = dot(oc, oc) - radius²` and `disc = b² - c`: no hit when `disc < 0`; otherwise
the smaller root `-b - sqrt(disc)` when it exceeds `eps`, else the larger root when
that exceeds `eps`, else no hit. -/
def Sphere.intersect (sqrt : ℚ → ℚ) (eps : ℚ) (sphere : Sphere) (ray : Ray) :
    Option IntersectInfo :=
  let oc := ray.origin - sphere.center
  let b := dot oc ray.direction
  let c := dot oc oc - sphere.radius * sphere.radius
  let disc := b * b - c
  if disc < 0 then none
  else
    let t1 := -b - sqrt disc
    let t2 := -b + sqrt disc
    if eps < t1 then some (sphere.hitAt ray t1)
    else if eps < t2 then some (sphere.hitAt ray t2)
    else none

/-- Modelled from the spec: one step of the linear scan of `Scene::intersect`
(`scene.h` is absent from the sources): keep the hit with the smallest accepted `t`. -/
def Scene.nearer (best hit : Option IntersectInfo) : Option IntersectInfo :=
  match hit with
  | none => best
  | some info =>
    match best with
    | none => some info
    | some b => if info.t < b.t then some info else some b

/-- Modelled from the spec: the nearest-hit query `Scene::intersect` of `scene.h`
(absent from the sources): evaluate every sphere, keep the globally smallest
accepted `t`, report no hit when no sphere is hit. -/
def Scene.intersect (sqrt : ℚ → ℚ) (eps : ℚ) (spheres : List Sphere) : Intersect :=
  fun ray =>
    spheres.foldl (fun best sphere => Scene.nearer best (sphere.intersect sqrt eps ray)) none

/-! ## Concrete scenes -/

/-- The acceptance bound of the sphere intersection used in the concrete scenes. -/
def sceneEps : ℚ := 1 / 1000

/-- A rational unit vector close to `normalize(Vec3f(0.5, 1, 0.5))`. -/
def lightQ : Vec3f := ⟨3 / 7, 6 / 7, 2 / 7⟩

/-- The unit sphere at the origin with the given material and white `kd`. -/
def unitSphere (m : MaterialType) : Sphere := ⟨⟨0, 0, 0⟩, 1, ⟨1, 1, 1⟩, m⟩

/-- A Diffuse unit sphere centred at `(0, 0, 6)`. -/
def farDiffuse : Sphere := ⟨⟨0, 0, 6⟩, 1, ⟨9 / 10, 1 / 5, 1 / 5⟩, MaterialType.Diffuse⟩

/-- A Diffuse sphere of radius 5 centred at `(0, 0, 1)`; it encloses the unit
sphere at the origin and the point `(0, 0, 3)`. -/
def domeDiffuse : Sphere := ⟨⟨0, 0, 1⟩, 5, ⟨1, 1, 1⟩, MaterialType.Diffuse⟩

/-- The ray from `(0, 0, 3)` straight down the z-axis. -/
def axisRay : Ray := ⟨⟨0, 0, 3⟩, ⟨0, 0, -1⟩⟩

/-- The ray from `(0, 0, 3)` up the z-axis, away from the origin. -/
def awayRay : Ray := ⟨⟨0, 0, 3⟩, ⟨0, 0, 1⟩⟩

/-- The empty scene. -/
def emptyScene : Intersect := Scene.intersect sqrtQ sceneEps []

/-- A Mirror unit sphere at the origin in front of a Diffuse sphere. -/
def mirrorScene : Intersect :=
  Scene.intersect sqrtQ sceneEps [unitSphere MaterialType.Mirror, farDiffuse]

/-- A single Glass unit sphere at the origin. -/
def glassScene : Intersect := Scene.intersect sqrtQ sceneEps [unitSphere MaterialType.Glass]

/-- A Glass unit sphere at the origin inside a Diffuse dome that also contains the camera. -/
def domeScene : Intersect :=
  Scene.intersect sqrtQ sceneEps [unitSphere MaterialType.Glass, domeDiffuse]

/-- A single Diffuse unit sphere at the origin. -/
def diffuseScene : Intersect :=
  Scene.intersect sqrtQ sceneEps [unitSphere MaterialType.Diffuse]

/-- A single Mirror unit sphere at the origin (the camera may sit inside it). -/
def ballScene : Intersect := Scene.intersect sqrtQ sceneEps [unitSphere MaterialType.Mirror]

/-- The ray from the centre of the unit sphere up the z-axis. -/
def centreRay : Ray := ⟨⟨0, 0, 0⟩, ⟨0, 0, 1⟩⟩

/-- The ray from the north pole of the unit sphere down the z-axis. -/
def poleDownRay : Ray := ⟨⟨0, 0, 1⟩, ⟨0, 0, -1⟩⟩

/-- The ray from the south pole of the unit sphere up the z-axis. -/
def poleUpRay : Ray := ⟨⟨0, 0, -1⟩, ⟨0, 0, 1⟩⟩

/-- An orthographic stand-in for `camera.sampleRay`: the ray through `(u, v, 3)`
down the z-axis. -/
def orthoCamera : ℚ → ℚ → Ray := fun u v => ⟨⟨u, v, 3⟩, ⟨0, 0, -1⟩⟩

/-- A generator whose every draw is zero. -/
def zeroRng : Nat → ℚ := fun _ => 0

/-- A `refract` for `raytracer.cpp` that always reports failure. -/
def refractFail : Refract := fun _ _ _ _ => none

/-- The ray that hits the unit sphere at `(-6/7, 2/7, 3/7)` along the normal there;
the normal makes the angle of cosine `1/(7*sqrt 6)`, about `0.058`, with
`normalize(Vec3f(0.5, 1, 0.5))`. -/
def grazeRay : Ray := ⟨⟨-18 / 7, 6 / 7, 9 / 7⟩, ⟨6 / 7, -2 / 7, -3 / 7⟩⟩

/-- A box of directions around `LIGHT_DIRECTION = normalize(Vec3f(0.5, 1, 0.5))`, that
is `(1, 2, 1)/sqrt 6`, about `(0.408248, 0.816497, 0.408248)`. -/
def NearLight (L : Vec3f) : Prop :=
  408 / 1000 ≤ L.x ∧ L.x ≤ 409 / 1000 ∧ 816 / 1000 ≤ L.y ∧ L.y ≤ 817 / 1000 ∧
    408 / 1000 ≤ L.z ∧ L.z ≤ 409 / 1000

/-! ## Notions used to state the properties -/

/-- The component-wise order on colours: every component of `a` is at most the
corresponding component of `b`. -/
def Vec3f.AllLE (a b : Vec3f) : Prop := a.x ≤ b.x ∧ a.y ≤ b.y ∧ a.z ≤ b.z

instance (a b : Vec3f) : Decidable (Vec3f.AllLE a b) := by
  unfold Vec3f.AllLE
  exact inferInstance

/-- The iteration started in state `s` exists and its nearest-hit query hits a
Diffuse sphere, with hit record `info`. -/
def HitsDiffuse (intersect : Intersect) (s : Option State) (info : IntersectInfo) : Prop :=
  ∃ st, s = some st ∧ intersect st.ray = some info ∧
    info.hitSphere.material_type = MaterialType.Diffuse

/-- The iteration started in state `s` exists and its nearest-hit query reports no
hit: the iteration executes `break`. -/
def Escapes (intersect : Intersect) (s : Option State) : Prop :=
  ∃ st, s = some st ∧ intersect st.ray = none

/-- The iteration started in state `s`, if it exists, does not hit a Glass sphere. -/
def AvoidsGlass (intersect : Intersect) (s : Option State) : Prop :=
  ∀ st info, s = some st → intersect st.ray = some info →
    info.hitSphere.material_type ≠ MaterialType.Glass

/-! ## The call of `refract` -/

/-- The number of calls of `scene.intersect` made so far: `bounce` counts the
nearest-hit queries on the bounce ray (line 19 of `raytracer.cpp`, line 30 of
`raytracer-ssaa.cpp`), `shadow` the queries on the shadow ray (lines 54 and 52). -/
structure Queries where
  bounce : Nat
  shadow : Nat
  deriving DecidableEq

/-- One iteration of the loop of `raytracer.cpp` together with the queries it makes:
one on the bounce ray, and one on the shadow ray in the diffuse branch. -/
def Ref.bodyQ (LIGHT_DIRECTION : Vec3f) (intersect : Intersect) (refract : Refract)
    (s : State) : Option State × Queries :=
  match intersect s.ray with
  | some info =>
    if info.hitSphere.material_type = MaterialType.Mirror then
      (some ⟨⟨info.hitPos, reflect (-s.ray.direction) info.hitNormal⟩, s.color⟩, ⟨1, 0⟩)
    else if info.hitSphere.material_type = MaterialType.Glass then
      (some ⟨⟨info.hitPos, Ref.glassDirection refract s.ray.direction info.hitNormal⟩, s.color⟩,
        ⟨1, 0⟩)
    else
      (some ⟨s.ray, Ref.directLight LIGHT_DIRECTION intersect info⟩, ⟨1, 1⟩)
  | none => (none, ⟨1, 0⟩)

/-- One iteration of the loop of `raytracer-ssaa.cpp` together with the queries it
makes: one on the bounce ray, and one on the shadow ray in the diffuse branch. -/
def SSAA.bodyQ (LIGHT_DIRECTION : Vec3f) (intersect : Intersect) (s : State) :
    Option State × Queries :=
  match intersect s.ray with
  | some info =>
    if info.hitSphere.material_type = MaterialType.Mirror then
      (some ⟨⟨info.hitPos, reflect (-s.ray.direction) info.hitNormal⟩, s.color⟩, ⟨1, 0⟩)
    else if info.hitSphere.material_type = MaterialType.Glass then
      (some ⟨⟨info.hitPos, SSAA.glassDirection s.ray.direction info.hitNormal⟩, s.color⟩,
        ⟨1, 0⟩)
    else
      (some ⟨s.ray, SSAA.directLight LIGHT_DIRECTION intersect info⟩, ⟨1, 1⟩)
  | none => (none, ⟨1, 0⟩)

/-- The `for` loop of `raytrace` together with the queries made: `n` iterations
remain, `q` queries were made before. -/
def loopQ (bodyQ : State → Option State × Queries) : Nat → State → Queries → State × Queries
  | 0, s, q => (s, q)
  | n + 1, s, q =>
    match bodyQ s with
    | (some s', d) => loopQ bodyQ n s' ⟨q.bounce + d.bounce, q.shadow + d.shadow⟩
    | (none, d) => (s, ⟨q.bounce + d.bounce, q.shadow + d.shadow⟩)

/-! ## IEEE binary32 arithmetic

The type `float` of the programs is IEEE 754 binary32.  A finite `float` is a
rational number of the form `m * 2^q` with `|m| < 2^24` and `-149 ≤ q ≤ 104`.  An
arithmetic operation computes the exact rational result and rounds it to the
nearest `float`, ties to the even significand; `none` stands for a result that is
not a finite `float` (overflow, division by zero). -/

namespace F32

/-- The integer nearest to `y`, the even one of the two when `y` lies half-way. -/
def nearestEven (y : ℚ) : ℤ :=
  if y - ⌊y⌋ < 1 / 2 then ⌊y⌋
  else if 1 / 2 < y - ⌊y⌋ then ⌊y⌋ + 1
  else if ⌊y⌋ % 2 = 0 then ⌊y⌋ else ⌊y⌋ + 1

/-- The binary logarithm of `n`, rounded down, by repeated halving (`fuel` bounds
the number of halvings). -/
def log2Fuel : Nat → Nat → Nat
  | 0, _ => 0
  | fuel + 1, n => if 2 ≤ n then log2Fuel fuel (n / 2) + 1 else 0

/-- The binary logarithm of a natural number, rounded down (`0` at `0`). -/
def log2 (n : Nat) : Nat := log2Fuel n n

/-- The binary exponent of `x ≠ 0`: the integer `e` with `2^e ≤ |x| < 2^(e+1)`. -/
def ilog2 (x : ℚ) : ℤ :=
  if x.num.natAbs * 2 ^ log2 x.den < x.den * 2 ^ log2 x.num.natAbs then
    (log2 x.num.natAbs : ℤ) - (log2 x.den : ℤ) - 1
  else
    (log2 x.num.natAbs : ℤ) - (log2 x.den : ℤ)

/-- The exponent of the unit in the last place of the `float`s around `x`: 24
significant bits, and the spacing `2^-149` of the subnormal range below `2^-126`. -/
def quantum (x : ℚ) : ℤ := max (ilog2 x) (-126) - 23

/-- Rounding of an exact result to `float`: to the nearest multiple of the unit in
the last place, ties to even; `none` when the rounded value reaches `2^128`. -/
def round (x : ℚ) : Option ℚ :=
  if x = 0 then some 0
  else
    let y := (nearestEven (x / 2 ^ quantum x) : ℚ) * 2 ^ quantum x
    if |y| < 2 ^ 128 then some y else none

/-- The value `x` is a finite `float`: rounding leaves it unchanged. -/
def IsFloat (x : ℚ) : Prop := round x = some x

instance (x : ℚ) : Decidable (IsFloat x) :=
  inferInstanceAs (Decidable (round x = some x))

/-- All three components of `v` are finite `float`s. -/
def IsVec (v : Vec3f) : Prop := IsFloat v.x ∧ IsFloat v.y ∧ IsFloat v.z

instance (v : Vec3f) : Decidable (IsVec v) :=
  inferInstanceAs (Decidable (IsFloat v.x ∧ IsFloat v.y ∧ IsFloat v.z))

/-- The vector `n` is one of the six unit vectors along the coordinate axes. -/
def IsAxis (n : Vec3f) : Prop :=
  n = ⟨1, 0, 0⟩ ∨ n = ⟨-1, 0, 0⟩ ∨ n = ⟨0, 1, 0⟩ ∨ n = ⟨0, -1, 0⟩ ∨ n = ⟨0, 0, 1⟩ ∨
    n = ⟨0, 0, -1⟩

instance (n : Vec3f) : Decidable (IsAxis n) :=
  inferInstanceAs (Decidable (n = ⟨1, 0, 0⟩ ∨ n = ⟨-1, 0, 0⟩ ∨ n = ⟨0, 1, 0⟩ ∨ n = ⟨0, -1, 0⟩ ∨
    n = ⟨0, 0, 1⟩ ∨ n = ⟨0, 0, -1⟩))

/-- Every component of `a` is at most `B` in absolute value. -/
def AbsLE (a : Vec3f) (B : ℚ) : Prop := |a.x| ≤ B ∧ |a.y| ≤ B ∧ |a.z| ≤ B

/-- Every component of `a` differs from that of `b` by at most `tol`. -/
def Within (tol : ℚ) (a b : Vec3f) : Prop :=
  |a.x - b.x| ≤ tol ∧ |a.y - b.y| ≤ tol ∧ |a.z - b.z| ≤ tol

/-- The sum `a + b` of two `float`s. -/
def add (a b : ℚ) : Option ℚ := round (a + b)

/-- The difference `a - b` of two `float`s. -/
def sub (a b : ℚ) : Option ℚ := round (a - b)

/-- The product `a * b` of two `float`s. -/
def mul (a b : ℚ) : Option ℚ := round (a * b)

/-- The quotient `a / b` of two `float`s. -/
def div (a b : ℚ) : Option ℚ := if b = 0 then none else round (a / b)

/-- The conversion of an `int` to `float`. -/
def ofInt (n : ℤ) : Option ℚ := round n

/-- The inner product `dot(a, b)` in `float` (`vec3.h` is absent from the sources):
the three products `a.x*b.x`, `a.y*b.y`, `a.z*b.z`, summed from the left. -/
def dot (a b : Vec3f) : Option ℚ := do
  let px ← mul a.x b.x
  let py ← mul a.y b.y
  let pz ← mul a.z b.z
  let s ← add px py
  add s pz

/-- The product `float * Vec3f` in `float`. -/
def scale (k : ℚ) (a : Vec3f) : Option Vec3f := do
  let x ← mul k a.x
  let y ← mul k a.y
  let z ← mul k a.z
  pure ⟨x, y, z⟩

/-- The sum `Vec3f + Vec3f` in `float`. -/
def vadd (a b : Vec3f) : Option Vec3f := do
  let x ← add a.x b.x
  let y ← add a.y b.y
  let z ← add a.z b.z
  pure ⟨x, y, z⟩

/-- The quotient `Vec3f / Vec3f` in `float`. -/
def vdiv (a b : Vec3f) : Option Vec3f := do
  let x ← div a.x b.x
  let y ← div a.y b.y
  let z ← div a.z b.z
  pure ⟨x, y, z⟩

/-- The function `reflect` of `raytracer-ssaa.cpp` (lines 12-14) in `float`:
`-v + 2.0f * dot(v, n) * n`, every operation rounded; the negation is exact. -/
def reflect (v n : Vec3f) : Option Vec3f := do
  let d ← dot v n
  let k ← mul 2 d
  let kn ← scale k n
  vadd (-v) kn

/-- The coordinate of `raytracer.cpp` (lines 97-98) in `float`:
`(2.0f * i - extent) / height`. -/
def pixelCoord (extent height i : ℤ) : Option ℚ := do
  let fi ← ofInt i
  let t ← mul 2 fi
  let fe ← ofInt extent
  let w ← sub t fe
  let fh ← ofInt height
  div w fh

/-- The coordinate of `raytracer-ssaa.cpp` (lines 96-97) in `float`:
`(2.0f * (i + r) - extent) / height`, where `r` is the value of `rng.getNext()`
(`rng.h` is absent from the sources; the specification gives a `float` in `[0, 1)`). -/
def sampleCoord (extent height i : ℤ) (r : ℚ) : Option ℚ := do
  let fi ← ofInt i
  let s ← add fi r
  let t ← mul 2 s
  let fe ← ofInt extent
  let w ← sub t fe
  let fh ← ofInt height
  div w fh

/-- The sum of `n` samples of the same colour `c`, added one by one to `color` with
the rounded `+=` of `raytracer-ssaa.cpp` (line 105). -/
def sumSame (c : Vec3f) : Nat → Vec3f → Option Vec3f
  | 0, color => some color
  | n + 1, color => (vadd color c).bind (sumSame c n)

/-- The pixel of `raytracer-ssaa.cpp` when every one of the `n` samples has the
colour `c`: the rounded sum of lines 94 and 105, divided by `Vec3f(n)` (line 109). -/
def meanSame (c : Vec3f) (n : Nat) : Option Vec3f := do
  let color ← sumSame c n (Vec3f.splat 0)
  let fn ← ofInt n
  vdiv color (Vec3f.splat fn)

/-- The colour handed to `img.setPixel(i, j, color)` by `raytracer-ssaa.cpp` (lines
93-110) in `float`.  The function `raytrace` stands for `raytrace(ray, scene)` with
the scene of the run, as a function from rays to `float` colours; the generator is
the stream `rng`, read as in the exact driver. -/
def pixel (raytrace : Ray → Vec3f) (sampleRay : ℚ → ℚ → Ray) (rng : Nat → ℚ) (base : Nat)
    (width height i j : ℤ) : Option Vec3f := do
  let color ← (List.range SSAA.SSAA_samples).foldlM
    (fun color k => do
      let u ← sampleCoord width height i (rng (base + 2 * k))
      let v ← sampleCoord height height j (rng (base + 2 * k + 1))
      vadd color (raytrace (sampleRay u v)))
    (Vec3f.splat 0)
  let fn ← ofInt SSAA.SSAA_samples
  vdiv color (Vec3f.splat fn)

end F32

/-! ## Theorems -/

/-! ### Vector arithmetic -/

namespace Vec3f

theorem add_def (a b : Vec3f) : a + b = ⟨a.x + b.x, a.y + b.y, a.z + b.z⟩ := rfl

theorem sub_def (a b : Vec3f) : a - b = ⟨a.x - b.x, a.y - b.y, a.z - b.z⟩ := rfl

theorem neg_def (a : Vec3f) : -a = ⟨-a.x, -a.y, -a.z⟩ := rfl

theorem mul_def (a b : Vec3f) : a * b = ⟨a.x * b.x, a.y * b.y, a.z * b.z⟩ := rfl

theorem div_def (a b : Vec3f) : a / b = ⟨a.x / b.x, a.y / b.y, a.z / b.z⟩ := rfl

theorem smul_def (k : ℚ) (a : Vec3f) : k * a = ⟨k * a.x, k * a.y, k * a.z⟩ := rfl

theorem sdiv_def (a : Vec3f) (k : ℚ) : a / k = ⟨a.x / k, a.y / k, a.z / k⟩ := rfl

theorem zero_def : (0 : Vec3f) = ⟨0, 0, 0⟩ := rfl

theorem splat_def (a : ℚ) : splat a = ⟨a, a, a⟩ := rfl

/-- The component-wise product with `Vec3f(a)` is the scalar product with `a`. -/
theorem splat_mul (a : ℚ) (v : Vec3f) : splat a * v = a * v := rfl

end Vec3f

/-! ### The rational square root -/

theorem sqrtQ_sq (a : ℚ) : sqrtQ (a * a) = |a| := by
  unfold sqrtQ
  rw [Rat.mul_self_num, Rat.mul_self_den]
  have h1 : (a.num * a.num).toNat = a.num.natAbs * a.num.natAbs := by
    have h2 : a.num * a.num = ((a.num.natAbs * a.num.natAbs : ℕ) : ℤ) := by
      rw [← Int.natAbs_mul_self]
    rw [h2, Int.toNat_natCast]
  rw [h1, Nat.sqrt_eq, Nat.sqrt_eq]
  have h3 : |a| = |(a.num : ℚ)| / (a.den : ℚ) := by
    conv_lhs => rw [← Rat.num_div_den a]
    rw [abs_div, Nat.abs_cast]
  rw [h3, Nat.cast_natAbs, Int.cast_abs]

theorem sqrtQ_zero : sqrtQ 0 = 0 := by
  have h := sqrtQ_sq 0
  simpa using h

theorem sqrtQ_one : sqrtQ 1 = 1 := by
  have h := sqrtQ_sq 1
  simpa using h

theorem sqrtQ_25 : sqrtQ 25 = 5 := by
  have h := sqrtQ_sq 5
  norm_num at h
  exact h

theorem sqrtQ_sq_of_nonneg (a : ℚ) (h : 0 ≤ a) : sqrtQ (a * a) = a := by
  rw [sqrtQ_sq, abs_of_nonneg h]

theorem sqrtQ_4_49 : sqrtQ (4 / 49) = 2 / 7 := by
  have h := sqrtQ_sq_of_nonneg (2 / 7) (by norm_num)
  norm_num at h
  exact h

/-! ### The concrete scenes -/

theorem glassScene_awayRay : glassScene awayRay = none := by
  norm_num [glassScene, Scene.intersect, Sphere.intersect, Scene.nearer, unitSphere,
    awayRay, sceneEps, dot, Vec3f.sub_def, sqrtQ_one]

theorem glassScene_axisRay :
    glassScene axisRay = some ((unitSphere MaterialType.Glass).hitAt axisRay 2) := by
  norm_num [glassScene, Scene.intersect, Sphere.intersect, Scene.nearer, unitSphere,
    axisRay, sceneEps, dot, Sphere.hitAt, Vec3f.add_def, Vec3f.sub_def, Vec3f.smul_def,
    Vec3f.sdiv_def, sqrtQ_one]

theorem glassScene_zero : glassScene ⟨⟨0, 0, 1⟩, Vec3f.splat 0⟩ = none := by
  norm_num [glassScene, Scene.intersect, Sphere.intersect, Scene.nearer, unitSphere,
    sceneEps, dot, Vec3f.sub_def, Vec3f.splat_def, sqrtQ_zero]

theorem mirrorScene_axisRay :
    mirrorScene axisRay = some ((unitSphere MaterialType.Mirror).hitAt axisRay 2) := by
  norm_num [mirrorScene, Scene.intersect, Sphere.intersect, Scene.nearer, unitSphere, farDiffuse,
    axisRay, sceneEps, dot, Sphere.hitAt, Vec3f.add_def, Vec3f.sub_def, Vec3f.smul_def,
    Vec3f.sdiv_def, sqrtQ_one]

theorem mirrorScene_reflected :
    mirrorScene ⟨⟨0, 0, 1⟩, ⟨0, 0, 1⟩⟩ = some (farDiffuse.hitAt ⟨⟨0, 0, 1⟩, ⟨0, 0, 1⟩⟩ 4) := by
  norm_num [mirrorScene, Scene.intersect, Sphere.intersect, Scene.nearer, unitSphere, farDiffuse,
    sceneEps, dot, Sphere.hitAt, Vec3f.add_def, Vec3f.sub_def, Vec3f.smul_def,
    Vec3f.sdiv_def, sqrtQ_one]

theorem domeScene_axisRay :
    domeScene axisRay = some ((unitSphere MaterialType.Glass).hitAt axisRay 2) := by
  norm_num [domeScene, Scene.intersect, Sphere.intersect, Scene.nearer, unitSphere, domeDiffuse,
    axisRay, sceneEps, dot, Sphere.hitAt, Vec3f.add_def, Vec3f.sub_def, Vec3f.smul_def,
    Vec3f.sdiv_def, sqrtQ_one, sqrtQ_25]

theorem domeScene_zero :
    domeScene ⟨⟨0, 0, 1⟩, Vec3f.splat 0⟩ =
      some (domeDiffuse.hitAt ⟨⟨0, 0, 1⟩, Vec3f.splat 0⟩ 5) := by
  norm_num [domeScene, Scene.intersect, Sphere.intersect, Scene.nearer, unitSphere, domeDiffuse,
    sceneEps, dot, Sphere.hitAt, Vec3f.add_def, Vec3f.sub_def, Vec3f.smul_def,
    Vec3f.sdiv_def, sqrtQ_zero, sqrtQ_25, Vec3f.splat_def]

/-- Inside the dome every shadow ray from its centre is occluded, whatever the light direction. -/
theorem domeScene_shadow (L : Vec3f) : (domeScene ⟨⟨0, 0, 1⟩, L⟩).isNone = false := by
  have h : domeDiffuse.intersect sqrtQ sceneEps ⟨⟨0, 0, 1⟩, L⟩ =
      some (domeDiffuse.hitAt ⟨⟨0, 0, 1⟩, L⟩ 5) := by
    norm_num [Sphere.intersect, domeDiffuse, sceneEps, dot, Vec3f.sub_def, sqrtQ_25]
  simp only [domeScene, Scene.intersect, List.foldl, h]
  cases (unitSphere MaterialType.Glass).intersect sqrtQ sceneEps ⟨⟨0, 0, 1⟩, L⟩ <;>
    simp [Scene.nearer]
  split <;> rfl

theorem diffuseScene_axisRay :
    diffuseScene axisRay = some ((unitSphere MaterialType.Diffuse).hitAt axisRay 2) := by
  norm_num [diffuseScene, Scene.intersect, Sphere.intersect, Scene.nearer, unitSphere,
    axisRay, sceneEps, dot, Sphere.hitAt, Vec3f.add_def, Vec3f.sub_def, Vec3f.smul_def,
    Vec3f.sdiv_def, sqrtQ_one]

/-- The top of the Diffuse unit sphere sees the light: the shadow ray grazes only
the sphere it starts on, at parameters `-4/7` and `0`. -/
theorem diffuseScene_shadow : diffuseScene ⟨⟨0, 0, 1⟩, lightQ⟩ = none := by
  norm_num [diffuseScene, Scene.intersect, Sphere.intersect, Scene.nearer, unitSphere,
    lightQ, sceneEps, dot, Vec3f.sub_def, sqrtQ_4_49]

/-- The underside of the far Diffuse sphere is in its own shadow: the shadow ray
leaves the sphere again at parameter `4/7`. -/
theorem mirrorScene_shadow :
    mirrorScene ⟨⟨0, 0, 5⟩, lightQ⟩ = some (farDiffuse.hitAt ⟨⟨0, 0, 5⟩, lightQ⟩ (4 / 7)) := by
  norm_num [mirrorScene, Scene.intersect, Sphere.intersect, Scene.nearer, unitSphere, farDiffuse,
    lightQ, sceneEps, dot, Sphere.hitAt, Vec3f.add_def, Vec3f.sub_def, Vec3f.smul_def,
    Vec3f.sdiv_def, sqrtQ_4_49]

/-- The ray from the centre of the unit sphere up the z-axis hits it from inside. -/
theorem glassScene_inside :
    glassScene ⟨⟨0, 0, 0⟩, ⟨0, 0, 1⟩⟩ =
      some ((unitSphere MaterialType.Glass).hitAt ⟨⟨0, 0, 0⟩, ⟨0, 0, 1⟩⟩ 1) := by
  norm_num [glassScene, Scene.intersect, Sphere.intersect, Scene.nearer, unitSphere,
    sceneEps, dot, Sphere.hitAt, Vec3f.add_def, Vec3f.sub_def, Vec3f.smul_def,
    Vec3f.sdiv_def, sqrtQ_one]

theorem ballScene_centreRay :
    ballScene centreRay = some ((unitSphere MaterialType.Mirror).hitAt centreRay 1) := by
  norm_num [ballScene, Scene.intersect, Sphere.intersect, Scene.nearer, unitSphere,
    centreRay, sceneEps, dot, Sphere.hitAt, Vec3f.add_def, Vec3f.sub_def, Vec3f.smul_def,
    Vec3f.sdiv_def, sqrtQ_one]

theorem ballScene_poleDownRay :
    ballScene poleDownRay = some ((unitSphere MaterialType.Mirror).hitAt poleDownRay 2) := by
  norm_num [ballScene, Scene.intersect, Sphere.intersect, Scene.nearer, unitSphere,
    poleDownRay, sceneEps, dot, Sphere.hitAt, Vec3f.add_def, Vec3f.sub_def, Vec3f.smul_def,
    Vec3f.sdiv_def, sqrtQ_one]

theorem ballScene_poleUpRay :
    ballScene poleUpRay = some ((unitSphere MaterialType.Mirror).hitAt poleUpRay 2) := by
  norm_num [ballScene, Scene.intersect, Sphere.intersect, Scene.nearer, unitSphere,
    poleUpRay, sceneEps, dot, Sphere.hitAt, Vec3f.add_def, Vec3f.sub_def, Vec3f.smul_def,
    Vec3f.sdiv_def, sqrtQ_one]

/-- Inside the Mirror ball the ray from the centre is reflected onto the axis ray
from the north pole. -/
theorem ball_next_centre :
    (⟨((unitSphere MaterialType.Mirror).hitAt centreRay 1).hitPos,
      reflect (-centreRay.direction) ((unitSphere MaterialType.Mirror).hitAt centreRay 1).hitNormal⟩ :
      Ray) = poleDownRay := by
  norm_num [Sphere.hitAt, unitSphere, centreRay, poleDownRay, reflect, dot, Vec3f.add_def,
    Vec3f.sub_def, Vec3f.neg_def, Vec3f.smul_def, Vec3f.sdiv_def]

theorem ball_next_down :
    (⟨((unitSphere MaterialType.Mirror).hitAt poleDownRay 2).hitPos,
      reflect (-poleDownRay.direction)
        ((unitSphere MaterialType.Mirror).hitAt poleDownRay 2).hitNormal⟩ : Ray) = poleUpRay := by
  norm_num [Sphere.hitAt, unitSphere, poleUpRay, poleDownRay, reflect, dot, Vec3f.add_def,
    Vec3f.sub_def, Vec3f.neg_def, Vec3f.smul_def, Vec3f.sdiv_def]

theorem ball_next_up :
    (⟨((unitSphere MaterialType.Mirror).hitAt poleUpRay 2).hitPos,
      reflect (-poleUpRay.direction)
        ((unitSphere MaterialType.Mirror).hitAt poleUpRay 2).hitNormal⟩ : Ray) = poleDownRay := by
  norm_num [Sphere.hitAt, unitSphere, poleUpRay, poleDownRay, reflect, dot, Vec3f.add_def,
    Vec3f.sub_def, Vec3f.neg_def, Vec3f.smul_def, Vec3f.sdiv_def]

/-! ### Reflection -/

/-- The function `reflect` does not see the sign of the normal. -/
theorem reflect_neg_normal (v n : Vec3f) : reflect v (-n) = reflect v n := by
  ext <;> simp [reflect, dot, Vec3f.add_def, Vec3f.neg_def, Vec3f.smul_def] <;> ring

/-- The reflection of the negated ray direction, written in the ray direction `d`. -/
theorem reflect_neg_direction (d n : Vec3f) : reflect (-d) n = d - (2 * dot d n) * n := by
  ext <;> simp [reflect, dot, Vec3f.add_def, Vec3f.sub_def, Vec3f.neg_def, Vec3f.smul_def] <;>
    ring

/-! ### Rounding in `float` -/

namespace F32

theorem log2Fuel_spec : ∀ (fuel n : Nat), n ≤ fuel → n ≠ 0 →
    2 ^ log2Fuel fuel n ≤ n ∧ n < 2 ^ (log2Fuel fuel n + 1)
  | 0, n, h, h0 => absurd (Nat.le_zero.mp h) h0
  | fuel + 1, n, h, h0 => by
    unfold log2Fuel
    split_ifs with h2
    · obtain ⟨h1, h3⟩ := log2Fuel_spec fuel (n / 2) (by omega) (by omega)
      simp only [pow_succ] at h1 h3 ⊢
      generalize 2 ^ log2Fuel fuel (n / 2) = p at h1 h3 ⊢
      constructor <;> omega
    · constructor
      · simp; omega
      · simp; omega

theorem log2_spec (n : Nat) (h0 : n ≠ 0) : 2 ^ log2 n ≤ n ∧ n < 2 ^ (log2 n + 1) :=
  log2Fuel_spec n n le_rfl h0

/-- The exponent `ilog2 x` brackets `|x|` between two consecutive powers of two. -/
theorem ilog2_spec (x : ℚ) (hx : x ≠ 0) :
    (2 : ℚ) ^ ilog2 x ≤ |x| ∧ |x| < (2 : ℚ) ^ (ilog2 x + 1) := by
  have hN : x.num.natAbs ≠ 0 := by
    simpa using hx
  have hD : x.den ≠ 0 := x.den_nz
  obtain ⟨ha1, ha2⟩ := log2_spec _ hN
  obtain ⟨hd1, hd2⟩ := log2_spec _ hD
  have habs : |x| = (x.num.natAbs : ℚ) / (x.den : ℚ) := by
    conv_lhs => rw [← Rat.num_div_den x]
    rw [abs_div, Nat.cast_natAbs, Int.cast_abs, Nat.abs_cast]
  have hDpos : (0 : ℚ) < x.den := by exact_mod_cast Nat.pos_of_ne_zero hD
  have ha1q : (2 : ℚ) ^ log2 x.num.natAbs ≤ x.num.natAbs := by exact_mod_cast ha1
  have ha2q : (x.num.natAbs : ℚ) < 2 ^ (log2 x.num.natAbs + 1) := by exact_mod_cast ha2
  have hd1q : (2 : ℚ) ^ log2 x.den ≤ x.den := by exact_mod_cast hd1
  have hd2q : (x.den : ℚ) < 2 ^ (log2 x.den + 1) := by exact_mod_cast hd2
  have h2a : (0 : ℚ) < 2 ^ log2 x.num.natAbs := by positivity
  have h2d : (0 : ℚ) < 2 ^ log2 x.den := by positivity
  have hz : ∀ a d : ℕ, (2 : ℚ) ^ ((a : ℤ) - (d : ℤ)) = 2 ^ a / 2 ^ d := by
    intro a d
    rw [zpow_sub₀ (by norm_num), zpow_natCast, zpow_natCast]
  rw [habs]
  unfold ilog2
  split_ifs with hlt
  · have hltq : (x.num.natAbs : ℚ) * 2 ^ log2 x.den < x.den * 2 ^ log2 x.num.natAbs := by
      exact_mod_cast hlt
    constructor
    · rw [show ((log2 x.num.natAbs : ℤ) - (log2 x.den : ℤ) - 1) =
        ((log2 x.num.natAbs : ℕ) : ℤ) - ((log2 x.den + 1 : ℕ) : ℤ) by push_cast; ring, hz]
      rw [div_le_div_iff₀ (by positivity) hDpos]
      calc (2 : ℚ) ^ log2 x.num.natAbs * x.den ≤ x.num.natAbs * x.den := by
            apply mul_le_mul_of_nonneg_right ha1q hDpos.le
        _ ≤ x.num.natAbs * 2 ^ (log2 x.den + 1) := by
            apply mul_le_mul_of_nonneg_left hd2q.le (by positivity)
    · rw [show ((log2 x.num.natAbs : ℤ) - (log2 x.den : ℤ) - 1 + 1) =
        ((log2 x.num.natAbs : ℕ) : ℤ) - ((log2 x.den : ℕ) : ℤ) by ring, hz]
      rw [div_lt_div_iff₀ hDpos h2d]
      linarith
  · have hgeq : (x.den : ℚ) * 2 ^ log2 x.num.natAbs ≤ x.num.natAbs * 2 ^ log2 x.den := by
      exact_mod_cast not_lt.mp hlt
    constructor
    · rw [hz, div_le_div_iff₀ h2d hDpos]
      linarith
    · rw [show ((log2 x.num.natAbs : ℤ) - (log2 x.den : ℤ) + 1) =
        ((log2 x.num.natAbs + 1 : ℕ) : ℤ) - ((log2 x.den : ℕ) : ℤ) by push_cast; ring, hz]
      rw [div_lt_div_iff₀ hDpos h2d]
      calc (x.num.natAbs : ℚ) * 2 ^ log2 x.den < 2 ^ (log2 x.num.natAbs + 1) * 2 ^ log2 x.den := by
            apply mul_lt_mul_of_pos_right ha2q h2d
        _ ≤ 2 ^ (log2 x.num.natAbs + 1) * x.den := by
            apply mul_le_mul_of_nonneg_left hd1q (by positivity)

/-- Strict monotonicity of the powers of two, read backwards. -/
theorem zpow_two_lt_imp (a b : ℤ) (h : (2 : ℚ) ^ a < 2 ^ b) : a < b :=
  (zpow_lt_zpow_iff_right₀ (by norm_num : (1 : ℚ) < 2)).mp h

theorem ilog2_lt (x : ℚ) (hx : x ≠ 0) (k : ℤ) (h : |x| < 2 ^ k) : ilog2 x < k :=
  zpow_two_lt_imp _ _ (lt_of_le_of_lt (ilog2_spec x hx).1 h)

theorem ilog2_ge (x : ℚ) (hx : x ≠ 0) (k : ℤ) (h : 2 ^ k ≤ |x|) : k ≤ ilog2 x := by
  have := zpow_two_lt_imp _ _ (lt_of_le_of_lt h (ilog2_spec x hx).2)
  omega


theorem nearestEven_intCast (n : ℤ) : nearestEven (n : ℚ) = n := by
  unfold nearestEven
  simp

theorem floor_le_nearestEven (y : ℚ) : ⌊y⌋ ≤ nearestEven y := by
  unfold nearestEven
  split_ifs <;> omega

theorem nearestEven_le_of_le (y : ℚ) (k : ℤ) (h : y ≤ k) : nearestEven y ≤ k := by
  have hfl : ⌊y⌋ ≤ k := by
    have h1 : (⌊y⌋ : ℚ) ≤ k := (Int.floor_le y).trans h
    exact_mod_cast h1
  have hlt : 0 < y - ⌊y⌋ → ⌊y⌋ + 1 ≤ k := by
    intro h0
    have h1 : (⌊y⌋ : ℚ) < k := by linarith
    have h2 : ⌊y⌋ < k := by exact_mod_cast h1
    omega
  unfold nearestEven
  split_ifs with h1 h2 h3
  · exact hfl
  · exact hlt (by linarith)
  · exact hfl
  · exact hlt (by linarith)

theorem le_nearestEven_of_le (y : ℚ) (k : ℤ) (h : (k : ℚ) ≤ y) : k ≤ nearestEven y :=
  (Int.le_floor.mpr h).trans (floor_le_nearestEven y)

theorem abs_nearestEven_sub_le (y : ℚ) : |(nearestEven y : ℚ) - y| ≤ 1 / 2 := by
  have h1 := Int.floor_le y
  have h2 := Int.lt_floor_add_one y
  unfold nearestEven
  split_ifs <;> rw [abs_le] <;> constructor <;> push_cast <;> linarith

theorem round_zero : round 0 = some 0 := by
  unfold round
  rw [if_pos rfl]

theorem round_of_ne_zero (x : ℚ) (hx : x ≠ 0) :
    round x = if |(nearestEven (x / 2 ^ quantum x) : ℚ) * 2 ^ quantum x| < 2 ^ 128 then
      some ((nearestEven (x / 2 ^ quantum x) : ℚ) * 2 ^ quantum x) else none := by
  unfold round
  rw [if_neg hx]

/-- The rounded value stays between any two multiples of a power of two that is at
least the unit in the last place and that enclose the exact value. -/
theorem round_between (x : ℚ) (a b j : ℤ) (hj : x ≠ 0 → quantum x ≤ j)
    (hL : (a : ℚ) * 2 ^ j ≤ x) (hU : x ≤ (b : ℚ) * 2 ^ j)
    (hLb : -(2 : ℚ) ^ 128 < a * 2 ^ j) (hUb : (b : ℚ) * 2 ^ j < 2 ^ 128) :
    ∃ y, round x = some y ∧ (a : ℚ) * 2 ^ j ≤ y ∧ y ≤ (b : ℚ) * 2 ^ j := by
  by_cases hx : x = 0
  · subst hx
    exact ⟨0, round_zero, hL, hU⟩
  · have hq := hj hx
    have hqpos : (0 : ℚ) < 2 ^ quantum x := by positivity
    obtain ⟨d, hd⟩ := Int.eq_ofNat_of_zero_le (sub_nonneg.mpr hq)
    have hpow : (2 : ℚ) ^ j = ((2 ^ d : ℤ) : ℚ) * 2 ^ quantum x := by
      have hj2 : j = (d : ℤ) + quantum x := by omega
      rw [hj2, zpow_add₀ (by norm_num), zpow_natCast]
      push_cast
      ring
    have hlow : (a * 2 ^ d : ℤ) ≤ nearestEven (x / 2 ^ quantum x) := by
      apply le_nearestEven_of_le
      rw [le_div_iff₀ hqpos]
      calc ((a * 2 ^ d : ℤ) : ℚ) * 2 ^ quantum x = a * 2 ^ j := by rw [hpow]; push_cast; ring
        _ ≤ x := hL
    have hupp : nearestEven (x / 2 ^ quantum x) ≤ (b * 2 ^ d : ℤ) := by
      apply nearestEven_le_of_le
      rw [div_le_iff₀ hqpos]
      calc x ≤ b * 2 ^ j := hU
        _ = ((b * 2 ^ d : ℤ) : ℚ) * 2 ^ quantum x := by rw [hpow]; push_cast; ring
    have hlowq : (a : ℚ) * 2 ^ j ≤ (nearestEven (x / 2 ^ quantum x) : ℚ) * 2 ^ quantum x := by
      calc (a : ℚ) * 2 ^ j = ((a * 2 ^ d : ℤ) : ℚ) * 2 ^ quantum x := by
            rw [hpow]; push_cast; ring
        _ ≤ _ := by
            apply mul_le_mul_of_nonneg_right _ hqpos.le
            exact_mod_cast hlow
    have huppq : (nearestEven (x / 2 ^ quantum x) : ℚ) * 2 ^ quantum x ≤ (b : ℚ) * 2 ^ j := by
      calc (nearestEven (x / 2 ^ quantum x) : ℚ) * 2 ^ quantum x
          ≤ ((b * 2 ^ d : ℤ) : ℚ) * 2 ^ quantum x := by
            apply mul_le_mul_of_nonneg_right _ hqpos.le
            exact_mod_cast hupp
        _ = (b : ℚ) * 2 ^ j := by rw [hpow]; push_cast; ring
    refine ⟨_, ?_, hlowq, huppq⟩
    rw [round_of_ne_zero x hx, if_pos]
    rw [abs_lt]
    constructor <;> linarith

/-- The unit in the last place of a value below `2^(k+24)` is at most `2^k`. -/
theorem quantum_le (x : ℚ) (hx : x ≠ 0) (k : ℤ) (hk : -149 ≤ k) (h : |x| < 2 ^ (k + 24)) :
    quantum x ≤ k := by
  have := ilog2_lt x hx _ h
  unfold quantum
  omega

theorem le_quantum (x : ℚ) : -149 ≤ quantum x := by
  unfold quantum
  omega

/-- Every `m * 2^j` with `|m| < 2^24`, `-149 ≤ j` and absolute value below `2^128`
is a `float`. -/
theorem isFloat_of_dyadic (m j : ℤ) (hm : |m| < 2 ^ 24) (hj : -149 ≤ j)
    (hlt : |(m : ℚ) * 2 ^ j| < 2 ^ 128) : IsFloat ((m : ℚ) * 2 ^ j) := by
  have hq : (m : ℚ) * 2 ^ j ≠ 0 → quantum ((m : ℚ) * 2 ^ j) ≤ j := by
    intro hx
    apply quantum_le _ hx _ hj
    rw [abs_mul, abs_of_pos (by positivity : (0 : ℚ) < 2 ^ j), zpow_add₀ (by norm_num),
      mul_comm ((2 : ℚ) ^ j)]
    apply mul_lt_mul_of_pos_right _ (by positivity)
    have : ((|m| : ℤ) : ℚ) < ((2 ^ 24 : ℤ) : ℚ) := by exact_mod_cast hm
    push_cast at this
    rw [show ((2 : ℚ) ^ (24 : ℤ)) = 16777216 by norm_num]
    exact this
  rw [abs_lt] at hlt
  obtain ⟨y, hy, h1, h2⟩ := round_between _ m m j hq le_rfl le_rfl hlt.1 hlt.2
  have : y = (m : ℚ) * 2 ^ j := le_antisymm h2 h1
  unfold IsFloat
  rw [hy, this]

theorem isFloat_zero : IsFloat 0 := round_zero

/-- Every `float` is `m * 2^j` with `|m| < 2^24` and `-149 ≤ j`, and lies below
`2^128` in absolute value. -/
theorem dyadic_of_isFloat (x : ℚ) (h : IsFloat x) :
    ∃ m j : ℤ, |m| < 2 ^ 24 ∧ -149 ≤ j ∧ x = (m : ℚ) * 2 ^ j ∧ |x| < 2 ^ 128 := by
  by_cases hx : x = 0
  · subst hx
    exact ⟨0, 0, by norm_num, by norm_num, by norm_num, by norm_num⟩
  · unfold IsFloat at h
    rw [round_of_ne_zero x hx] at h
    split_ifs at h with hlt
    have hy : (nearestEven (x / 2 ^ quantum x) : ℚ) * 2 ^ quantum x = x := Option.some.inj h
    have hqpos : (0 : ℚ) < 2 ^ quantum x := by positivity
    refine ⟨nearestEven (x / 2 ^ quantum x), quantum x, ?_, le_quantum x, hy.symm, ?_⟩
    · have hm : (nearestEven (x / 2 ^ quantum x) : ℚ) = x / 2 ^ quantum x := by
        rw [eq_div_iff hqpos.ne']
        exact hy
      have h1 : |x| < (2 : ℚ) ^ (quantum x + 24) := by
        apply lt_of_lt_of_le (ilog2_spec x hx).2
        apply zpow_le_zpow_right₀ (by norm_num)
        unfold quantum
        omega
      have h2 : |(nearestEven (x / 2 ^ quantum x) : ℚ)| < 2 ^ 24 := by
        rw [hm, abs_div, abs_of_pos hqpos, div_lt_iff₀ hqpos]
        rw [zpow_add₀ (by norm_num)] at h1
        calc |x| < 2 ^ quantum x * 2 ^ (24 : ℤ) := h1
          _ = 2 ^ 24 * 2 ^ quantum x := by rw [mul_comm]; norm_num
      have h3 : ((|nearestEven (x / 2 ^ quantum x)| : ℤ) : ℚ) < ((2 ^ 24 : ℤ) : ℚ) := by
        simpa using h2
      exact_mod_cast h3
    · rw [← hy]
      exact hlt

/-- The result of a rounding is a `float`. -/
theorem isFloat_of_round (x y : ℚ) (h : round x = some y) : IsFloat y := by
  by_cases hx : x = 0
  · subst hx
    rw [round_zero] at h
    rw [← Option.some.inj h]
    exact isFloat_zero
  · rw [round_of_ne_zero x hx] at h
    split_ifs at h with hlt
    have hy : (nearestEven (x / 2 ^ quantum x) : ℚ) * 2 ^ quantum x = y := Option.some.inj h
    have hqpos : (0 : ℚ) < 2 ^ quantum x := by positivity
    have h1 : |x| < (2 : ℚ) ^ (quantum x + 24) := by
      apply lt_of_lt_of_le (ilog2_spec x hx).2
      apply zpow_le_zpow_right₀ (by norm_num)
      unfold quantum
      omega
    have h2 : |x / 2 ^ quantum x| < 2 ^ 24 := by
      rw [abs_div, abs_of_pos hqpos, div_lt_iff₀ hqpos]
      rw [zpow_add₀ (by norm_num)] at h1
      calc |x| < 2 ^ quantum x * 2 ^ (24 : ℤ) := h1
        _ = 2 ^ 24 * 2 ^ quantum x := by rw [mul_comm]; norm_num
    rw [abs_lt] at h2
    have hup : nearestEven (x / 2 ^ quantum x) ≤ 2 ^ 24 :=
      nearestEven_le_of_le _ _ (by push_cast; linarith)
    have hlo : -(2 ^ 24) ≤ nearestEven (x / 2 ^ quantum x) :=
      le_nearestEven_of_le _ _ (by push_cast; linarith)
    rw [← hy]
    generalize nearestEven (x / 2 ^ quantum x) = n at hup hlo hlt
    have hq := le_quantum x
    generalize quantum x = q at hq hlt
    rcases lt_or_eq_of_le hup with hup1 | hup1
    · rcases lt_or_eq_of_le hlo with hlo1 | hlo1
      · exact isFloat_of_dyadic n q (abs_lt.mpr ⟨hlo1, hup1⟩) hq hlt
      · have he : (n : ℚ) * 2 ^ q = ((-(2 ^ 23) : ℤ) : ℚ) * 2 ^ (q + 1) := by
          rw [← hlo1, zpow_add₀ (by norm_num)]
          push_cast
          ring
        rw [he] at hlt ⊢
        exact isFloat_of_dyadic _ (q + 1) (by norm_num) (by omega) hlt
    · have he : (n : ℚ) * 2 ^ q = ((2 ^ 23 : ℤ) : ℚ) * 2 ^ (q + 1) := by
        rw [hup1, zpow_add₀ (by norm_num)]
        push_cast
        ring
      rw [he] at hlt ⊢
      exact isFloat_of_dyadic _ (q + 1) (by norm_num) (by omega) hlt

theorem isFloat_neg (x : ℚ) (h : IsFloat x) : IsFloat (-x) := by
  obtain ⟨m, j, hm, hj, rfl, hlt⟩ := dyadic_of_isFloat x h
  have he : -((m : ℚ) * 2 ^ j) = ((-m : ℤ) : ℚ) * 2 ^ j := by push_cast; ring
  rw [he]
  apply isFloat_of_dyadic _ _ (by rwa [abs_neg]) hj
  rw [← he, abs_neg]
  exact hlt

theorem isFloat_two_mul (x : ℚ) (h : IsFloat x) (hlt : |2 * x| < 2 ^ 128) :
    IsFloat (2 * x) := by
  obtain ⟨m, j, hm, hj, rfl, -⟩ := dyadic_of_isFloat x h
  have he : 2 * ((m : ℚ) * 2 ^ j) = (m : ℚ) * 2 ^ (j + 1) := by
    rw [zpow_add₀ (by norm_num)]
    ring
  rw [he] at hlt ⊢
  exact isFloat_of_dyadic _ _ hm (by omega) hlt

theorem isFloat_intCast (i : ℤ) (h : |i| < 2 ^ 24) : IsFloat (i : ℚ) := by
  have he : (i : ℚ) = (i : ℚ) * 2 ^ (0 : ℤ) := by simp
  rw [he]
  apply isFloat_of_dyadic _ _ h (by norm_num)
  rw [← he]
  have h1 : ((|i| : ℤ) : ℚ) < ((2 ^ 24 : ℤ) : ℚ) := by exact_mod_cast h
  push_cast at h1
  linarith [show (2 : ℚ) ^ 24 < 2 ^ 128 by norm_num]


theorem two_zpow_lt_of_le (k : ℤ) (hk : k ≤ 127) : (2 : ℚ) ^ k < 2 ^ 128 :=
  calc (2 : ℚ) ^ k ≤ 2 ^ (127 : ℤ) := zpow_le_zpow_right₀ (by norm_num) hk
    _ < 2 ^ 128 := by norm_num

/-- Rounding keeps a value of `[0, 2^k]` in `[0, 2^k]`. -/
theorem round_nonneg_le (x : ℚ) (k : ℤ) (hk : -149 ≤ k) (hk' : k ≤ 127) (h0 : 0 ≤ x)
    (h1 : x ≤ 2 ^ k) : ∃ y, round x = some y ∧ 0 ≤ y ∧ y ≤ 2 ^ k := by
  have hq : x ≠ 0 → quantum x ≤ k := fun hx =>
    quantum_le x hx k hk (by
      rw [abs_of_nonneg h0]
      exact lt_of_le_of_lt h1 (zpow_lt_zpow_right₀ (by norm_num) (by omega)))
  have hlt := two_zpow_lt_of_le k hk'
  have hpos : (0 : ℚ) < 2 ^ k := by positivity
  obtain ⟨y, hy, h2, h3⟩ := round_between x 0 1 k hq (by simpa using h0) (by simpa using h1)
    (by simp) (by simpa using hlt)
  exact ⟨y, hy, by simpa using h2, by simpa using h3⟩

/-- Rounding keeps a value of `[-2^k, 2^k]` in `[-2^k, 2^k]`. -/
theorem round_abs_le (x : ℚ) (k : ℤ) (hk : -149 ≤ k) (hk' : k ≤ 127) (h : |x| ≤ 2 ^ k) :
    ∃ y, round x = some y ∧ |y| ≤ 2 ^ k := by
  have hq : x ≠ 0 → quantum x ≤ k := fun hx =>
    quantum_le x hx k hk (lt_of_le_of_lt h (zpow_lt_zpow_right₀ (by norm_num) (by omega)))
  have hlt := two_zpow_lt_of_le k hk'
  have hpos : (0 : ℚ) < 2 ^ k := by positivity
  rw [abs_le] at h
  obtain ⟨y, hy, h2, h3⟩ := round_between x (-1) 1 k hq (by push_cast; linarith)
    (by push_cast; linarith) (by push_cast; linarith) (by push_cast; linarith)
  refine ⟨y, hy, abs_le.mpr ⟨?_, ?_⟩⟩
  · push_cast at h2; linarith
  · push_cast at h3; linarith

/-- Rounding at sample points: a tie goes to the even significand, the spacing of
the subnormal range is `2^-149`, and the largest `float` is `2^128 - 2^104`. -/
theorem round_samples :
    round 16777217 = some 16777216 ∧ round 16777219 = some 16777220 ∧
      round (-16777217) = some (-16777216) ∧ round (1 / 10) = some (13421773 / 134217728) ∧
      round (1 / 2 ^ 150) = some 0 ∧ round (3 / 2 ^ 150) = some (1 / 2 ^ 148) ∧
      round (2 ^ 128 - 2 ^ 104) = some (2 ^ 128 - 2 ^ 104) ∧
      round (2 ^ 128 - 2 ^ 103 - 1) = some (2 ^ 128 - 2 ^ 104) ∧
      round (2 ^ 128 - 2 ^ 103) = none := by
  refine ⟨?_, ?_, ?_, ?_, ?_, ?_, ?_, ?_, ?_⟩ <;> decide!

theorem round_intCast (i : ℤ) (h : |i| < 2 ^ 24) : round (i : ℚ) = some (i : ℚ) :=
  isFloat_intCast i h

/-- The coordinate of `raytracer.cpp` is computed without rounding error. -/
theorem pixelCoord_exact (i : ℤ) (hi : 0 ≤ i) (hi' : i < 512) :
    pixelCoord 512 512 i = some ((2 * (i : ℚ) - 512) / 512) := by
  have hfi : round (i : ℚ) = some (i : ℚ) :=
    round_intCast i (abs_lt.mpr ⟨by omega, by omega⟩)
  have h2 : round (2 * (i : ℚ)) = some (2 * (i : ℚ)) := by
    have := round_intCast (2 * i) (abs_lt.mpr ⟨by omega, by omega⟩)
    push_cast at this
    exact this
  have h512 : round ((512 : ℤ) : ℚ) = some 512 := by
    have := round_intCast 512 (by norm_num)
    push_cast at this ⊢
    exact this
  have hsub : round (2 * (i : ℚ) - 512) = some (2 * (i : ℚ) - 512) := by
    have := round_intCast (2 * i - 512) (abs_lt.mpr ⟨by omega, by omega⟩)
    push_cast at this
    exact this
  have hdiv : round ((2 * (i : ℚ) - 512) / 512) = some ((2 * (i : ℚ) - 512) / 512) := by
    have he : (2 * (i : ℚ) - 512) / 512 = ((2 * i - 512 : ℤ) : ℚ) * 2 ^ (-9 : ℤ) := by
      push_cast
      rw [zpow_neg]
      norm_num
      ring
    rw [he]
    apply isFloat_of_dyadic _ _ (abs_lt.mpr ⟨by omega, by omega⟩) (by norm_num)
    rw [← he, abs_lt]
    have h0 : (0 : ℚ) ≤ i := by exact_mod_cast hi
    have h1 : (i : ℚ) ≤ 511 := by exact_mod_cast Int.lt_add_one_iff.mp hi'
    constructor
    · rw [lt_div_iff₀ (by norm_num)]
      linarith
    · rw [div_lt_iff₀ (by norm_num)]
      linarith
  simp only [pixelCoord, ofInt, mul, sub, div, hfi, h2, h512, hsub, Option.bind_eq_bind,
    Option.some_bind]
  rw [if_neg (by norm_num)]
  exact hdiv

/-- The coordinate of `raytracer-ssaa.cpp` is a `float` of the closed interval
`[-1, 1]`. -/
theorem sampleCoord_range (i : ℤ) (r : ℚ) (hi : 0 ≤ i) (hi' : i < 512) (hr : 0 ≤ r)
    (hr' : r < 1) : ∃ u, sampleCoord 512 512 i r = some u ∧ -1 ≤ u ∧ u ≤ 1 := by
  have hfi : round (i : ℚ) = some (i : ℚ) :=
    round_intCast i (abs_lt.mpr ⟨by omega, by omega⟩)
  have h512 : round ((512 : ℤ) : ℚ) = some 512 := by
    have := round_intCast 512 (by norm_num)
    push_cast at this ⊢
    exact this
  have h0 : (0 : ℚ) ≤ i := by exact_mod_cast hi
  have h1 : (i : ℚ) ≤ 511 := by exact_mod_cast Int.lt_add_one_iff.mp hi'
  obtain ⟨s, hs, hs0, hs1⟩ := round_nonneg_le ((i : ℚ) + r) 9 (by norm_num) (by norm_num)
    (by linarith) (by norm_num; linarith)
  obtain ⟨t, ht, ht0, ht1⟩ := round_nonneg_le (2 * s) 10 (by norm_num) (by norm_num)
    (by linarith) (by norm_num at hs1 ⊢; linarith)
  obtain ⟨w, hw, hw1⟩ := round_abs_le (t - 512) 9 (by norm_num) (by norm_num)
    (by rw [abs_le]; norm_num at ht1 ⊢; constructor <;> linarith)
  obtain ⟨u, hu, hu1⟩ := round_abs_le (w / 512) 0 (by norm_num) (by norm_num)
    (by
      rw [abs_div, abs_of_pos (by norm_num : (0 : ℚ) < 512), div_le_iff₀ (by norm_num)]
      norm_num at hw1 ⊢
      exact hw1)
  rw [abs_le] at hu1
  norm_num at hu1
  refine ⟨u, ?_, hu1.1, hu1.2⟩
  simp only [sampleCoord, ofInt, add, mul, sub, div, hfi, h512, hs, ht, hw,
    Option.bind_eq_bind, Option.some_bind]
  rw [if_neg (by norm_num)]
  exact hu

theorem sampleCoord_zero (extent height i : ℤ) :
    sampleCoord extent height i 0 = pixelCoord extent height i := by
  unfold sampleCoord pixelCoord
  cases hfi : ofInt i with
  | none => rfl
  | some fi =>
    have h : add fi 0 = some fi := by
      unfold add
      rw [add_zero]
      exact isFloat_of_round _ _ hfi
    simp only [Option.bind_eq_bind, Option.some_bind, h]

theorem foldlM_sumSame (c : Vec3f) (l : List Nat) (init : Vec3f) :
    l.foldlM (fun color _ => vadd color c) init = sumSame c l.length init := by
  induction l generalizing init with
  | nil => rfl
  | cons a t ih =>
    rw [List.foldlM_cons, List.length_cons, sumSame]
    cases vadd init c with
    | none => rfl
    | some s => exact ih s

theorem foldlM_congr_mem (f g : Vec3f → Nat → Option Vec3f) (l : List Nat) (init : Vec3f)
    (h : ∀ k ∈ l, ∀ color, f color k = g color k) : l.foldlM f init = l.foldlM g init := by
  induction l generalizing init with
  | nil => rfl
  | cons a t ih =>
    rw [List.foldlM_cons, List.foldlM_cons, h a (List.mem_cons_self a t)]
    cases g init a with
    | none => rfl
    | some s => exact ih s (fun k hk => h k (List.mem_cons_of_mem a hk))

/-- With zero jitter the pixel of `raytracer-ssaa.cpp` is the rounded mean of 16
copies of the colour of the ray through the coordinates of `raytracer.cpp`. -/
theorem pixel_zero_jitter (raytrace : Ray → Vec3f) (sampleRay : ℚ → ℚ → Ray) (rng : Nat → ℚ)
    (base : Nat) (width height i j : ℤ)
    (hz : ∀ k < 2 * SSAA.SSAA_samples, rng (base + k) = 0) :
    pixel raytrace sampleRay rng base width height i j =
      (pixelCoord width height i).bind fun u => (pixelCoord height height j).bind fun v =>
        meanSame (raytrace (sampleRay u v)) SSAA.SSAA_samples := by
  have hsame : ∀ k ∈ List.range SSAA.SSAA_samples, ∀ color : Vec3f,
      (do
        let u ← sampleCoord width height i (rng (base + 2 * k))
        let v ← sampleCoord height height j (rng (base + 2 * k + 1))
        vadd color (raytrace (sampleRay u v))) =
      ((pixelCoord width height i).bind fun u => (pixelCoord height height j).bind fun v =>
        vadd color (raytrace (sampleRay u v))) := by
    intro k hk color
    have hk' : k < SSAA.SSAA_samples := List.mem_range.mp hk
    rw [hz (2 * k) (by omega), Nat.add_assoc, hz (2 * k + 1) (by omega), sampleCoord_zero,
      sampleCoord_zero]
    rfl
  unfold pixel
  rw [foldlM_congr_mem _ _ _ _ hsame]
  cases hu : pixelCoord width height i with
  | none => rfl
  | some u =>
    cases hv : pixelCoord height height j with
    | none => rfl
    | some v =>
      simp only [Option.some_bind]
      rw [foldlM_sumSame]
      simp only [List.length_range, meanSame]

theorem smul_x (k : ℚ) (c : Vec3f) : (k * c).x = k * c.x := rfl

theorem smul_y (k : ℚ) (c : Vec3f) : (k * c).y = k * c.y := rfl

theorem smul_z (k : ℚ) (c : Vec3f) : (k * c).z = k * c.z := rfl

theorem sumSame_exact (c : Vec3f) : ∀ (n k : Nat),
    (∀ m : Nat, m ≤ k + n → IsVec ((m : ℚ) * c)) →
    sumSame c n ((k : ℚ) * c) = some (((k + n : Nat) : ℚ) * c)
  | 0, k, _ => rfl
  | n + 1, k, h => by
    have hk := h (k + 1) (by omega)
    have hadd : vadd ((k : ℚ) * c) c = some (((k + 1 : Nat) : ℚ) * c) := by
      obtain ⟨hx, hy, hz⟩ := hk
      unfold IsFloat at hx hy hz
      rw [smul_x] at hx
      rw [smul_y] at hy
      rw [smul_z] at hz
      have ex : (k : ℚ) * c.x + c.x = ((k + 1 : Nat) : ℚ) * c.x := by push_cast; ring
      have ey : (k : ℚ) * c.y + c.y = ((k + 1 : Nat) : ℚ) * c.y := by push_cast; ring
      have ez : (k : ℚ) * c.z + c.z = ((k + 1 : Nat) : ℚ) * c.z := by push_cast; ring
      simp only [vadd, add, smul_x, smul_y, smul_z, ex, ey, ez, hx, hy, hz,
        Option.bind_eq_bind, Option.some_bind]
      rfl
    rw [sumSame, hadd, Option.some_bind, sumSame_exact c n (k + 1) (fun m hm => h m (by omega))]
    congr 2
    push_cast
    ring

/-- The rounded mean of `n` copies of `c` is `c` when every multiple `m * c` with
`m ≤ n` is a `float`. -/
theorem meanSame_exact (c : Vec3f) (n : Nat) (hn : n ≠ 0) (hfn : IsFloat (n : ℚ))
    (h : ∀ m : Nat, m ≤ n → IsVec ((m : ℚ) * c)) : meanSame c n = some c := by
  have h0 : Vec3f.splat 0 = ((0 : Nat) : ℚ) * c := by
    ext <;> simp [Vec3f.splat, smul_x, smul_y, smul_z]
  have hsum := sumSame_exact c n 0 (fun m hm => h m (by omega))
  rw [← h0, Nat.zero_add] at hsum
  obtain ⟨hx, hy, hz⟩ := h 1 (by omega)
  unfold IsFloat at hx hy hz hfn
  rw [smul_x, Nat.cast_one, one_mul] at hx
  rw [smul_y, Nat.cast_one, one_mul] at hy
  rw [smul_z, Nat.cast_one, one_mul] at hz
  have hnq : (n : ℚ) ≠ 0 := by exact_mod_cast hn
  have ex : (n : ℚ) * c.x / n = c.x := by field_simp
  have ey : (n : ℚ) * c.y / n = c.y := by field_simp
  have ez : (n : ℚ) * c.z / n = c.z := by field_simp
  simp only [meanSame, hsum, ofInt, Int.cast_natCast, hfn, Option.bind_eq_bind,
    Option.some_bind]
  simp only [vdiv, div, Vec3f.splat, smul_x, smul_y, smul_z, if_neg hnq, ex, ey, ez, hx, hy,
    hz, Option.bind_eq_bind, Option.some_bind]
  rfl


/-- About an axis direction the `float` reflection is computed without rounding
error, for every `float` vector whose double is finite. -/
theorem reflect_axis (v n : Vec3f) (hv : IsVec v) (h2 : IsVec ((2 : ℚ) * v)) (hn : IsAxis n) :
    reflect v n = some (Raytracer.reflect v n) := by
  obtain ⟨hx, hy, hz⟩ := hv
  obtain ⟨h2x, h2y, h2z⟩ := h2
  have hnx := isFloat_neg _ hx
  have hny := isFloat_neg _ hy
  have hnz := isFloat_neg _ hz
  have hn2x := isFloat_neg _ h2x
  have hn2y := isFloat_neg _ h2y
  have hn2z := isFloat_neg _ h2z
  unfold IsFloat at hx hy hz h2x h2y h2z hnx hny hnz hn2x hn2y hn2z
  rw [smul_x] at h2x hn2x
  rw [smul_y] at h2y hn2y
  rw [smul_z] at h2z hn2z
  have e1 : ∀ a : ℚ, -a + 2 * a = a := fun a => by ring
  rcases hn with rfl | rfl | rfl | rfl | rfl | rfl <;>
    simp [reflect, dot, scale, vadd, mul, add, Raytracer.reflect, Raytracer.dot, round_zero,
      Vec3f.neg_def, Vec3f.add_def, Vec3f.smul_def, hx, hy, hz, h2x, h2y, h2z, hnx, hny, hnz,
      hn2x, hn2y, hn2z, e1]


/-- About an axis direction the reflection changes the sign of two components. -/
theorem reflect_axis_cases (v n : Vec3f) (hn : IsAxis n) :
    Raytracer.reflect v n = ⟨v.x, -v.y, -v.z⟩ ∨ Raytracer.reflect v n = ⟨-v.x, v.y, -v.z⟩ ∨
      Raytracer.reflect v n = ⟨-v.x, -v.y, v.z⟩ := by
  have e1 : ∀ a : ℚ, -a + 2 * a = a := fun a => by ring
  rcases hn with rfl | rfl | rfl | rfl | rfl | rfl
  · left
    ext <;> simp [Raytracer.reflect, Raytracer.dot, Vec3f.add_def, Vec3f.neg_def,
      Vec3f.smul_def, e1]
  · left
    ext <;> simp [Raytracer.reflect, Raytracer.dot, Vec3f.add_def, Vec3f.neg_def,
      Vec3f.smul_def, e1]
  · right
    left
    ext <;> simp [Raytracer.reflect, Raytracer.dot, Vec3f.add_def, Vec3f.neg_def,
      Vec3f.smul_def, e1]
  · right
    left
    ext <;> simp [Raytracer.reflect, Raytracer.dot, Vec3f.add_def, Vec3f.neg_def,
      Vec3f.smul_def, e1]
  · right
    right
    ext <;> simp [Raytracer.reflect, Raytracer.dot, Vec3f.add_def, Vec3f.neg_def,
      Vec3f.smul_def, e1]
  · right
    right
    ext <;> simp [Raytracer.reflect, Raytracer.dot, Vec3f.add_def, Vec3f.neg_def,
      Vec3f.smul_def, e1]

theorem reflect_axis_isVec (v n : Vec3f) (hv : IsVec v) (h2 : IsVec ((2 : ℚ) * v))
    (hn : IsAxis n) :
    IsVec (Raytracer.reflect v n) ∧ IsVec ((2 : ℚ) * Raytracer.reflect v n) := by
  obtain ⟨hx, hy, hz⟩ := hv
  obtain ⟨h2x, h2y, h2z⟩ := h2
  rw [smul_x] at h2x
  rw [smul_y] at h2y
  rw [smul_z] at h2z
  have n2 : ∀ a : ℚ, IsFloat (2 * a) → IsFloat (2 * -a) := fun a h => by
    rw [mul_neg]
    exact isFloat_neg _ h
  rcases reflect_axis_cases v n hn with h | h | h
  · rw [h]
    exact ⟨⟨hx, isFloat_neg _ hy, isFloat_neg _ hz⟩, ⟨h2x, n2 _ h2y, n2 _ h2z⟩⟩
  · rw [h]
    exact ⟨⟨isFloat_neg _ hx, hy, isFloat_neg _ hz⟩, ⟨n2 _ h2x, h2y, n2 _ h2z⟩⟩
  · rw [h]
    exact ⟨⟨isFloat_neg _ hx, isFloat_neg _ hy, hz⟩, ⟨n2 _ h2x, n2 _ h2y, h2z⟩⟩

/-- About an axis direction the reflected vector has the `float` squared length of
the vector. -/
theorem dot_reflect_axis (v n : Vec3f) (hn : IsAxis n) :
    dot (Raytracer.reflect v n) (Raytracer.reflect v n) = dot v v := by
  rcases reflect_axis_cases v n hn with h | h | h <;> rw [h] <;> simp [dot, mul]


theorem sq_mod_four (a : ℤ) : (a % 2 = 0 ∧ a ^ 2 % 4 = 0) ∨ (a % 2 = 1 ∧ a ^ 2 % 4 = 1) := by
  rcases Int.emod_two_eq_zero_or_one a with h | h
  · left
    refine ⟨h, ?_⟩
    obtain ⟨t, rfl⟩ : ∃ t, a = 2 * t := ⟨a / 2, by omega⟩
    have : (2 * t) ^ 2 = 4 * (t ^ 2) := by ring
    omega
  · right
    refine ⟨h, ?_⟩
    obtain ⟨t, rfl⟩ : ∃ t, a = 2 * t + 1 := ⟨a / 2, by omega⟩
    have : (2 * t + 1) ^ 2 = 4 * (t ^ 2 + t) + 1 := by ring
    omega

/-- Three integer squares that sum to a power of four: two of the integers vanish. -/
theorem two_zero_of_sq_sum (k : Nat) : ∀ a b c : ℤ, a ^ 2 + b ^ 2 + c ^ 2 = 4 ^ k →
    (a = 0 ∧ b = 0) ∨ (a = 0 ∧ c = 0) ∨ (b = 0 ∧ c = 0) := by
  induction k with
  | zero =>
    intro a b c h
    have ha := sq_nonneg a
    have hb := sq_nonneg b
    have hc := sq_nonneg c
    by_cases ha0 : a = 0
    · by_cases hb0 : b = 0
      · exact Or.inl ⟨ha0, hb0⟩
      · have : 0 < b ^ 2 := by positivity
        have hc0 : c ^ 2 = 0 := by
          simp only [pow_zero] at h
          omega
        exact Or.inr (Or.inl ⟨ha0, pow_eq_zero_iff (by norm_num) |>.mp hc0⟩)
    · have : 0 < a ^ 2 := by positivity
      simp only [pow_zero] at h
      have hb0 : b ^ 2 = 0 := by omega
      have hc0 : c ^ 2 = 0 := by omega
      exact Or.inr (Or.inr ⟨pow_eq_zero_iff (by norm_num) |>.mp hb0,
        pow_eq_zero_iff (by norm_num) |>.mp hc0⟩)
  | succ k ih =>
    intro a b c h
    have h4 : (4 : ℤ) ^ (k + 1) = 4 * 4 ^ k := by ring
    rw [h4] at h
    have ha := sq_mod_four a
    have hb := sq_mod_four b
    have hc := sq_mod_four c
    have hae : a % 2 = 0 := by omega
    have hbe : b % 2 = 0 := by omega
    have hce : c % 2 = 0 := by omega
    obtain ⟨a', rfl⟩ : ∃ t, a = 2 * t := ⟨a / 2, by omega⟩
    obtain ⟨b', rfl⟩ : ∃ t, b = 2 * t := ⟨b / 2, by omega⟩
    obtain ⟨c', rfl⟩ : ∃ t, c = 2 * t := ⟨c / 2, by omega⟩
    have h' : a' ^ 2 + b' ^ 2 + c' ^ 2 = 4 ^ k := by
      have : (2 * a') ^ 2 + (2 * b') ^ 2 + (2 * c') ^ 2 = 4 * (a' ^ 2 + b' ^ 2 + c' ^ 2) := by
        ring
      rw [this] at h
      exact mul_left_cancel₀ (by norm_num) h
    rcases ih a' b' c' h' with ⟨h1, h2⟩ | ⟨h1, h2⟩ | ⟨h1, h2⟩
    · exact Or.inl ⟨by rw [h1]; rfl, by rw [h2]; rfl⟩
    · exact Or.inr (Or.inl ⟨by rw [h1]; rfl, by rw [h2]; rfl⟩)
    · exact Or.inr (Or.inr ⟨by rw [h1]; rfl, by rw [h2]; rfl⟩)

/-- A `float` is an integer multiple of `2^-149`. -/
theorem isFloat_scaled (x : ℚ) (h : IsFloat x) : ∃ a : ℤ, x = (a : ℚ) / 2 ^ 149 := by
  obtain ⟨m, j, -, hj, rfl, -⟩ := dyadic_of_isFloat x h
  obtain ⟨d, hd⟩ := Int.eq_ofNat_of_zero_le (by omega : 0 ≤ j + 149)
  refine ⟨m * 2 ^ d, ?_⟩
  have hj2 : j = (d : ℤ) - 149 := by omega
  rw [hj2, zpow_sub₀ (by norm_num), zpow_natCast]
  push_cast
  rw [show ((2 : ℚ) ^ (149 : ℤ)) = 2 ^ 149 by norm_cast]
  ring

theorem isAxis_of_scaled (P a b c : ℤ) (hP : 0 < P) (hP2 : P ^ 2 = 4 ^ 149)
    (h1 : Raytracer.dot ⟨(a : ℚ) / P, (b : ℚ) / P, (c : ℚ) / P⟩
      ⟨(a : ℚ) / P, (b : ℚ) / P, (c : ℚ) / P⟩ = 1) :
    IsAxis ⟨(a : ℚ) / P, (b : ℚ) / P, (c : ℚ) / P⟩ := by
  have hPq : (P : ℚ) ≠ 0 := by exact_mod_cast hP.ne'
  simp only [Raytracer.dot] at h1
  have hsum : a ^ 2 + b ^ 2 + c ^ 2 = 4 ^ 149 := by
    rw [← hP2]
    have h2 : ((a ^ 2 + b ^ 2 + c ^ 2 : ℤ) : ℚ) = ((P ^ 2 : ℤ) : ℚ) := by
      push_cast
      field_simp at h1
      linear_combination h1
    exact_mod_cast h2
  have hunit : ∀ t : ℤ, t ^ 2 = 4 ^ 149 → (t : ℚ) / P = 1 ∨ (t : ℚ) / P = -1 := by
    intro t ht
    rw [← hP2] at ht
    rcases sq_eq_sq_iff_eq_or_eq_neg.mp ht with h4 | h4
    · left
      rw [h4]
      exact div_self hPq
    · right
      rw [h4]
      push_cast
      rw [neg_div, div_self hPq]
  have hz : ((0 : ℤ) : ℚ) / P = 0 := by simp
  have e0 : (0 : ℤ) ^ 2 = 0 := by norm_num
  unfold IsAxis
  rcases two_zero_of_sq_sum 149 a b c hsum with ⟨h2, h3⟩ | ⟨h2, h3⟩ | ⟨h2, h3⟩
  · subst h2 h3
    rw [e0, zero_add, zero_add] at hsum
    rcases hunit c hsum with h4 | h4 <;> simp only [h4, hz, true_or, or_true]
  · subst h2 h3
    rw [e0, zero_add, add_zero] at hsum
    rcases hunit b hsum with h4 | h4 <;> simp only [h4, hz, true_or, or_true]
  · subst h2 h3
    rw [e0, add_zero, add_zero] at hsum
    rcases hunit a hsum with h4 | h4 <;> simp only [h4, hz, true_or, or_true]

/-- The only `float` vectors of length exactly one are the six axis directions. -/
theorem isAxis_of_unit (n : Vec3f) (hn : IsVec n) (h1 : Raytracer.dot n n = 1) : IsAxis n := by
  obtain ⟨hx, hy, hz⟩ := hn
  obtain ⟨a, ha⟩ := isFloat_scaled _ hx
  obtain ⟨b, hb⟩ := isFloat_scaled _ hy
  obtain ⟨c, hc⟩ := isFloat_scaled _ hz
  have hcast : (2 : ℚ) ^ 149 = ((2 ^ 149 : ℤ) : ℚ) := by norm_cast
  rw [hcast] at ha hb hc
  have hn' : n = ⟨(a : ℚ) / ((2 ^ 149 : ℤ) : ℚ), (b : ℚ) / ((2 ^ 149 : ℤ) : ℚ),
      (c : ℚ) / ((2 ^ 149 : ℤ) : ℚ)⟩ := by
    ext
    · exact ha
    · exact hb
    · exact hc
  rw [hn'] at h1 ⊢
  apply isAxis_of_scaled _ a b c (by positivity) _ h1
  rw [← pow_mul, show (4 : ℤ) = 2 ^ 2 by norm_num, ← pow_mul]


theorem abs_mul_le (x y bx bY : ℚ) (hx : |x| ≤ bx) (hy : |y| ≤ bY) : |x * y| ≤ bx * bY := by
  rw [abs_mul]
  exact mul_le_mul hx hy (abs_nonneg _) (le_trans (abs_nonneg _) hx)

/-- The error of one rounding: at most `2^-24` of a power of two that bounds the
exact value, and the rounded value obeys the same bound. -/
theorem round_err (x : ℚ) (k : ℤ) (hk : -126 ≤ k) (hk' : k ≤ 127) (h : |x| ≤ 2 ^ k) :
    ∃ y, round x = some y ∧ IsFloat y ∧ |y| ≤ 2 ^ k ∧ |y - x| ≤ 2 ^ k / 2 ^ 24 := by
  obtain ⟨y, hy, hyb⟩ := round_abs_le x k (by omega) hk' h
  refine ⟨y, hy, isFloat_of_round x y hy, hyb, ?_⟩
  have hpos : (0 : ℚ) < 2 ^ k := by positivity
  by_cases hx : x = 0
  · subst hx
    rw [round_zero] at hy
    rw [← Option.some.inj hy]
    simp only [sub_zero, abs_zero]
    positivity
  · rw [round_of_ne_zero x hx] at hy
    split_ifs at hy with hlt
    have hy' := Option.some.inj hy
    have hq : quantum x ≤ k - 23 := by
      have := ilog2_lt x hx (k + 1)
        (lt_of_le_of_lt h (zpow_lt_zpow_right₀ (by norm_num) (by omega)))
      unfold quantum
      omega
    have hqpos : (0 : ℚ) < 2 ^ quantum x := by positivity
    have hne := abs_nearestEven_sub_le (x / 2 ^ quantum x)
    have he : y - x = ((nearestEven (x / 2 ^ quantum x) : ℚ) - x / 2 ^ quantum x) *
        2 ^ quantum x := by
      rw [← hy']
      field_simp
    have hq2 : (2 : ℚ) ^ quantum x ≤ 2 ^ k / 2 ^ 23 := by
      have h1 : (2 : ℚ) ^ quantum x ≤ 2 ^ (k - 23) := zpow_le_zpow_right₀ (by norm_num) hq
      rw [zpow_sub₀ (by norm_num)] at h1
      exact_mod_cast h1
    rw [he, abs_mul, abs_of_pos hqpos]
    calc |(nearestEven (x / 2 ^ quantum x) : ℚ) - x / 2 ^ quantum x| * 2 ^ quantum x
        ≤ 1 / 2 * (2 ^ k / 2 ^ 23) := mul_le_mul hne hq2 hqpos.le (by norm_num)
      _ = 2 ^ k / 2 ^ 24 := by ring

/-- The error of the `float` inner product. -/
theorem dot_err (v w : Vec3f) (c : ℤ) (hc : -126 ≤ c) (hc' : c ≤ 125)
    (hx : |v.x * w.x| ≤ 2 ^ c) (hy : |v.y * w.y| ≤ 2 ^ c) (hz : |v.z * w.z| ≤ 2 ^ c) :
    ∃ d, dot v w = some d ∧ IsFloat d ∧ |d| ≤ 4 * 2 ^ c ∧
      |d - Raytracer.dot v w| ≤ 9 * 2 ^ c / 2 ^ 24 := by
  have hP : (0 : ℚ) < 2 ^ c := by positivity
  have h1 : (2 : ℚ) ^ (c + 1) = 2 * 2 ^ c := by rw [zpow_add_one₀ (by norm_num)]; ring
  have h2 : (2 : ℚ) ^ (c + 2) = 4 * 2 ^ c := by
    rw [show c + 2 = c + 1 + 1 by ring, zpow_add_one₀ (by norm_num), h1]
    ring
  obtain ⟨px, hpx, -, bpx, epx⟩ := round_err _ c hc (by omega) hx
  obtain ⟨py, hpy, -, bpy, epy⟩ := round_err _ c hc (by omega) hy
  obtain ⟨pz, hpz, -, bpz, epz⟩ := round_err _ c hc (by omega) hz
  rw [abs_le] at bpx bpy bpz epx epy epz
  obtain ⟨s1, hs1, -, bs1, es1⟩ := round_err (px + py) (c + 1) (by omega) (by omega)
    (by rw [h1, abs_le]; constructor <;> linarith)
  rw [h1] at bs1 es1
  rw [abs_le] at bs1 es1
  obtain ⟨s2, hs2, fs2, bs2, es2⟩ := round_err (s1 + pz) (c + 2) (by omega) (by omega)
    (by rw [h2, abs_le]; constructor <;> linarith)
  rw [h2] at bs2 es2
  refine ⟨s2, ?_, fs2, bs2, ?_⟩
  · simp only [dot, mul, add, hpx, hpy, hpz, hs1, hs2, Option.bind_eq_bind, Option.some_bind]
  · rw [abs_le] at es2 ⊢
    have hu : (0 : ℚ) < 2 ^ c / 2 ^ 24 := by positivity
    simp only [Raytracer.dot]
    constructor <;> linarith

/-- The error of the `float` reflection for `|v| ≤ 2^a` and `|n| ≤ 1`, component by
component. -/
theorem reflect_err (v n : Vec3f) (a : ℤ) (ha : -126 ≤ a) (ha' : a ≤ 120)
    (hv : AbsLE v (2 ^ a)) (hn : AbsLE n 1) :
    ∃ r, reflect v n = some r ∧ AbsLE r (16 * 2 ^ a) ∧
      Within (42 * 2 ^ a / 2 ^ 24) r (Raytracer.reflect v n) := by
  obtain ⟨hvx, hvy, hvz⟩ := hv
  obtain ⟨hnx, hny, hnz⟩ := hn
  have hP : (0 : ℚ) < 2 ^ a := by positivity
  have hu : (0 : ℚ) < 2 ^ a / 2 ^ 24 := by positivity
  have h3 : (2 : ℚ) ^ (a + 3) = 8 * 2 ^ a := by
    rw [zpow_add₀ (by norm_num)]
    norm_num
    ring
  have h4 : (2 : ℚ) ^ (a + 4) = 16 * 2 ^ a := by
    rw [zpow_add₀ (by norm_num)]
    norm_num
    ring
  have hprod : ∀ x y : ℚ, |x| ≤ 2 ^ a → |y| ≤ 1 → |x * y| ≤ 2 ^ a := by
    intro x y hx hy
    have := abs_mul_le x y _ _ hx hy
    linarith
  obtain ⟨d, hd, fd, bd, ed⟩ := dot_err v n a ha (by omega) (hprod _ _ hvx hnx)
    (hprod _ _ hvy hny) (hprod _ _ hvz hnz)
  have hk : mul 2 d = some (2 * d) := by
    unfold mul
    apply isFloat_two_mul d fd
    rw [abs_mul, abs_of_pos (by norm_num : (0 : ℚ) < 2)]
    have : (2 : ℚ) ^ (a + 3) < 2 ^ 128 := two_zpow_lt_of_le _ (by omega)
    rw [h3] at this
    linarith
  have hkn : ∀ y : ℚ, |y| ≤ 1 → |2 * d * y| ≤ 2 ^ (a + 3) := by
    intro y hy
    have h2d : |2 * d| ≤ 8 * 2 ^ a := by
      rw [abs_mul, abs_of_pos (by norm_num : (0 : ℚ) < 2)]
      linarith
    have := abs_mul_le (2 * d) y _ _ h2d hy
    rw [h3]
    linarith
  have hcomp : ∀ vi ni : ℚ, |vi| ≤ 2 ^ a → |ni| ≤ 1 →
      ∃ ri, (mul (2 * d) ni).bind (fun kn => add (-vi) kn) = some ri ∧ |ri| ≤ 16 * 2 ^ a ∧
        |ri - (-vi + 2 * Raytracer.dot v n * ni)| ≤ 42 * 2 ^ a / 2 ^ 24 := by
    intro vi ni hvi hni
    obtain ⟨kn, hkn1, -, bkn, ekn⟩ := round_err (2 * d * ni) (a + 3) (by omega) (by omega)
      (hkn ni hni)
    rw [h3] at bkn ekn
    rw [abs_le] at bkn ekn hvi
    obtain ⟨ri, hri, -, bri, eri⟩ := round_err (-vi + kn) (a + 4) (by omega) (by omega)
      (by rw [h4, abs_le]; constructor <;> linarith)
    rw [h4] at bri eri
    refine ⟨ri, ?_, bri, ?_⟩
    · simp only [mul, add, hkn1, hri, Option.some_bind]
    · have hdn : |(d - Raytracer.dot v n) * ni| ≤ 9 * 2 ^ a / 2 ^ 24 := by
        have := abs_mul_le _ _ _ _ ed hni
        linarith
      rw [abs_le] at eri hdn ⊢
      constructor <;> nlinarith [hdn.1, hdn.2]
  obtain ⟨rx, hrx, brx, erx⟩ := hcomp v.x n.x hvx hnx
  obtain ⟨ry, hry, bry, ery⟩ := hcomp v.y n.y hvy hny
  obtain ⟨rz, hrz, brz, erz⟩ := hcomp v.z n.z hvz hnz
  refine ⟨⟨rx, ry, rz⟩, ?_, ⟨brx, bry, brz⟩, ⟨erx, ery, erz⟩⟩
  cases hmx : mul (2 * d) n.x with
  | none => rw [hmx] at hrx; exact absurd hrx (by simp)
  | some knx =>
    cases hmy : mul (2 * d) n.y with
    | none => rw [hmy] at hry; exact absurd hry (by simp)
    | some kny =>
      cases hmz : mul (2 * d) n.z with
      | none => rw [hmz] at hrz; exact absurd hrz (by simp)
      | some knz =>
        rw [hmx, Option.some_bind] at hrx
        rw [hmy, Option.some_bind] at hry
        rw [hmz, Option.some_bind] at hrz
        simp only [reflect, hd, hk, scale, vadd, hmx, hmy, hmz, Vec3f.neg_def, Option.pure_def,
          Option.bind_eq_bind, Option.some_bind, hrx, hry, hrz]


theorem abs_dot_le (a b : Vec3f) (A B : ℚ) (ha : AbsLE a A) (hb : AbsLE b B) :
    |Raytracer.dot a b| ≤ 3 * (A * B) := by
  obtain ⟨hax, hay, haz⟩ := ha
  obtain ⟨hbx, hby, hbz⟩ := hb
  have hx := abs_mul_le _ _ _ _ hax hbx
  have hy := abs_mul_le _ _ _ _ hay hby
  have hz := abs_mul_le _ _ _ _ haz hbz
  rw [abs_le] at hx hy hz ⊢
  simp only [Raytracer.dot]
  constructor <;> linarith

/-- Reflecting twice in `float` returns the vector up to `2^-14` of its scale in
every component: for `|v| ≤ 2^a`, `|n| ≤ 1` and a normal whose squared length is
within `2^-22` of one. -/
theorem double_reflect_err (v n : Vec3f) (a : ℤ) (ha : -126 ≤ a) (ha' : a ≤ 116)
    (hv : AbsLE v (2 ^ a)) (hn : AbsLE n 1) (hnn : |Raytracer.dot n n - 1| ≤ 1 / 2 ^ 22) :
    ∃ r2, (reflect v n).bind (fun r => reflect r n) = some r2 ∧
      Within (2 ^ a / 2 ^ 14) r2 v := by
  have hP : (0 : ℚ) < 2 ^ a := by positivity
  have h4 : (2 : ℚ) ^ (a + 4) = 16 * 2 ^ a := by
    rw [zpow_add₀ (by norm_num)]
    norm_num
    ring
  obtain ⟨r, hr, br, er⟩ := reflect_err v n a ha (by omega) hv hn
  rw [← h4] at br
  obtain ⟨r2, hr2, -, er2⟩ := reflect_err r n (a + 4) (by omega) (by omega) br hn
  rw [h4] at er2
  refine ⟨r2, by rw [hr, Option.some_bind, hr2], ?_⟩
  obtain ⟨erx, ery, erz⟩ := er
  obtain ⟨er2x, er2y, er2z⟩ := er2
  have hE : AbsLE (r - Raytracer.reflect v n) (42 * 2 ^ a / 2 ^ 24) := ⟨erx, ery, erz⟩
  have hEn := abs_dot_le _ _ _ _ hE hn
  have hvn := abs_dot_le _ _ _ _ hv hn
  have hT2 : ∀ ni : ℚ, |ni| ≤ 1 →
      |2 * Raytracer.dot (r - Raytracer.reflect v n) n * ni| ≤ 252 * 2 ^ a / 2 ^ 24 := by
    intro ni hni
    have h1 : |2 * Raytracer.dot (r - Raytracer.reflect v n) n| ≤
        2 * (3 * (42 * 2 ^ a / 2 ^ 24 * 1)) := by
      rw [abs_mul, abs_of_pos (by norm_num : (0 : ℚ) < 2)]
      linarith
    have := abs_mul_le _ _ _ _ h1 hni
    linarith
  have hT3 : ∀ ni : ℚ, |ni| ≤ 1 →
      |4 * Raytracer.dot v n * (Raytracer.dot n n - 1) * ni| ≤ 48 * 2 ^ a / 2 ^ 24 := by
    intro ni hni
    have h1 : |4 * Raytracer.dot v n| ≤ 4 * (3 * (2 ^ a * 1)) := by
      rw [abs_mul, abs_of_pos (by norm_num : (0 : ℚ) < 4)]
      linarith
    have h2 := abs_mul_le _ _ _ _ h1 hnn
    have := abs_mul_le _ _ _ _ h2 hni
    norm_num at this ⊢
    linarith
  obtain ⟨hnx, hny, hnz⟩ := hn
  have hx2 := hT2 n.x hnx
  have hy2 := hT2 n.y hny
  have hz2 := hT2 n.z hnz
  have hx3 := hT3 n.x hnx
  have hy3 := hT3 n.y hny
  have hz3 := hT3 n.z hnz
  have idx : (Raytracer.reflect r n).x - v.x = -(r.x - (Raytracer.reflect v n).x) +
      2 * Raytracer.dot (r - Raytracer.reflect v n) n * n.x +
      4 * Raytracer.dot v n * (Raytracer.dot n n - 1) * n.x := by
    simp only [Raytracer.reflect, Raytracer.dot, Vec3f.add_def, Vec3f.sub_def, Vec3f.neg_def,
      Vec3f.smul_def]
    ring
  have idy : (Raytracer.reflect r n).y - v.y = -(r.y - (Raytracer.reflect v n).y) +
      2 * Raytracer.dot (r - Raytracer.reflect v n) n * n.y +
      4 * Raytracer.dot v n * (Raytracer.dot n n - 1) * n.y := by
    simp only [Raytracer.reflect, Raytracer.dot, Vec3f.add_def, Vec3f.sub_def, Vec3f.neg_def,
      Vec3f.smul_def]
    ring
  have idz : (Raytracer.reflect r n).z - v.z = -(r.z - (Raytracer.reflect v n).z) +
      2 * Raytracer.dot (r - Raytracer.reflect v n) n * n.z +
      4 * Raytracer.dot v n * (Raytracer.dot n n - 1) * n.z := by
    simp only [Raytracer.reflect, Raytracer.dot, Vec3f.add_def, Vec3f.sub_def, Vec3f.neg_def,
      Vec3f.smul_def]
    ring
  rw [abs_le] at erx ery erz er2x er2y er2z hx2 hy2 hz2 hx3 hy3 hz3
  refine ⟨abs_le.mpr ⟨?_, ?_⟩, abs_le.mpr ⟨?_, ?_⟩, abs_le.mpr ⟨?_, ?_⟩⟩ <;> norm_num at * <;>
    linarith


/-- The `float` reflection of a vector of squared length within `2^-22` of one about
a normal of squared length within `2^-22` of one has a `float` squared length
within `2^-11` of one. -/
theorem unit_reflect_err (v n : Vec3f) (hv : AbsLE v 1) (hn : AbsLE n 1)
    (hvv : |Raytracer.dot v v - 1| ≤ 1 / 2 ^ 22) (hnn : |Raytracer.dot n n - 1| ≤ 1 / 2 ^ 22) :
    ∃ r d, reflect v n = some r ∧ dot r r = some d ∧ |d - 1| ≤ 1 / 2 ^ 11 := by
  obtain ⟨r, hr, br, er⟩ := reflect_err v n 0 (by norm_num) (by norm_num)
    (by simpa [AbsLE] using hv) hn
  have e16 : (16 : ℚ) * 2 ^ (0 : ℤ) = 16 := by norm_num
  have e1 : (42 : ℚ) * 2 ^ (0 : ℤ) / 2 ^ 24 = 42 / 2 ^ 24 := by norm_num
  rw [e16] at br
  rw [e1] at er
  have hsq : ∀ x : ℚ, |x| ≤ 16 → |x * x| ≤ 2 ^ (8 : ℤ) := by
    intro x hx
    have := abs_mul_le _ _ _ _ hx hx
    norm_num at this ⊢
    exact this
  obtain ⟨d, hd, -, -, ed⟩ := dot_err r r 8 (by norm_num) (by norm_num) (hsq _ br.1)
    (hsq _ br.2.1) (hsq _ br.2.2)
  refine ⟨r, d, hr, hd, ?_⟩
  have hvn := abs_dot_le _ _ _ _ hv hn
  have hR : AbsLE (Raytracer.reflect v n) 7 := by
    have h2 : |2 * Raytracer.dot v n| ≤ 2 * (3 * (1 * 1)) := by
      rw [abs_mul, abs_of_pos (by norm_num : (0 : ℚ) < 2)]
      linarith
    have hc : ∀ vi ni : ℚ, |vi| ≤ 1 → |ni| ≤ 1 → |-vi + 2 * Raytracer.dot v n * ni| ≤ 7 := by
      intro vi ni hvi hni
      have h3 := abs_mul_le _ _ _ _ h2 hni
      rw [abs_le] at hvi h3 ⊢
      constructor <;> linarith
    exact ⟨hc _ _ hv.1 hn.1, hc _ _ hv.2.1 hn.2.1, hc _ _ hv.2.2 hn.2.2⟩
  have hterm : ∀ ri Ri : ℚ, |ri| ≤ 16 → |Ri| ≤ 7 → |ri - Ri| ≤ 42 / 2 ^ 24 →
      |(ri - Ri) * (ri + Ri)| ≤ 966 / 2 ^ 24 := by
    intro ri Ri hri hRi he
    have hs : |ri + Ri| ≤ 23 := by
      rw [abs_le] at hri hRi ⊢
      constructor <;> linarith
    have := abs_mul_le _ _ _ _ he hs
    linarith
  have tx := hterm _ _ br.1 hR.1 er.1
  have ty := hterm _ _ br.2.1 hR.2.1 er.2.1
  have tz := hterm _ _ br.2.2 hR.2.2 er.2.2
  have hsqvn : |Raytracer.dot v n * Raytracer.dot v n| ≤ 3 * (1 * 1) * (3 * (1 * 1)) :=
    abs_mul_le _ _ _ _ hvn hvn
  have hlen : |4 * (Raytracer.dot v n * Raytracer.dot v n) * (Raytracer.dot n n - 1)| ≤
      36 / 2 ^ 22 := by
    have h1 : |4 * (Raytracer.dot v n * Raytracer.dot v n)| ≤ 4 * (3 * (1 * 1) * (3 * (1 * 1))) := by
      rw [abs_mul, abs_of_pos (by norm_num : (0 : ℚ) < 4)]
      linarith
    have := abs_mul_le _ _ _ _ h1 hnn
    linarith
  have id1 : Raytracer.dot r r - 1 =
      (r.x - (Raytracer.reflect v n).x) * (r.x + (Raytracer.reflect v n).x) +
      (r.y - (Raytracer.reflect v n).y) * (r.y + (Raytracer.reflect v n).y) +
      (r.z - (Raytracer.reflect v n).z) * (r.z + (Raytracer.reflect v n).z) +
      (Raytracer.dot v v - 1) +
      4 * (Raytracer.dot v n * Raytracer.dot v n) * (Raytracer.dot n n - 1) := by
    simp only [Raytracer.reflect, Raytracer.dot, Vec3f.add_def, Vec3f.neg_def, Vec3f.smul_def]
    ring
  have e9 : (9 : ℚ) * 2 ^ (8 : ℤ) / 2 ^ 24 = 2304 / 2 ^ 24 := by norm_num
  rw [e9] at ed
  rw [abs_le] at ed tx ty tz hlen hvv ⊢
  constructor <;> norm_num at * <;> linarith


/-- One rounded addition of a sample of absolute value at most `1` to a partial sum
of absolute value at most `m < 16`. -/
theorem add_sample_err (s c : ℚ) (m : Nat) (hm : m + 1 ≤ 16) (hs : |s| ≤ m) (hc : |c| ≤ 1) :
    ∃ y, add s c = some y ∧ |y| ≤ (m + 1 : Nat) ∧ |y - (s + c)| ≤ 16 / 2 ^ 24 := by
  have hmq : ((m : ℚ) + 1) ≤ 16 := by exact_mod_cast hm
  have hsum : |s + c| ≤ (m : ℚ) + 1 := by
    rw [abs_le] at hs hc ⊢
    constructor <;> linarith
  obtain ⟨y, hy, -, -, ey⟩ := round_err (s + c) 4 (by norm_num) (by norm_num)
    (by norm_num; linarith)
  have hq : s + c ≠ 0 → quantum (s + c) ≤ 0 := fun hx =>
    quantum_le _ hx 0 (by norm_num) (by norm_num; linarith)
  rw [abs_le] at hsum
  obtain ⟨y', hy', h1, h2⟩ := round_between (s + c) (-(m + 1 : ℤ)) (m + 1 : ℤ) 0 hq
    (by push_cast; simp only [zpow_zero, mul_one]; linarith)
    (by push_cast; simp only [zpow_zero, mul_one]; linarith)
    (by push_cast; simp only [zpow_zero, mul_one]; norm_num; linarith)
    (by push_cast; simp only [zpow_zero, mul_one]; norm_num; linarith)
  rw [hy] at hy'
  have hyy := Option.some.inj hy'
  subst hyy
  refine ⟨y, hy, ?_, ?_⟩
  · push_cast at h1 h2 ⊢
    simp only [zpow_zero, mul_one] at h1 h2
    rw [abs_le]
    constructor <;> linarith
  · norm_num at ey ⊢
    exact ey

theorem sumSame_err (c : Vec3f) (hc : AbsLE c 1) : ∀ (n m : Nat) (color : Vec3f),
    m + n ≤ 16 → AbsLE color m → Within (m * (16 / 2 ^ 24)) color ((m : ℚ) * c) →
    ∃ s, sumSame c n color = some s ∧ AbsLE s ((m + n : Nat) : ℚ) ∧
      Within ((m + n : Nat) * (16 / 2 ^ 24)) s (((m + n : Nat) : ℚ) * c)
  | 0, m, color, _, hb, he => ⟨color, rfl, hb, he⟩
  | n + 1, m, color, hmn, hb, he => by
    obtain ⟨x, hx, bx, ex⟩ := add_sample_err color.x c.x m (by omega) hb.1 hc.1
    obtain ⟨y, hy, bY, ey⟩ := add_sample_err color.y c.y m (by omega) hb.2.1 hc.2.1
    obtain ⟨z, hz, bz, ez⟩ := add_sample_err color.z c.z m (by omega) hb.2.2 hc.2.2
    have hadd : vadd color c = some ⟨x, y, z⟩ := by
      simp only [vadd, hx, hy, hz, Option.bind_eq_bind, Option.some_bind, Option.pure_def]
    have hstep : ∀ (t ci yi : ℚ), |t - (m : ℚ) * ci| ≤ m * (16 / 2 ^ 24) →
        |yi - (t + ci)| ≤ 16 / 2 ^ 24 →
        |yi - ((m + 1 : Nat) : ℚ) * ci| ≤ ((m + 1 : Nat) : ℚ) * (16 / 2 ^ 24) := by
      intro t ci yi h1 h2
      rw [abs_le] at h1 h2 ⊢
      push_cast
      constructor <;> linarith
    obtain ⟨s, hs, bs, es⟩ := sumSame_err c hc n (m + 1) ⟨x, y, z⟩ (by omega) ⟨bx, bY, bz⟩
      ⟨hstep _ _ _ he.1 ex, hstep _ _ _ he.2.1 ey, hstep _ _ _ he.2.2 ez⟩
    have e : m + 1 + n = m + (n + 1) := by omega
    rw [e] at bs es
    exact ⟨s, by rw [sumSame, hadd, Option.some_bind, hs], bs, es⟩

/-- The rounded mean of 16 copies of a colour with components in `[-1, 1]` is within
`2^-19` of the colour. -/
theorem meanSame_err (c : Vec3f) (hc : AbsLE c 1) :
    ∃ p, meanSame c 16 = some p ∧ Within (1 / 2 ^ 19) p c := by
  obtain ⟨s, hs, bs, es⟩ := sumSame_err c hc 16 0 (Vec3f.splat 0) (by norm_num)
    (by simp [AbsLE, Vec3f.splat]) (by simp [Within, Vec3f.splat, smul_x, smul_y, smul_z])
  have h16 : ofInt ((16 : Nat) : ℤ) = some 16 := by
    have := round_intCast 16 (by norm_num)
    exact_mod_cast this
  have hdiv : ∀ si ci : ℚ, |si| ≤ ((0 + 16 : Nat) : ℚ) →
      |si - ((0 + 16 : Nat) : ℚ) * ci| ≤ ((0 + 16 : Nat) : ℚ) * (16 / 2 ^ 24) →
      ∃ p, div si 16 = some p ∧ |p - ci| ≤ 1 / 2 ^ 19 := by
    intro si ci h1 h2
    norm_num at h1 h2
    obtain ⟨p, hp, -, -, ep⟩ := round_err (si / 16) 0 (by norm_num) (by norm_num)
      (by
        rw [abs_div, abs_of_pos (by norm_num : (0 : ℚ) < 16), div_le_iff₀ (by norm_num)]
        norm_num
        exact h1)
    refine ⟨p, ?_, ?_⟩
    · unfold div
      rw [if_neg (by norm_num)]
      exact hp
    · rw [abs_le] at h2 ep ⊢
      norm_num at ep ⊢
      constructor <;> linarith
  obtain ⟨px, hpx, epx⟩ := hdiv _ _ bs.1 es.1
  obtain ⟨py, hpy, epy⟩ := hdiv _ _ bs.2.1 es.2.1
  obtain ⟨pz, hpz, epz⟩ := hdiv _ _ bs.2.2 es.2.2
  refine ⟨⟨px, py, pz⟩, ?_, ⟨epx, epy, epz⟩⟩
  simp only [meanSame, hs, h16, Option.bind_eq_bind, Option.some_bind]
  simp only [vdiv, Vec3f.splat, hpx, hpy, hpz, Option.bind_eq_bind, Option.some_bind,
    Option.pure_def]

end F32

/-! ### The loop -/

/-- A successful iteration followed by the remaining iterations. -/
theorem loop_succ_of_some (body : State → Option State) (n : Nat) (s s' : State)
    (h : body s = some s') : loop body (n + 1) s = loop body n s' := by
  simp [loop, h]

/-- An iteration that executes `break` ends the loop with the state unchanged. -/
theorem loop_of_none (body : State → Option State) (n : Nat) (s : State)
    (h : body s = none) : loop body n s = s := by
  cases n <;> simp [loop, h]

theorem ref_body_mirror (L : Vec3f) (intersect : Intersect) (refr : Refract) (s : State)
    (info : IntersectInfo) (h : intersect s.ray = some info)
    (hm : info.hitSphere.material_type = MaterialType.Mirror) :
    Ref.body L intersect refr s =
      some ⟨⟨info.hitPos, reflect (-s.ray.direction) info.hitNormal⟩, s.color⟩ := by
  simp [Ref.body, h, hm]

theorem ssaa_body_mirror (L : Vec3f) (intersect : Intersect) (s : State)
    (info : IntersectInfo) (h : intersect s.ray = some info)
    (hm : info.hitSphere.material_type = MaterialType.Mirror) :
    SSAA.body L intersect s =
      some ⟨⟨info.hitPos, reflect (-s.ray.direction) info.hitNormal⟩, s.color⟩ := by
  simp [SSAA.body, h, hm]

theorem ref_body_glass (L : Vec3f) (intersect : Intersect) (refr : Refract) (s : State)
    (info : IntersectInfo) (h : intersect s.ray = some info)
    (hg : info.hitSphere.material_type = MaterialType.Glass) :
    Ref.body L intersect refr s =
      some ⟨⟨info.hitPos, Ref.glassDirection refr s.ray.direction info.hitNormal⟩, s.color⟩ := by
  simp [Ref.body, h, hg]

theorem ssaa_body_glass (L : Vec3f) (intersect : Intersect) (s : State)
    (info : IntersectInfo) (h : intersect s.ray = some info)
    (hg : info.hitSphere.material_type = MaterialType.Glass) :
    SSAA.body L intersect s = some ⟨⟨info.hitPos, Vec3f.splat 0⟩, s.color⟩ := by
  simp only [SSAA.body, h, hg, SSAA.glassDirection, SSAA.glassDirectionOf, refract]
  simp

theorem ref_body_diffuse (L : Vec3f) (intersect : Intersect) (refr : Refract) (s : State)
    (info : IntersectInfo) (h : intersect s.ray = some info)
    (hd : info.hitSphere.material_type = MaterialType.Diffuse) :
    Ref.body L intersect refr s = some ⟨s.ray, Ref.directLight L intersect info⟩ := by
  simp [Ref.body, h, hd]

theorem ssaa_body_diffuse (L : Vec3f) (intersect : Intersect) (s : State)
    (info : IntersectInfo) (h : intersect s.ray = some info)
    (hd : info.hitSphere.material_type = MaterialType.Diffuse) :
    SSAA.body L intersect s = some ⟨s.ray, SSAA.directLight L intersect info⟩ := by
  simp [SSAA.body, h, hd]

/-- Once the current ray hits a Diffuse sphere, every further iteration repeats the
same query on the same ray and stores the same colour. -/
theorem ref_loop_diffuse (L : Vec3f) (intersect : Intersect) (refr : Refract) (r : Ray)
    (info : IntersectInfo) (h : intersect r = some info)
    (hd : info.hitSphere.material_type = MaterialType.Diffuse) (n : Nat) (c : Vec3f) :
    loop (Ref.body L intersect refr) (n + 1) ⟨r, c⟩ = ⟨r, Ref.directLight L intersect info⟩ := by
  induction n generalizing c with
  | zero =>
    rw [loop_succ_of_some _ _ _ _ (ref_body_diffuse L intersect refr ⟨r, c⟩ info h hd)]
    rfl
  | succ m ih =>
    rw [loop_succ_of_some _ _ _ _ (ref_body_diffuse L intersect refr ⟨r, c⟩ info h hd)]
    exact ih _

theorem ssaa_loop_diffuse (L : Vec3f) (intersect : Intersect) (r : Ray)
    (info : IntersectInfo) (h : intersect r = some info)
    (hd : info.hitSphere.material_type = MaterialType.Diffuse) (n : Nat) (c : Vec3f) :
    loop (SSAA.body L intersect) (n + 1) ⟨r, c⟩ = ⟨r, SSAA.directLight L intersect info⟩ := by
  induction n generalizing c with
  | zero =>
    rw [loop_succ_of_some _ _ _ _ (ssaa_body_diffuse L intersect ⟨r, c⟩ info h hd)]
    rfl
  | succ m ih =>
    rw [loop_succ_of_some _ _ _ _ (ssaa_body_diffuse L intersect ⟨r, c⟩ info h hd)]
    exact ih _

/-! ### The path -/

/-- The state after `k + 1` iterations is one more iteration after the state after `k`. -/
theorem stateAt_succ_end (body : State → Option State) (k : Nat) (s : State) :
    stateAt body (k + 1) s = (stateAt body k s).bind body := by
  induction k generalizing s with
  | zero => simp [stateAt]
  | succ m ih =>
    rw [stateAt]
    cases hb : body s with
    | none => simp [stateAt, hb]
    | some s1 =>
      simp only [Option.some_bind]
      rw [ih s1]
      conv_rhs => rw [stateAt, hb]
      simp

/-- When `n` iterations run without `break`, the loop ends in the state they reach. -/
theorem loop_eq_of_stateAt (body : State → Option State) (n : Nat) (s s' : State)
    (h : stateAt body n s = some s') : loop body n s = s' := by
  induction n generalizing s with
  | zero =>
    simp only [stateAt, Option.some.injEq] at h
    simp [loop, h]
  | succ m ih =>
    rw [stateAt] at h
    cases hb : body s with
    | none => simp [hb] at h
    | some s1 =>
      rw [hb, Option.some_bind] at h
      rw [loop_succ_of_some body m s s1 hb]
      exact ih s1 h

/-- A run of `n` iterations that all hit Mirror or Glass spheres reaches a state
with the initial colour, for every loop body that keeps the colour on such hits. -/
theorem stateAt_specular (intersect : Intersect) (body : State → Option State)
    (hbody : ∀ s, HitsSpecular intersect (some s) → ∃ s', body s = some s' ∧ s'.color = s.color)
    (s0 : State) (n : Nat) (h : ∀ k < n, HitsSpecular intersect (stateAt body k s0)) :
    ∃ s', stateAt body n s0 = some s' ∧ s'.color = s0.color := by
  induction n with
  | zero => exact ⟨s0, rfl, rfl⟩
  | succ m ih =>
    obtain ⟨sm, hsm, hcol⟩ := ih (fun k hk => h k (Nat.lt_succ_of_lt hk))
    have hm := h m (Nat.lt_succ_self m)
    rw [hsm] at hm
    obtain ⟨s', hs', hcol'⟩ := hbody sm hm
    exact ⟨s', by rw [stateAt_succ_end, hsm, Option.some_bind, hs'], hcol'.trans hcol⟩

theorem ref_body_specular (L : Vec3f) (intersect : Intersect) (refr : Refract) (s : State)
    (h : HitsSpecular intersect (some s)) :
    ∃ s', Ref.body L intersect refr s = some s' ∧ s'.color = s.color := by
  obtain ⟨st, info, hst, hinfo, hmat⟩ := h
  cases hst
  rcases hmat with hm | hg
  · exact ⟨_, ref_body_mirror L intersect refr s info hinfo hm, rfl⟩
  · exact ⟨_, ref_body_glass L intersect refr s info hinfo hg, rfl⟩

theorem ssaa_body_specular (L : Vec3f) (intersect : Intersect) (s : State)
    (h : HitsSpecular intersect (some s)) :
    ∃ s', SSAA.body L intersect s = some s' ∧ s'.color = s.color := by
  obtain ⟨st, info, hst, hinfo, hmat⟩ := h
  cases hst
  rcases hmat with hm | hg
  · exact ⟨_, ssaa_body_mirror L intersect s info hinfo hm, rfl⟩
  · exact ⟨_, ssaa_body_glass L intersect s info hinfo hg, rfl⟩

/-- Inside the Mirror ball the axis ray bounces between the two poles for ever. -/
theorem ball_path (body : State → Option State) (c : Vec3f)
    (h0 : body ⟨centreRay, c⟩ = some ⟨poleDownRay, c⟩)
    (hD : body ⟨poleDownRay, c⟩ = some ⟨poleUpRay, c⟩)
    (hU : body ⟨poleUpRay, c⟩ = some ⟨poleDownRay, c⟩) (k : Nat) :
    HitsSpecular ballScene (stateAt body k ⟨centreRay, c⟩) := by
  have hpoles : ∀ m : Nat, stateAt body m ⟨poleDownRay, c⟩ = some ⟨poleDownRay, c⟩ ∨
      stateAt body m ⟨poleDownRay, c⟩ = some ⟨poleUpRay, c⟩ := by
    intro m
    induction m with
    | zero => exact Or.inl rfl
    | succ m ih =>
      rw [stateAt_succ_end]
      rcases ih with h | h
      · exact Or.inr (by rw [h, Option.some_bind, hD])
      · exact Or.inl (by rw [h, Option.some_bind, hU])
  cases k with
  | zero => exact ⟨_, _, rfl, ballScene_centreRay, Or.inl rfl⟩
  | succ m =>
    rw [stateAt, h0, Option.some_bind]
    rcases hpoles m with h | h
    · exact ⟨_, _, h, ballScene_poleDownRay, Or.inl rfl⟩
    · exact ⟨_, _, h, ballScene_poleUpRay, Or.inl rfl⟩

theorem ref_ball_path (k : Nat) :
    HitsSpecular ballScene
      (stateAt (Ref.body lightQ ballScene refractFail) k ⟨centreRay, Vec3f.splat 0⟩) := by
  refine ball_path _ (Vec3f.splat 0) ?_ ?_ ?_ k
  · rw [ref_body_mirror lightQ ballScene refractFail ⟨centreRay, Vec3f.splat 0⟩
      ((unitSphere MaterialType.Mirror).hitAt centreRay 1) ballScene_centreRay rfl]
    exact congrArg (fun r => some (State.mk r (Vec3f.splat 0))) ball_next_centre
  · rw [ref_body_mirror lightQ ballScene refractFail ⟨poleDownRay, Vec3f.splat 0⟩
      ((unitSphere MaterialType.Mirror).hitAt poleDownRay 2) ballScene_poleDownRay rfl]
    exact congrArg (fun r => some (State.mk r (Vec3f.splat 0))) ball_next_down
  · rw [ref_body_mirror lightQ ballScene refractFail ⟨poleUpRay, Vec3f.splat 0⟩
      ((unitSphere MaterialType.Mirror).hitAt poleUpRay 2) ballScene_poleUpRay rfl]
    exact congrArg (fun r => some (State.mk r (Vec3f.splat 0))) ball_next_up

theorem ssaa_ball_path (k : Nat) :
    HitsSpecular ballScene
      (stateAt (SSAA.body lightQ ballScene) k ⟨centreRay, Vec3f.splat 0⟩) := by
  refine ball_path _ (Vec3f.splat 0) ?_ ?_ ?_ k
  · rw [ssaa_body_mirror lightQ ballScene ⟨centreRay, Vec3f.splat 0⟩
      ((unitSphere MaterialType.Mirror).hitAt centreRay 1) ballScene_centreRay rfl]
    exact congrArg (fun r => some (State.mk r (Vec3f.splat 0))) ball_next_centre
  · rw [ssaa_body_mirror lightQ ballScene ⟨poleDownRay, Vec3f.splat 0⟩
      ((unitSphere MaterialType.Mirror).hitAt poleDownRay 2) ballScene_poleDownRay rfl]
    exact congrArg (fun r => some (State.mk r (Vec3f.splat 0))) ball_next_down
  · rw [ssaa_body_mirror lightQ ballScene ⟨poleUpRay, Vec3f.splat 0⟩
      ((unitSphere MaterialType.Mirror).hitAt poleUpRay 2) ballScene_poleUpRay rfl]
    exact congrArg (fun r => some (State.mk r (Vec3f.splat 0))) ball_next_up

/-! ### The sample loop -/

/-- Summing the same colour over a list of samples adds it once per sample. -/
theorem foldl_add_same (f : Nat → Vec3f) (x : Vec3f) (l : List Nat)
    (h : ∀ k ∈ l, f k = x) (c : Vec3f) :
    l.foldl (fun color k => color + f k) c = c + (l.length : ℚ) * x := by
  induction l generalizing c with
  | nil => ext <;> simp [Vec3f.add_def, Vec3f.smul_def]
  | cons a t ih =>
    rw [List.foldl_cons, ih (fun k hk => h k (List.mem_cons_of_mem a hk)),
      h a (List.mem_cons_self a t)]
    ext <;> simp [Vec3f.add_def, Vec3f.smul_def] <;> ring

/-! ### The Glass sphere inside the Diffuse dome -/

/-- The value of `raytrace` of `raytracer-ssaa.cpp` read off the final state of the loop. -/
theorem ssaa_raytrace_of_loop (L : Vec3f) (intersect : Intersect) (ray_in r : Ray) (c : Vec3f)
    (h : loop (SSAA.body L intersect) MAX_DEPTH ⟨ray_in, Vec3f.splat 0⟩ = ⟨r, c⟩) :
    SSAA.raytrace L intersect ray_in = c := by
  rw [SSAA.raytrace, h]

/-- The first iteration hits the Glass sphere and continues with the zero-direction ray. -/
theorem dome_first_iteration (L : Vec3f) :
    SSAA.body L domeScene ⟨axisRay, Vec3f.splat 0⟩ =
      some ⟨⟨⟨0, 0, 1⟩, Vec3f.splat 0⟩, Vec3f.splat 0⟩ := by
  rw [ssaa_body_glass L domeScene ⟨axisRay, Vec3f.splat 0⟩
    ((unitSphere MaterialType.Glass).hitAt axisRay 2) domeScene_axisRay rfl]
  have hpos : ((unitSphere MaterialType.Glass).hitAt axisRay 2).hitPos = ⟨0, 0, 1⟩ := by
    norm_num [Sphere.hitAt, unitSphere, axisRay, Vec3f.add_def, Vec3f.smul_def]
  rw [hpos]

/-- The hit of the zero-direction ray on the dome is shaded with the ambient colour. -/
theorem dome_direct_light (L : Vec3f) :
    SSAA.directLight L domeScene (domeDiffuse.hitAt ⟨⟨0, 0, 1⟩, Vec3f.splat 0⟩ 5) =
      ⟨1 / 10, 1 / 10, 1 / 10⟩ := by
  have hpos2 : (domeDiffuse.hitAt ⟨⟨0, 0, 1⟩, Vec3f.splat 0⟩ 5).hitPos = ⟨0, 0, 1⟩ := by
    norm_num [Sphere.hitAt, Vec3f.add_def, Vec3f.smul_def, Vec3f.splat_def]
  simp only [SSAA.directLight, hpos2, domeScene_shadow L]
  norm_num [Sphere.hitAt, domeDiffuse, Vec3f.mul_def, Vec3f.splat_def]

theorem dome_loop (L : Vec3f) :
    loop (SSAA.body L domeScene) MAX_DEPTH ⟨axisRay, Vec3f.splat 0⟩ =
      ⟨⟨⟨0, 0, 1⟩, Vec3f.splat 0⟩, ⟨1 / 10, 1 / 10, 1 / 10⟩⟩ :=
  (loop_succ_of_some (SSAA.body L domeScene) 99 ⟨axisRay, Vec3f.splat 0⟩
      ⟨⟨⟨0, 0, 1⟩, Vec3f.splat 0⟩, Vec3f.splat 0⟩ (dome_first_iteration L)).trans
    ((ssaa_loop_diffuse L domeScene ⟨⟨0, 0, 1⟩, Vec3f.splat 0⟩
        (domeDiffuse.hitAt ⟨⟨0, 0, 1⟩, Vec3f.splat 0⟩ 5) domeScene_zero rfl 98
        (Vec3f.splat 0)).trans
      (congrArg (State.mk ⟨⟨0, 0, 1⟩, Vec3f.splat 0⟩) (dome_direct_light L)))

theorem ambient_ne_black : (⟨1 / 10, 1 / 10, 1 / 10⟩ : Vec3f) ≠ Vec3f.splat 0 := by
  intro hzero
  have hx := congrArg Vec3f.x hzero
  norm_num [Vec3f.splat_def] at hx

/-! ## The claims -/

/-- C1: in both programs, when `scene.intersect` reports no hit for the primary
ray, `raytrace` returns the zero colour. -/
theorem raytrace_no_hit_black (L : Vec3f) (intersect : Intersect) (refr : Refract)
    (ray_in : Ray) (hmiss : intersect ray_in = none) :
    Ref.raytrace L intersect refr ray_in = Vec3f.splat 0 ∧
      SSAA.raytrace L intersect ray_in = Vec3f.splat 0 := by
  constructor
  · simp [Ref.raytrace, MAX_DEPTH, loop, Ref.body, hmiss]
  · simp [SSAA.raytrace, MAX_DEPTH, loop, SSAA.body, hmiss]


theorem raytrace_no_hit_black_witness :
    glassScene awayRay = none ∧
      (Ref.raytrace lightQ glassScene refractFail awayRay = Vec3f.splat 0 ∧
        SSAA.raytrace lightQ glassScene awayRay = Vec3f.splat 0) :=
  ⟨glassScene_awayRay,
    raytrace_no_hit_black lightQ glassScene refractFail awayRay glassScene_awayRay⟩

/-- C2: in both programs, when the primary ray first hits a Mirror sphere and the
reflected ray `Ray(p, reflect(-d, n))` first hits a Diffuse sphere, `raytrace`
returns exactly the direct-lighting colour of that second hit: no factor is applied
and the remaining iterations do not change it. -/
theorem raytrace_mirror_then_diffuse (L : Vec3f) (intersect : Intersect) (refr : Refract)
    (ray_in : Ray) (info1 info2 : IntersectInfo)
    (h1 : intersect ray_in = some info1)
    (hm : info1.hitSphere.material_type = MaterialType.Mirror)
    (h2 : intersect ⟨info1.hitPos, reflect (-ray_in.direction) info1.hitNormal⟩ = some info2)
    (hd : info2.hitSphere.material_type = MaterialType.Diffuse) :
    Ref.raytrace L intersect refr ray_in = Ref.directLight L intersect info2 ∧
      SSAA.raytrace L intersect ray_in = SSAA.directLight L intersect info2 := by
  constructor
  · unfold Ref.raytrace MAX_DEPTH
    rw [loop_succ_of_some _ 99 _ _
      (ref_body_mirror L intersect refr ⟨ray_in, Vec3f.splat 0⟩ info1 h1 hm)]
    rw [ref_loop_diffuse L intersect refr _ info2 h2 hd 98]
  · unfold SSAA.raytrace MAX_DEPTH
    rw [loop_succ_of_some _ 99 _ _
      (ssaa_body_mirror L intersect ⟨ray_in, Vec3f.splat 0⟩ info1 h1 hm)]
    rw [ssaa_loop_diffuse L intersect _ info2 h2 hd 98]

theorem raytrace_mirror_then_diffuse_witness :
    mirrorScene axisRay = some ((unitSphere MaterialType.Mirror).hitAt axisRay 2) ∧
      ((unitSphere MaterialType.Mirror).hitAt axisRay 2).hitSphere.material_type =
        MaterialType.Mirror ∧
      mirrorScene ⟨((unitSphere MaterialType.Mirror).hitAt axisRay 2).hitPos,
          reflect (-axisRay.direction) ((unitSphere MaterialType.Mirror).hitAt axisRay 2).hitNormal⟩ =
        some (farDiffuse.hitAt ⟨⟨0, 0, 1⟩, ⟨0, 0, 1⟩⟩ 4) ∧
      (farDiffuse.hitAt ⟨⟨0, 0, 1⟩, ⟨0, 0, 1⟩⟩ 4).hitSphere.material_type =
        MaterialType.Diffuse ∧
      (Ref.raytrace lightQ mirrorScene refractFail axisRay =
          Ref.directLight lightQ mirrorScene (farDiffuse.hitAt ⟨⟨0, 0, 1⟩, ⟨0, 0, 1⟩⟩ 4) ∧
        SSAA.raytrace lightQ mirrorScene axisRay =
          SSAA.directLight lightQ mirrorScene (farDiffuse.hitAt ⟨⟨0, 0, 1⟩, ⟨0, 0, 1⟩⟩ 4)) :=
  have hray : (⟨((unitSphere MaterialType.Mirror).hitAt axisRay 2).hitPos,
      reflect (-axisRay.direction) ((unitSphere MaterialType.Mirror).hitAt axisRay 2).hitNormal⟩ :
      Ray) = ⟨⟨0, 0, 1⟩, ⟨0, 0, 1⟩⟩ := by
    norm_num [Sphere.hitAt, unitSphere, axisRay, reflect, dot, Vec3f.add_def, Vec3f.sub_def,
      Vec3f.neg_def, Vec3f.smul_def, Vec3f.sdiv_def]
  have h2 : mirrorScene ⟨((unitSphere MaterialType.Mirror).hitAt axisRay 2).hitPos,
      reflect (-axisRay.direction) ((unitSphere MaterialType.Mirror).hitAt axisRay 2).hitNormal⟩ =
      some (farDiffuse.hitAt ⟨⟨0, 0, 1⟩, ⟨0, 0, 1⟩⟩ 4) := by
    rw [hray]
    exact mirrorScene_reflected
  ⟨mirrorScene_axisRay, rfl, h2, rfl,
    raytrace_mirror_then_diffuse lightQ mirrorScene refractFail axisRay _ _
      mirrorScene_axisRay rfl h2 rfl⟩

/-- C3: in `raytracer.cpp`, on a Glass hit on which the `refract` call made by the
code reports failure, the iteration does not end the loop, leaves the colour
untouched, and the next ray starts at the hit position with direction
`reflect(-d, n) = d - 2*dot(d, n)*n`, both when the ray arrives from outside and
when it arrives from inside (where the code reflects about `-n`). -/
theorem glass_refract_failure_reflects (L : Vec3f) (intersect : Intersect) (refr : Refract)
    (s : State) (info : IntersectInfo) (h : intersect s.ray = some info)
    (hg : info.hitSphere.material_type = MaterialType.Glass)
    (hout : 0 ≤ dot (-s.ray.direction) info.hitNormal →
      refr (-s.ray.direction) info.hitNormal 1 (3 / 2) = none)
    (hin : dot (-s.ray.direction) info.hitNormal < 0 →
      refr (-s.ray.direction) (-info.hitNormal) (3 / 2) 1 = none) :
    Ref.body L intersect refr s =
        some ⟨⟨info.hitPos, reflect (-s.ray.direction) info.hitNormal⟩, s.color⟩ ∧
      reflect (-s.ray.direction) (-info.hitNormal) = reflect (-s.ray.direction) info.hitNormal ∧
      reflect (-s.ray.direction) info.hitNormal =
        s.ray.direction - (2 * dot s.ray.direction info.hitNormal) * info.hitNormal := by
  refine ⟨?_, reflect_neg_normal _ _, reflect_neg_direction _ _⟩
  rw [ref_body_glass L intersect refr s info h hg]
  by_cases hlt : dot (-s.ray.direction) info.hitNormal < 0
  · simp [Ref.glassDirection, hlt, hin hlt, reflect_neg_normal]
  · simp [Ref.glassDirection, hlt, hout (not_lt.mp hlt)]

theorem glass_refract_failure_reflects_witness :
    (glassScene axisRay = some ((unitSphere MaterialType.Glass).hitAt axisRay 2) ∧
      0 ≤ dot (-axisRay.direction) ((unitSphere MaterialType.Glass).hitAt axisRay 2).hitNormal ∧
      Ref.body lightQ glassScene refractFail ⟨axisRay, Vec3f.splat 0⟩ =
        some ⟨⟨((unitSphere MaterialType.Glass).hitAt axisRay 2).hitPos,
          reflect (-axisRay.direction)
            ((unitSphere MaterialType.Glass).hitAt axisRay 2).hitNormal⟩, Vec3f.splat 0⟩) ∧
    (glassScene ⟨⟨0, 0, 0⟩, ⟨0, 0, 1⟩⟩ =
        some ((unitSphere MaterialType.Glass).hitAt ⟨⟨0, 0, 0⟩, ⟨0, 0, 1⟩⟩ 1) ∧
      dot (-(⟨0, 0, 1⟩ : Vec3f))
        ((unitSphere MaterialType.Glass).hitAt ⟨⟨0, 0, 0⟩, ⟨0, 0, 1⟩⟩ 1).hitNormal < 0 ∧
      Ref.body lightQ glassScene refractFail ⟨⟨⟨0, 0, 0⟩, ⟨0, 0, 1⟩⟩, Vec3f.splat 0⟩ =
        some ⟨⟨((unitSphere MaterialType.Glass).hitAt ⟨⟨0, 0, 0⟩, ⟨0, 0, 1⟩⟩ 1).hitPos,
          reflect (-(⟨0, 0, 1⟩ : Vec3f))
            ((unitSphere MaterialType.Glass).hitAt ⟨⟨0, 0, 0⟩, ⟨0, 0, 1⟩⟩ 1).hitNormal⟩,
          Vec3f.splat 0⟩) :=
  ⟨⟨glassScene_axisRay,
      by norm_num [Sphere.hitAt, unitSphere, axisRay, dot, Vec3f.add_def, Vec3f.sub_def,
        Vec3f.neg_def, Vec3f.smul_def, Vec3f.sdiv_def],
      (glass_refract_failure_reflects lightQ glassScene refractFail ⟨axisRay, Vec3f.splat 0⟩ _
        glassScene_axisRay rfl (fun _ => rfl) (fun _ => rfl)).1⟩,
    ⟨glassScene_inside,
      by norm_num [Sphere.hitAt, unitSphere, dot, Vec3f.add_def, Vec3f.sub_def,
        Vec3f.neg_def, Vec3f.smul_def, Vec3f.sdiv_def],
      (glass_refract_failure_reflects lightQ glassScene refractFail
        ⟨⟨⟨0, 0, 0⟩, ⟨0, 0, 1⟩⟩, Vec3f.splat 0⟩ _
        glassScene_inside rfl (fun _ => rfl) (fun _ => rfl)).1⟩⟩

/-- C4, counterexample: a Glass unit sphere inside a Diffuse dome that also contains
the camera.  The primary ray first hits the Glass sphere, yet `raytrace` of
`raytracer-ssaa.cpp` returns `(0.1, 0.1, 0.1)` for every light direction: the
zero-direction ray that leaves the Glass hit is inside the dome, whose larger root
`sqrt(25) = 5` is accepted, so the next iteration shades the dome. -/
theorem glass_in_dome_not_black :
    (∃ info, domeScene axisRay = some info ∧
        info.hitSphere.material_type = MaterialType.Glass) ∧
      ∀ L : Vec3f, SSAA.raytrace L domeScene axisRay = ⟨1 / 10, 1 / 10, 1 / 10⟩ ∧
        SSAA.raytrace L domeScene axisRay ≠ Vec3f.splat 0 :=
  ⟨⟨(unitSphere MaterialType.Glass).hitAt axisRay 2, domeScene_axisRay, rfl⟩,
    fun L =>
      ⟨ssaa_raytrace_of_loop L domeScene axisRay _ _ (dome_loop L),
        fun h => ambient_ne_black
          ((ssaa_raytrace_of_loop L domeScene axisRay _ _ (dome_loop L)).symm.trans h)⟩⟩

/-- C4, amended: in `raytracer-ssaa.cpp`, when the nearest hit of the primary ray is
a Glass sphere at position `p` and the zero-direction ray `Ray(p, Vec3f(0))` that
the stub `refract` produces hits no sphere, `raytrace` returns the zero colour. -/
theorem glass_black_when_zero_ray_misses (L : Vec3f) (intersect : Intersect) (ray_in : Ray)
    (info : IntersectInfo) (h1 : intersect ray_in = some info)
    (hg : info.hitSphere.material_type = MaterialType.Glass)
    (hmiss : intersect ⟨info.hitPos, Vec3f.splat 0⟩ = none) :
    SSAA.raytrace L intersect ray_in = Vec3f.splat 0 := by
  unfold SSAA.raytrace MAX_DEPTH
  rw [loop_succ_of_some _ 99 _ _
    (ssaa_body_glass L intersect ⟨ray_in, Vec3f.splat 0⟩ info h1 hg)]
  rw [loop_of_none]
  simp [SSAA.body, hmiss]

theorem glass_black_when_zero_ray_misses_witness :
    glassScene axisRay = some ((unitSphere MaterialType.Glass).hitAt axisRay 2) ∧
      ((unitSphere MaterialType.Glass).hitAt axisRay 2).hitSphere.material_type =
        MaterialType.Glass ∧
      glassScene ⟨((unitSphere MaterialType.Glass).hitAt axisRay 2).hitPos, Vec3f.splat 0⟩ =
        none ∧
      SSAA.raytrace lightQ glassScene axisRay = Vec3f.splat 0 :=
  have hpos : ((unitSphere MaterialType.Glass).hitAt axisRay 2).hitPos = ⟨0, 0, 1⟩ := by
    norm_num [Sphere.hitAt, unitSphere, axisRay, Vec3f.add_def, Vec3f.smul_def]
  have hmiss : glassScene
      ⟨((unitSphere MaterialType.Glass).hitAt axisRay 2).hitPos, Vec3f.splat 0⟩ = none :=
    hpos ▸ glassScene_zero
  ⟨glassScene_axisRay, rfl, hmiss,
    glass_black_when_zero_ray_misses lightQ glassScene axisRay _ glassScene_axisRay rfl hmiss⟩

/-- C5: on a Diffuse hit with position `p`, normal `n` and albedo `kd`, the
iteration keeps the ray and sets the colour: to exactly `0.1*kd` in both programs
when the shadow ray `Ray(p, LIGHT_DIRECTION)` hits any sphere at all; when it hits
nothing, to `max(dot(LIGHT_DIRECTION, n), 0)*kd` in `raytracer-ssaa.cpp` and to
`max(dot(LIGHT_DIRECTION, n), 0)*kd + 0.1*kd` in `raytracer.cpp`. -/
theorem diffuse_hit_colour (L : Vec3f) (intersect : Intersect) (refr : Refract) (s : State)
    (info : IntersectInfo) (h : intersect s.ray = some info)
    (hd : info.hitSphere.material_type = MaterialType.Diffuse) :
    (∀ shadow_info : IntersectInfo, intersect ⟨info.hitPos, L⟩ = some shadow_info →
        Ref.body L intersect refr s = some ⟨s.ray, (1 / 10 : ℚ) * info.hitSphere.kd⟩ ∧
          SSAA.body L intersect s = some ⟨s.ray, (1 / 10 : ℚ) * info.hitSphere.kd⟩) ∧
      (intersect ⟨info.hitPos, L⟩ = none →
        SSAA.body L intersect s =
            some ⟨s.ray, max (dot L info.hitNormal) 0 * info.hitSphere.kd⟩ ∧
          Ref.body L intersect refr s =
            some ⟨s.ray, max (dot L info.hitNormal) 0 * info.hitSphere.kd +
              (1 / 10 : ℚ) * info.hitSphere.kd⟩) := by
  rw [ref_body_diffuse L intersect refr s info h hd, ssaa_body_diffuse L intersect s info h hd]
  constructor
  · intro shadow_info hs
    simp [Ref.directLight, SSAA.directLight, hs, Vec3f.splat_mul]
  · intro hs
    simp [Ref.directLight, SSAA.directLight, hs, Vec3f.splat_mul]

theorem diffuse_hit_colour_witness :
    (mirrorScene ⟨⟨0, 0, 1⟩, ⟨0, 0, 1⟩⟩ = some (farDiffuse.hitAt ⟨⟨0, 0, 1⟩, ⟨0, 0, 1⟩⟩ 4) ∧
      (farDiffuse.hitAt ⟨⟨0, 0, 1⟩, ⟨0, 0, 1⟩⟩ 4).hitSphere.material_type =
        MaterialType.Diffuse ∧
      mirrorScene ⟨(farDiffuse.hitAt ⟨⟨0, 0, 1⟩, ⟨0, 0, 1⟩⟩ 4).hitPos, lightQ⟩ =
        some (farDiffuse.hitAt ⟨⟨0, 0, 5⟩, lightQ⟩ (4 / 7)) ∧
      Ref.body lightQ mirrorScene refractFail ⟨⟨⟨0, 0, 1⟩, ⟨0, 0, 1⟩⟩, Vec3f.splat 0⟩ =
        some ⟨⟨⟨0, 0, 1⟩, ⟨0, 0, 1⟩⟩, (1 / 10 : ℚ) * farDiffuse.kd⟩ ∧
      SSAA.body lightQ mirrorScene ⟨⟨⟨0, 0, 1⟩, ⟨0, 0, 1⟩⟩, Vec3f.splat 0⟩ =
        some ⟨⟨⟨0, 0, 1⟩, ⟨0, 0, 1⟩⟩, (1 / 10 : ℚ) * farDiffuse.kd⟩) ∧
    (diffuseScene axisRay = some ((unitSphere MaterialType.Diffuse).hitAt axisRay 2) ∧
      ((unitSphere MaterialType.Diffuse).hitAt axisRay 2).hitSphere.material_type =
        MaterialType.Diffuse ∧
      diffuseScene ⟨((unitSphere MaterialType.Diffuse).hitAt axisRay 2).hitPos, lightQ⟩ = none ∧
      SSAA.body lightQ diffuseScene ⟨axisRay, Vec3f.splat 0⟩ =
        some ⟨axisRay, max (dot lightQ ((unitSphere MaterialType.Diffuse).hitAt axisRay 2).hitNormal)
          0 * (unitSphere MaterialType.Diffuse).kd⟩ ∧
      Ref.body lightQ diffuseScene refractFail ⟨axisRay, Vec3f.splat 0⟩ =
        some ⟨axisRay, max (dot lightQ ((unitSphere MaterialType.Diffuse).hitAt axisRay 2).hitNormal)
          0 * (unitSphere MaterialType.Diffuse).kd +
            (1 / 10 : ℚ) * (unitSphere MaterialType.Diffuse).kd⟩) :=
  have hpos1 : (farDiffuse.hitAt ⟨⟨0, 0, 1⟩, ⟨0, 0, 1⟩⟩ 4).hitPos = ⟨0, 0, 5⟩ := by
    norm_num [Sphere.hitAt, Vec3f.add_def, Vec3f.smul_def]
  have hs1 : mirrorScene ⟨(farDiffuse.hitAt ⟨⟨0, 0, 1⟩, ⟨0, 0, 1⟩⟩ 4).hitPos, lightQ⟩ =
      some (farDiffuse.hitAt ⟨⟨0, 0, 5⟩, lightQ⟩ (4 / 7)) := hpos1 ▸ mirrorScene_shadow
  have hpos2 : ((unitSphere MaterialType.Diffuse).hitAt axisRay 2).hitPos = ⟨0, 0, 1⟩ := by
    norm_num [Sphere.hitAt, unitSphere, axisRay, Vec3f.add_def, Vec3f.smul_def]
  have hs2 : diffuseScene ⟨((unitSphere MaterialType.Diffuse).hitAt axisRay 2).hitPos, lightQ⟩ =
      none := hpos2 ▸ diffuseScene_shadow
  ⟨⟨mirrorScene_reflected, rfl, hs1,
      (diffuse_hit_colour lightQ mirrorScene refractFail ⟨⟨⟨0, 0, 1⟩, ⟨0, 0, 1⟩⟩, Vec3f.splat 0⟩ _
        mirrorScene_reflected rfl).1 _ hs1⟩,
    ⟨diffuseScene_axisRay, rfl, hs2,
      (diffuse_hit_colour lightQ diffuseScene refractFail ⟨axisRay, Vec3f.splat 0⟩ _
        diffuseScene_axisRay rfl).2 hs2⟩⟩

/-- C6, counterexample: in `float` the double reflection of `v = (1, 2, 3)` about
`n = (0.6f, 0.8f, 0)`, whose `float` squared length `dot(n, n)` is `1.0f`, is
`(1 + 2^-22, 2 + 2^-22, 3)` and not `v`; and for `n = (1, 0, 0)` and
`v = (3e38f, 0, 0)` the product `2.0f * dot(v, n)` leaves the finite range of
`float`, so that no finite vector is returned. -/
theorem reflect_twice_rounds :
    F32.round (3 / 5) = some (5033165 / 8388608) ∧
      F32.round (4 / 5) = some (13421773 / 16777216) ∧
      F32.dot ⟨5033165 / 8388608, 13421773 / 16777216, 0⟩
        ⟨5033165 / 8388608, 13421773 / 16777216, 0⟩ = some 1 ∧
      F32.IsVec ⟨1, 2, 3⟩ ∧
      (F32.reflect ⟨1, 2, 3⟩ ⟨5033165 / 8388608, 13421773 / 16777216, 0⟩).bind
          (fun r => F32.reflect r ⟨5033165 / 8388608, 13421773 / 16777216, 0⟩) =
        some ⟨4194305 / 4194304, 8388609 / 4194304, 3⟩ ∧
      (⟨4194305 / 4194304, 8388609 / 4194304, 3⟩ : Vec3f) ≠ ⟨1, 2, 3⟩ ∧
      F32.round (3 * 10 ^ 38) = some 300000000549775575777803994281145270272 ∧
      F32.reflect ⟨300000000549775575777803994281145270272, 0, 0⟩ ⟨1, 0, 0⟩ = none := by
  refine ⟨?_, ?_, ?_, ?_, ?_, ?_, ?_, ?_⟩ <;> decide!

/-- C6, amended: double reflection `reflect(reflect(v, n), n)`, with
`reflect(v, n) = -v + 2*dot(v, n)*n`, returns `v`
(1) in exact arithmetic, for every `v` and every `n` with `dot(n, n) = 1`;
(2) in `float`, for every `float` normal `n` whose length is exactly one (these are
the six axis directions) and every `float` vector `v` whose double is finite;
(3) in `float` up to `2^(a-14)` in every component, for every `v` with components in
`[-2^a, 2^a]`, `-126 ≤ a ≤ 116`, and every `n` with components in `[-1, 1]` and
`dot(n, n)` within `2^-22` of one. -/
theorem reflect_reflect (v n : Vec3f) (a : ℤ) :
    (dot n n = 1 → reflect (reflect v n) n = v) ∧
      (dot n n = 1 → F32.IsVec n → F32.IsVec v → F32.IsVec ((2 : ℚ) * v) →
        (F32.reflect v n).bind (fun r => F32.reflect r n) = some v) ∧
      (-126 ≤ a → a ≤ 116 → |dot n n - 1| ≤ 1 / 2 ^ 22 → F32.AbsLE n 1 →
        F32.AbsLE v (2 ^ a) →
        ∃ r2, (F32.reflect v n).bind (fun r => F32.reflect r n) = some r2 ∧
          F32.Within (2 ^ a / 2 ^ 14) r2 v) := by
  have hA : dot n n = 1 → reflect (reflect v n) n = v := by
    intro hn
    simp only [dot] at hn
    ext <;> simp only [reflect, dot, Vec3f.add_def, Vec3f.neg_def, Vec3f.smul_def]
    · linear_combination (4 * (v.x * n.x + v.y * n.y + v.z * n.z) * n.x) * hn
    · linear_combination (4 * (v.x * n.x + v.y * n.y + v.z * n.z) * n.y) * hn
    · linear_combination (4 * (v.x * n.x + v.y * n.y + v.z * n.z) * n.z) * hn
  refine ⟨hA, ?_, fun ha ha' hnn hn hv => F32.double_reflect_err v n a ha ha' hv hn hnn⟩
  intro hn hfn hfv hf2
  have hax := F32.isAxis_of_unit n hfn hn
  obtain ⟨h1, h2⟩ := F32.reflect_axis_isVec v n hfv hf2 hax
  rw [F32.reflect_axis v n hfv hf2 hax, Option.some_bind, F32.reflect_axis _ n h1 h2 hax,
    hA hn]

theorem reflect_reflect_witness :
    (dot (⟨4 / 5, 3 / 5, 0⟩ : Vec3f) ⟨4 / 5, 3 / 5, 0⟩ = 1 ∧
        reflect (reflect ⟨3 / 5, 4 / 5, 0⟩ ⟨4 / 5, 3 / 5, 0⟩) ⟨4 / 5, 3 / 5, 0⟩ =
          ⟨3 / 5, 4 / 5, 0⟩) ∧
      ((dot (⟨0, 0, -1⟩ : Vec3f) ⟨0, 0, -1⟩ = 1 ∧ F32.IsVec ⟨0, 0, -1⟩ ∧ F32.IsVec ⟨1, 2, 3⟩ ∧
          F32.IsVec ((2 : ℚ) * (⟨1, 2, 3⟩ : Vec3f))) ∧
        (F32.reflect ⟨1, 2, 3⟩ ⟨0, 0, -1⟩).bind (fun r => F32.reflect r ⟨0, 0, -1⟩) =
          some ⟨1, 2, 3⟩) ∧
      (((-126 : ℤ) ≤ 2 ∧ (2 : ℤ) ≤ 116 ∧
          |dot (⟨5033165 / 8388608, 13421773 / 16777216, 0⟩ : Vec3f)
            ⟨5033165 / 8388608, 13421773 / 16777216, 0⟩ - 1| ≤ 1 / 2 ^ 22 ∧
          F32.AbsLE ⟨5033165 / 8388608, 13421773 / 16777216, 0⟩ 1 ∧
          F32.AbsLE ⟨1, 2, 3⟩ (2 ^ (2 : ℤ))) ∧
        ∃ r2, (F32.reflect ⟨1, 2, 3⟩ ⟨5033165 / 8388608, 13421773 / 16777216, 0⟩).bind
            (fun r => F32.reflect r ⟨5033165 / 8388608, 13421773 / 16777216, 0⟩) = some r2 ∧
          F32.Within (2 ^ (2 : ℤ) / 2 ^ 14) r2 ⟨1, 2, 3⟩) := by
  have h1 : dot (⟨4 / 5, 3 / 5, 0⟩ : Vec3f) ⟨4 / 5, 3 / 5, 0⟩ = 1 := by norm_num [dot]
  have h2 : dot (⟨0, 0, -1⟩ : Vec3f) ⟨0, 0, -1⟩ = 1 := by norm_num [dot]
  have h3 : F32.IsVec ⟨0, 0, -1⟩ := by decide!
  have h4 : F32.IsVec ⟨1, 2, 3⟩ := by decide!
  have h5 : F32.IsVec ((2 : ℚ) * (⟨1, 2, 3⟩ : Vec3f)) := by decide!
  have h6 : |dot (⟨5033165 / 8388608, 13421773 / 16777216, 0⟩ : Vec3f)
      ⟨5033165 / 8388608, 13421773 / 16777216, 0⟩ - 1| ≤ 1 / 2 ^ 22 := by
    rw [abs_le]
    norm_num [dot]
  have h7 : F32.AbsLE ⟨5033165 / 8388608, 13421773 / 16777216, 0⟩ 1 := by
    norm_num [F32.AbsLE, abs_le]
  have h8 : F32.AbsLE ⟨1, 2, 3⟩ (2 ^ (2 : ℤ)) := by
    norm_num [F32.AbsLE, abs_le]
  exact ⟨⟨h1, (reflect_reflect ⟨3 / 5, 4 / 5, 0⟩ ⟨4 / 5, 3 / 5, 0⟩ 0).1 h1⟩,
    ⟨⟨h2, h3, h4, h5⟩, (reflect_reflect ⟨1, 2, 3⟩ ⟨0, 0, -1⟩ 0).2.1 h2 h3 h4 h5⟩,
    ⟨⟨by norm_num, by norm_num, h6, h7, h8⟩,
      (reflect_reflect ⟨1, 2, 3⟩ ⟨5033165 / 8388608, 13421773 / 16777216, 0⟩ 2).2.2
        (by norm_num) (by norm_num) h6 h7 h8⟩⟩

/-- C7, counterexample: in `float`, `v = (0.6f, 0.8f, 0)` and `n = (0.6f, 0, 0.8f)`
have `dot(v, v) = dot(n, n) = 1.0f` and `dot(v, n) = 0.36f`, and the reflected vector
`r = reflect(v, n)` has `dot(r, r) = 1 + 2^-23`, which is not `1`. -/
theorem reflect_length_rounds :
    F32.dot ⟨5033165 / 8388608, 13421773 / 16777216, 0⟩
        ⟨5033165 / 8388608, 13421773 / 16777216, 0⟩ = some 1 ∧
      F32.dot ⟨5033165 / 8388608, 0, 13421773 / 16777216⟩
        ⟨5033165 / 8388608, 0, 13421773 / 16777216⟩ = some 1 ∧
      F32.dot ⟨5033165 / 8388608, 13421773 / 16777216, 0⟩
        ⟨5033165 / 8388608, 0, 13421773 / 16777216⟩ = some (3019899 / 8388608) ∧
      F32.reflect ⟨5033165 / 8388608, 13421773 / 16777216, 0⟩
          ⟨5033165 / 8388608, 0, 13421773 / 16777216⟩ =
        some ⟨-704643 / 4194304, -13421773 / 16777216, 9663677 / 16777216⟩ ∧
      F32.dot ⟨-704643 / 4194304, -13421773 / 16777216, 9663677 / 16777216⟩
          ⟨-704643 / 4194304, -13421773 / 16777216, 9663677 / 16777216⟩ =
        some (8388609 / 8388608) ∧
      (8388609 / 8388608 : ℚ) ≠ 1 := by
  refine ⟨?_, ?_, ?_, ?_, ?_, ?_⟩ <;> decide!

/-- C7, amended: the function `reflect` preserves unit length
(1) in exact arithmetic: `dot(r, r) = 1` for `r = reflect(v, n)` whenever
`dot(v, v) = 1` and `dot(n, n) = 1`;
(2) in `float`, for every `float` normal `n` whose length is exactly one (the six
axis directions) and every `float` vector `v` whose double is finite: the `float`
value of `dot(r, r)` is that of `dot(v, v)`;
(3) in `float` up to `2^-11`: for all `v` and `n` with components in `[-1, 1]` and
`dot(v, v)`, `dot(n, n)` within `2^-22` of one, the `float` value of `dot(r, r)` is
within `2^-11` of one. -/
theorem reflect_unit_length (v n : Vec3f) :
    (dot v v = 1 → dot n n = 1 → dot (reflect v n) (reflect v n) = 1) ∧
      (dot n n = 1 → F32.IsVec n → F32.IsVec v → F32.IsVec ((2 : ℚ) * v) →
        ∃ r, F32.reflect v n = some r ∧ F32.dot r r = F32.dot v v) ∧
      (|dot v v - 1| ≤ 1 / 2 ^ 22 → |dot n n - 1| ≤ 1 / 2 ^ 22 → F32.AbsLE v 1 →
        F32.AbsLE n 1 →
        ∃ r d, F32.reflect v n = some r ∧ F32.dot r r = some d ∧ |d - 1| ≤ 1 / 2 ^ 11) := by
  refine ⟨?_, ?_, fun hvv hnn hv hn => F32.unit_reflect_err v n hv hn hvv hnn⟩
  · intro hv hn
    simp only [dot] at hv hn
    simp only [reflect, dot, Vec3f.add_def, Vec3f.neg_def, Vec3f.smul_def]
    linear_combination hv + (4 * (v.x * n.x + v.y * n.y + v.z * n.z) ^ 2) * hn
  · intro hn hfn hfv hf2
    have hax := F32.isAxis_of_unit n hfn hn
    exact ⟨reflect v n, F32.reflect_axis v n hfv hf2 hax, F32.dot_reflect_axis v n hax⟩

theorem reflect_unit_length_witness :
    ((dot (⟨3 / 5, 4 / 5, 0⟩ : Vec3f) ⟨3 / 5, 4 / 5, 0⟩ = 1 ∧
          dot (⟨4 / 5, 3 / 5, 0⟩ : Vec3f) ⟨4 / 5, 3 / 5, 0⟩ = 1 ∧
          dot (⟨3 / 5, 4 / 5, 0⟩ : Vec3f) ⟨4 / 5, 3 / 5, 0⟩ ≠ 0) ∧
        dot (reflect ⟨3 / 5, 4 / 5, 0⟩ ⟨4 / 5, 3 / 5, 0⟩)
          (reflect ⟨3 / 5, 4 / 5, 0⟩ ⟨4 / 5, 3 / 5, 0⟩) = 1) ∧
      ((dot (⟨0, 1, 0⟩ : Vec3f) ⟨0, 1, 0⟩ = 1 ∧ F32.IsVec ⟨0, 1, 0⟩ ∧
          F32.IsVec ⟨5033165 / 8388608, 13421773 / 16777216, 0⟩ ∧
          F32.IsVec ((2 : ℚ) * (⟨5033165 / 8388608, 13421773 / 16777216, 0⟩ : Vec3f)) ∧
          dot (⟨5033165 / 8388608, 13421773 / 16777216, 0⟩ : Vec3f) ⟨0, 1, 0⟩ ≠ 0) ∧
        ∃ r, F32.reflect ⟨5033165 / 8388608, 13421773 / 16777216, 0⟩ ⟨0, 1, 0⟩ = some r ∧
          F32.dot r r = F32.dot ⟨5033165 / 8388608, 13421773 / 16777216, 0⟩
            ⟨5033165 / 8388608, 13421773 / 16777216, 0⟩) ∧
      ((|dot (⟨5033165 / 8388608, 13421773 / 16777216, 0⟩ : Vec3f)
            ⟨5033165 / 8388608, 13421773 / 16777216, 0⟩ - 1| ≤ 1 / 2 ^ 22 ∧
          |dot (⟨5033165 / 8388608, 0, 13421773 / 16777216⟩ : Vec3f)
            ⟨5033165 / 8388608, 0, 13421773 / 16777216⟩ - 1| ≤ 1 / 2 ^ 22 ∧
          F32.AbsLE ⟨5033165 / 8388608, 13421773 / 16777216, 0⟩ 1 ∧
          F32.AbsLE ⟨5033165 / 8388608, 0, 13421773 / 16777216⟩ 1) ∧
        ∃ r d, F32.reflect ⟨5033165 / 8388608, 13421773 / 16777216, 0⟩
            ⟨5033165 / 8388608, 0, 13421773 / 16777216⟩ = some r ∧
          F32.dot r r = some d ∧ |d - 1| ≤ 1 / 2 ^ 11) := by
  have h1 : dot (⟨3 / 5, 4 / 5, 0⟩ : Vec3f) ⟨3 / 5, 4 / 5, 0⟩ = 1 := by norm_num [dot]
  have h2 : dot (⟨4 / 5, 3 / 5, 0⟩ : Vec3f) ⟨4 / 5, 3 / 5, 0⟩ = 1 := by norm_num [dot]
  have h3 : dot (⟨3 / 5, 4 / 5, 0⟩ : Vec3f) ⟨4 / 5, 3 / 5, 0⟩ ≠ 0 := by norm_num [dot]
  have h4 : dot (⟨0, 1, 0⟩ : Vec3f) ⟨0, 1, 0⟩ = 1 := by norm_num [dot]
  have h5 : F32.IsVec ⟨0, 1, 0⟩ := by decide!
  have h6 : F32.IsVec ⟨5033165 / 8388608, 13421773 / 16777216, 0⟩ := by decide!
  have h7 : F32.IsVec ((2 : ℚ) * (⟨5033165 / 8388608, 13421773 / 16777216, 0⟩ : Vec3f)) := by
    decide!
  have h8 : dot (⟨5033165 / 8388608, 13421773 / 16777216, 0⟩ : Vec3f) ⟨0, 1, 0⟩ ≠ 0 := by
    norm_num [dot]
  have h9 : |dot (⟨5033165 / 8388608, 13421773 / 16777216, 0⟩ : Vec3f)
      ⟨5033165 / 8388608, 13421773 / 16777216, 0⟩ - 1| ≤ 1 / 2 ^ 22 := by
    rw [abs_le]
    norm_num [dot]
  have h10 : |dot (⟨5033165 / 8388608, 0, 13421773 / 16777216⟩ : Vec3f)
      ⟨5033165 / 8388608, 0, 13421773 / 16777216⟩ - 1| ≤ 1 / 2 ^ 22 := by
    rw [abs_le]
    norm_num [dot]
  have h11 : F32.AbsLE ⟨5033165 / 8388608, 13421773 / 16777216, 0⟩ 1 := by
    norm_num [F32.AbsLE, abs_le]
  have h12 : F32.AbsLE ⟨5033165 / 8388608, 0, 13421773 / 16777216⟩ 1 := by
    norm_num [F32.AbsLE, abs_le]
  exact ⟨⟨⟨h1, h2, h3⟩, (reflect_unit_length ⟨3 / 5, 4 / 5, 0⟩ ⟨4 / 5, 3 / 5, 0⟩).1 h1 h2⟩,
    ⟨⟨h4, h5, h6, h7, h8⟩,
      (reflect_unit_length ⟨5033165 / 8388608, 13421773 / 16777216, 0⟩ ⟨0, 1, 0⟩).2.1 h4 h5 h6
        h7⟩,
    ⟨⟨h9, h10, h11, h12⟩,
      (reflect_unit_length ⟨5033165 / 8388608, 13421773 / 16777216, 0⟩
        ⟨5033165 / 8388608, 0, 13421773 / 16777216⟩).2.2 h9 h10 h11 h12⟩⟩

/-- C8, counterexample: for pixel `(0, 0)` of the 512 x 512 image, `raytracer.cpp`
passes `u = v = -1` to `camera.sampleRay`, not the pixel-centre coordinates
`(2*(0 + 1/2) - 512)/512 = -511/512`. -/
theorem pixel_zero_not_centre :
    Ref.pixelU 512 512 0 = -1 ∧ Ref.pixelV 512 0 = -1 ∧
      Ref.pixelU 512 512 0 ≠ (2 * ((0 : ℚ) + 1 / 2) - 512) / 512 ∧
      Ref.pixelV 512 0 ≠ (2 * ((0 : ℚ) + 1 / 2) - 512) / 512 := by
  norm_num [Ref.pixelU, Ref.pixelV]

/-- C8, amended: in `raytracer.cpp` the primary ray of pixel `(i, j)` is
`camera.sampleRay(u, v)` with `u = (2*i - width)/height` and
`v = (2*j - height)/height`.  These are the values of the supersampling mapping
`(2*(i + r) - width)/height` at `r = 0`, the lower end of the range it covers for
`r` in `[0, 1)`; the mid-point of that range, at `r = 1/2`, lies `1/height` above. -/
theorem pixel_coordinates_lower_end (L : Vec3f) (intersect : Intersect) (refr : Refract)
    (sampleRay : ℚ → ℚ → Ray) (width height i j : ℤ) :
    Ref.pixel L intersect refr sampleRay width height i j =
        Ref.raytrace L intersect refr
          (sampleRay ((2 * (i : ℚ) - width) / height) ((2 * (j : ℚ) - height) / height)) ∧
      Ref.pixelU width height i = SSAA.sampleCoord width height i 0 ∧
      Ref.pixelV height j = SSAA.sampleCoord height height j 0 ∧
      SSAA.sampleCoord width height i (1 / 2) - Ref.pixelU width height i = 1 / height ∧
      SSAA.sampleCoord height height j (1 / 2) - Ref.pixelV height j = 1 / height := by
  refine ⟨rfl, ?_, ?_, ?_, ?_⟩
  · simp [Ref.pixelU, SSAA.sampleCoord]
  · simp [Ref.pixelV, SSAA.sampleCoord]
  · simp only [Ref.pixelU, SSAA.sampleCoord]
    ring
  · simp only [Ref.pixelV, SSAA.sampleCoord]
    ring

/-- C9: in both programs, when each of the `MAX_DEPTH = 100` iterations of the loop
hits a Mirror or a Glass sphere (the path neither escapes nor reaches a Diffuse
sphere), `raytrace` returns the zero colour. -/
theorem raytrace_specular_path_black (L : Vec3f) (intersect : Intersect) (refr : Refract)
    (ray_in : Ray) :
    ((∀ k < MAX_DEPTH, HitsSpecular intersect
          (stateAt (Ref.body L intersect refr) k ⟨ray_in, Vec3f.splat 0⟩)) →
        Ref.raytrace L intersect refr ray_in = Vec3f.splat 0) ∧
      ((∀ k < MAX_DEPTH, HitsSpecular intersect
          (stateAt (SSAA.body L intersect) k ⟨ray_in, Vec3f.splat 0⟩)) →
        SSAA.raytrace L intersect ray_in = Vec3f.splat 0) := by
  constructor
  · intro h
    obtain ⟨s', hs', hcol⟩ := stateAt_specular intersect (Ref.body L intersect refr)
      (ref_body_specular L intersect refr) ⟨ray_in, Vec3f.splat 0⟩ MAX_DEPTH h
    rw [Ref.raytrace, loop_eq_of_stateAt _ _ _ _ hs', hcol]
  · intro h
    obtain ⟨s', hs', hcol⟩ := stateAt_specular intersect (SSAA.body L intersect)
      (ssaa_body_specular L intersect) ⟨ray_in, Vec3f.splat 0⟩ MAX_DEPTH h
    rw [SSAA.raytrace, loop_eq_of_stateAt _ _ _ _ hs', hcol]

theorem raytrace_specular_path_black_witness :
    (∀ k < MAX_DEPTH, HitsSpecular ballScene
        (stateAt (Ref.body lightQ ballScene refractFail) k ⟨centreRay, Vec3f.splat 0⟩)) ∧
      (∀ k < MAX_DEPTH, HitsSpecular ballScene
        (stateAt (SSAA.body lightQ ballScene) k ⟨centreRay, Vec3f.splat 0⟩)) ∧
      Ref.raytrace lightQ ballScene refractFail centreRay = Vec3f.splat 0 ∧
      SSAA.raytrace lightQ ballScene centreRay = Vec3f.splat 0 :=
  ⟨fun k _ => ref_ball_path k, fun k _ => ssaa_ball_path k,
    (raytrace_specular_path_black lightQ ballScene refractFail centreRay).1
      (fun k _ => ref_ball_path k),
    (raytrace_specular_path_black lightQ ballScene refractFail centreRay).2
      (fun k _ => ssaa_ball_path k)⟩

/-- C10, counterexample: pixel `(256, 256)` of the 512 x 512 image with zero jitter,
for a scene in which `raytrace` returns the colour `(0.1f, 0.1f, 0.1f)` for the ray
through the pixel.  The sixteen rounded additions `color += ...` and the rounded
division by `Vec3f(16)` give `13421775/2^27` in every component, while one call of
`raytrace` gives `0.1f = 13421773/2^27`. -/
theorem ssaa_mean_rounds :
    F32.round (1 / 10) = some (13421773 / 134217728) ∧
      (∀ k < 2 * SSAA.SSAA_samples, zeroRng (0 + k) = 0) ∧
      F32.pixelCoord 512 512 256 = some 0 ∧
      ∀ traceF : Ray → Vec3f, traceF (orthoCamera 0 0) = Vec3f.splat (13421773 / 134217728) →
        F32.pixel traceF orthoCamera zeroRng 0 512 512 256 256 =
          some (Vec3f.splat (13421775 / 134217728)) ∧
        F32.pixel traceF orthoCamera zeroRng 0 512 512 256 256 ≠
          some (traceF (orthoCamera 0 0)) := by
  have hc : F32.pixelCoord 512 512 256 = some 0 := by decide!
  have hm : F32.meanSame (Vec3f.splat (13421773 / 134217728)) SSAA.SSAA_samples =
      some (Vec3f.splat (13421775 / 134217728)) := by decide!
  refine ⟨by decide!, fun _ _ => rfl, hc, fun traceF ht => ?_⟩
  have hp : F32.pixel traceF orthoCamera zeroRng 0 512 512 256 256 =
      some (Vec3f.splat (13421775 / 134217728)) := by
    rw [F32.pixel_zero_jitter traceF orthoCamera zeroRng 0 512 512 256 256 (fun _ _ => rfl), hc,
      Option.some_bind, Option.some_bind, ht, hm]
  refine ⟨hp, ?_⟩
  rw [hp, ht]
  decide!

/-- C10, amended: in `raytracer-ssaa.cpp`, for every pixel `(i, j)` and every scene,
if all `2*16` jitter draws of the pixel are zero, then
(1) in exact arithmetic the colour written to the pixel equals the result of one
`raytrace` call on the ray `camera.sampleRay((2*i - width)/height,
(2*j - height)/height)`;
(2) in `float` the colour written is the rounded mean (sixteen rounded additions, one
rounded division) of sixteen copies of the colour `c` that `raytrace` returns for the
ray through the `float` coordinates `(2.0f*i - width)/height` and
`(2.0f*j - height)/height`;
(3) that mean is `c` itself when every multiple `m*c`, `m ≤ 16`, is a `float`, for
instance for black, and
(4) it is within `2^-19` of `c` in every component when the components of `c` lie in
`[-1, 1]`. -/
theorem ssaa_zero_jitter_pixel (L : Vec3f) (intersect : Intersect) (sampleRay : ℚ → ℚ → Ray)
    (rng : Nat → ℚ) (base : Nat) (width height i j : ℤ) (traceF : Ray → Vec3f)
    (hz : ∀ k < 2 * SSAA.SSAA_samples, rng (base + k) = 0) :
    SSAA.pixel L intersect sampleRay rng base width height i j =
        SSAA.raytrace L intersect
          (sampleRay ((2 * (i : ℚ) - width) / height) ((2 * (j : ℚ) - height) / height)) ∧
      F32.pixel traceF sampleRay rng base width height i j =
        ((F32.pixelCoord width height i).bind fun u =>
          (F32.pixelCoord height height j).bind fun v =>
            F32.meanSame (traceF (sampleRay u v)) SSAA.SSAA_samples) ∧
      ∀ u v : ℚ, F32.pixelCoord width height i = some u →
        F32.pixelCoord height height j = some v →
        ((∀ m : Nat, m ≤ SSAA.SSAA_samples → F32.IsVec ((m : ℚ) * traceF (sampleRay u v))) →
          F32.pixel traceF sampleRay rng base width height i j =
            some (traceF (sampleRay u v))) ∧
        (F32.AbsLE (traceF (sampleRay u v)) 1 →
          ∃ p, F32.pixel traceF sampleRay rng base width height i j = some p ∧
            F32.Within (1 / 2 ^ 19) p (traceF (sampleRay u v))) := by
  have hsame : ∀ k ∈ List.range SSAA.SSAA_samples,
      SSAA.raytrace L intersect
          (sampleRay (SSAA.sampleCoord width height i (rng (base + 2 * k)))
            (SSAA.sampleCoord height height j (rng (base + 2 * k + 1)))) =
        SSAA.raytrace L intersect
          (sampleRay ((2 * (i : ℚ) - width) / height) ((2 * (j : ℚ) - height) / height)) := by
    intro k hk
    have hk' : k < SSAA.SSAA_samples := List.mem_range.mp hk
    rw [hz (2 * k) (by omega), Nat.add_assoc, hz (2 * k + 1) (by omega)]
    simp [SSAA.sampleCoord]
  have hF := F32.pixel_zero_jitter traceF sampleRay rng base width height i j hz
  refine ⟨?_, hF, fun u v hu hv => ?_⟩
  · unfold SSAA.pixel
    simp only []
    rw [foldl_add_same _ _ _ hsame]
    ext <;> simp [SSAA.SSAA_samples, Vec3f.add_def, Vec3f.smul_def, Vec3f.div_def,
      Vec3f.splat_def]
  · rw [hF, hu, hv, Option.some_bind, Option.some_bind]
    refine ⟨fun hm => ?_, fun hb => ?_⟩
    · exact F32.meanSame_exact _ _ (by decide) (by decide!) hm
    · exact F32.meanSame_err _ hb

theorem ssaa_zero_jitter_pixel_witness :
    (∀ k < 2 * SSAA.SSAA_samples, zeroRng (0 + k) = 0) ∧
      (SSAA.pixel lightQ mirrorScene orthoCamera zeroRng 0 512 512 256 256 =
          SSAA.raytrace lightQ mirrorScene
            (orthoCamera ((2 * ((256 : ℤ) : ℚ) - (512 : ℤ)) / (512 : ℤ))
              ((2 * ((256 : ℤ) : ℚ) - (512 : ℤ)) / (512 : ℤ))) ∧
        F32.pixel (fun _ => ⟨1 / 2, 1 / 4, 0⟩) orthoCamera zeroRng 0 512 512 256 256 =
          ((F32.pixelCoord 512 512 256).bind fun u =>
            (F32.pixelCoord 512 512 256).bind fun v =>
              F32.meanSame ((fun _ => ⟨1 / 2, 1 / 4, 0⟩) (orthoCamera u v))
                SSAA.SSAA_samples)) ∧
      ((F32.pixelCoord 512 512 256 = some 0 ∧
          (∀ m : Nat, m ≤ SSAA.SSAA_samples →
            F32.IsVec ((m : ℚ) * (⟨1 / 2, 1 / 4, 0⟩ : Vec3f)))) ∧
        F32.pixel (fun _ => ⟨1 / 2, 1 / 4, 0⟩) orthoCamera zeroRng 0 512 512 256 256 =
          some ⟨1 / 2, 1 / 4, 0⟩) ∧
      (F32.AbsLE ⟨13421773 / 134217728, 13421773 / 134217728, 13421773 / 134217728⟩ 1 ∧
        ∃ p, F32.pixel (fun _ => ⟨13421773 / 134217728, 13421773 / 134217728,
              13421773 / 134217728⟩) orthoCamera zeroRng 0 512 512 256 256 = some p ∧
          F32.Within (1 / 2 ^ 19) p
            ⟨13421773 / 134217728, 13421773 / 134217728, 13421773 / 134217728⟩) := by
  have hc : F32.pixelCoord 512 512 256 = some 0 := by decide!
  have hm : ∀ m : Nat, m ≤ SSAA.SSAA_samples →
      F32.IsVec ((m : ℚ) * (⟨1 / 2, 1 / 4, 0⟩ : Vec3f)) := by decide!
  have hb : F32.AbsLE
      ⟨13421773 / 134217728, 13421773 / 134217728, 13421773 / 134217728⟩ 1 := by
    norm_num [F32.AbsLE, abs_le]
  have h1 := ssaa_zero_jitter_pixel lightQ mirrorScene orthoCamera zeroRng 0 512 512 256 256
    (fun _ => ⟨1 / 2, 1 / 4, 0⟩) (fun _ _ => rfl)
  exact ⟨fun _ _ => rfl, ⟨h1.1, h1.2.1⟩, ⟨⟨hc, hm⟩, (h1.2.2 0 0 hc hc).1 hm⟩,
    ⟨hb, ((ssaa_zero_jitter_pixel lightQ mirrorScene orthoCamera zeroRng 0 512 512 256 256
      (fun _ => ⟨13421773 / 134217728, 13421773 / 134217728, 13421773 / 134217728⟩)
      (fun _ _ => rfl)).2.2 0 0 hc hc).2 hb⟩⟩

/-! ### The ambient floor -/

/-- The sphere intersection in terms of the two coefficients `b` and `c` of the
quadratic. -/
theorem Sphere.intersect_eq (sqrt : ℚ → ℚ) (eps : ℚ) (sphere : Sphere) (ray : Ray) (b c : ℚ)
    (hb : dot (ray.origin - sphere.center) ray.direction = b)
    (hc : dot (ray.origin - sphere.center) (ray.origin - sphere.center) -
      sphere.radius * sphere.radius = c) :
    sphere.intersect sqrt eps ray =
      if b * b - c < 0 then none
      else if eps < -b - sqrt (b * b - c) then some (sphere.hitAt ray (-b - sqrt (b * b - c)))
      else if eps < -b + sqrt (b * b - c) then some (sphere.hitAt ray (-b + sqrt (b * b - c)))
      else none := by
  subst hb hc
  rfl

/-- The scan of a scene with a single sphere is the intersection with that sphere. -/
theorem Scene.intersect_singleton (sqrt : ℚ → ℚ) (eps : ℚ) (sphere : Sphere) (ray : Ray) :
    Scene.intersect sqrt eps [sphere] ray = sphere.intersect sqrt eps ray := by
  simp only [Scene.intersect, List.foldl]
  cases sphere.intersect sqrt eps ray <;> rfl

theorem diffuseScene_grazeRay :
    diffuseScene grazeRay = some ((unitSphere MaterialType.Diffuse).hitAt grazeRay 2) := by
  norm_num [diffuseScene, Scene.intersect, Sphere.intersect, Scene.nearer, unitSphere,
    grazeRay, sceneEps, dot, Sphere.hitAt, Vec3f.add_def, Vec3f.sub_def, Vec3f.smul_def,
    Vec3f.sdiv_def, sqrtQ_one]

theorem graze_hitPos :
    ((unitSphere MaterialType.Diffuse).hitAt grazeRay 2).hitPos = ⟨-6 / 7, 2 / 7, 3 / 7⟩ := by
  norm_num [Sphere.hitAt, grazeRay, Vec3f.add_def, Vec3f.smul_def]

theorem graze_hitNormal :
    ((unitSphere MaterialType.Diffuse).hitAt grazeRay 2).hitNormal = ⟨-6 / 7, 2 / 7, 3 / 7⟩ := by
  norm_num [Sphere.hitAt, unitSphere, grazeRay, Vec3f.add_def, Vec3f.sub_def, Vec3f.smul_def,
    Vec3f.sdiv_def]

/-- The cosine between a direction of the box and the normal of the grazing hit
lies strictly between `0` and `1/10`. -/
theorem graze_cosine (L : Vec3f) (hL : NearLight L) :
    0 < dot L ⟨-6 / 7, 2 / 7, 3 / 7⟩ ∧ dot L ⟨-6 / 7, 2 / 7, 3 / 7⟩ < 1 / 10 := by
  obtain ⟨hx1, hx2, hy1, hy2, hz1, hz2⟩ := hL
  simp only [dot]
  constructor <;> linarith

/-- The shadow ray from the grazing hit leaves the sphere, for every direction of
the box: with `b = dot(oc, L) > 0` and `c = 0` its roots are `-2*b` and `0`. -/
theorem diffuseScene_graze_shadow (L : Vec3f) (hL : NearLight L) :
    diffuseScene ⟨⟨-6 / 7, 2 / 7, 3 / 7⟩, L⟩ = none := by
  obtain ⟨hcos, -⟩ := graze_cosine L hL
  have hb : dot ((⟨-6 / 7, 2 / 7, 3 / 7⟩ : Vec3f) - (unitSphere MaterialType.Diffuse).center)
      L = dot L ⟨-6 / 7, 2 / 7, 3 / 7⟩ := by
    simp only [unitSphere, dot, Vec3f.sub_def]
    ring
  have hc : dot ((⟨-6 / 7, 2 / 7, 3 / 7⟩ : Vec3f) - (unitSphere MaterialType.Diffuse).center)
      ((⟨-6 / 7, 2 / 7, 3 / 7⟩ : Vec3f) - (unitSphere MaterialType.Diffuse).center) -
        (unitSphere MaterialType.Diffuse).radius * (unitSphere MaterialType.Diffuse).radius =
      0 := by
    norm_num [unitSphere, dot, Vec3f.sub_def]
  have hsphere : (unitSphere MaterialType.Diffuse).intersect sqrtQ sceneEps
      ⟨⟨-6 / 7, 2 / 7, 3 / 7⟩, L⟩ = none := by
    rw [Sphere.intersect_eq sqrtQ sceneEps (unitSphere MaterialType.Diffuse)
      ⟨⟨-6 / 7, 2 / 7, 3 / 7⟩, L⟩ (dot L ⟨-6 / 7, 2 / 7, 3 / 7⟩) 0 hb hc]
    rw [sub_zero, sqrtQ_sq_of_nonneg _ hcos.le]
    have heps : (0 : ℚ) < sceneEps := by norm_num [sceneEps]
    rw [if_neg (not_lt.mpr (mul_self_nonneg _)), if_neg (by linarith), if_neg (by linarith)]
  unfold diffuseScene
  rw [Scene.intersect_singleton, hsphere]

theorem graze_direct_light (L : Vec3f) (hL : NearLight L) :
    SSAA.directLight L diffuseScene ((unitSphere MaterialType.Diffuse).hitAt grazeRay 2) =
      dot L ⟨-6 / 7, 2 / 7, 3 / 7⟩ * (⟨1, 1, 1⟩ : Vec3f) := by
  obtain ⟨hcos, -⟩ := graze_cosine L hL
  simp only [SSAA.directLight, graze_hitPos, graze_hitNormal, diffuseScene_graze_shadow L hL]
  rw [max_eq_left hcos.le]
  rfl

/-- The box `NearLight` contains every rational vector along `(1, 2, 1)`, the
direction of `Vec3f(0.5, 1, 0.5)`, whose squared length `6*x^2` is within `1/1000` of
one. -/
theorem nearLight_of_normalized (x : ℚ) (hx : 0 < x) (h : |6 * x ^ 2 - 1| ≤ 1 / 1000) :
    NearLight ⟨x, 2 * x, x⟩ := by
  rw [abs_le] at h
  have h1 : 408 / 1000 ≤ x := by
    by_contra hlt
    rw [not_le] at hlt
    nlinarith [h.1]
  have h2 : x ≤ 4085 / 10000 := by
    by_contra hlt
    rw [not_le] at hlt
    nlinarith [h.2]
  unfold NearLight
  refine ⟨?_, ?_, ?_, ?_, ?_, ?_⟩ <;> linarith

/-- C11, counterexample: the Diffuse unit sphere with albedo `(1, 1, 1)`, hit by
`grazeRay` at `(-6/7, 2/7, 3/7)`.  The box `NearLight` contains every rational
vector along `(1, 2, 1)` whose squared length is within `1/1000` of one, and the
`float` value of `normalize(Vec3f(0.5, 1, 0.5))`.  For every light direction `L` of
the box the shadow ray is unoccluded and `raytracer-ssaa.cpp` assigns
`max(dot(L, n), 0)*kd` with `0 < dot(L, n) < 1/10`: every component of the colour
is below that of `0.1*kd`. -/
theorem ssaa_lit_colour_below_floor :
    (∀ x : ℚ, 0 < x → |6 * x ^ 2 - 1| ≤ 1 / 1000 → NearLight ⟨x, 2 * x, x⟩) ∧
      NearLight ⟨13698539 / 33554432, 13698539 / 16777216, 13698539 / 33554432⟩ ∧
      diffuseScene grazeRay = some ((unitSphere MaterialType.Diffuse).hitAt grazeRay 2) ∧
      ((unitSphere MaterialType.Diffuse).hitAt grazeRay 2).hitSphere.material_type =
        MaterialType.Diffuse ∧
      Vec3f.AllLE (Vec3f.splat 0)
        ((unitSphere MaterialType.Diffuse).hitAt grazeRay 2).hitSphere.kd ∧
      ∀ L : Vec3f, NearLight L →
        diffuseScene ⟨((unitSphere MaterialType.Diffuse).hitAt grazeRay 2).hitPos, L⟩ = none ∧
        SSAA.body L diffuseScene ⟨grazeRay, Vec3f.splat 0⟩ =
          some ⟨grazeRay, dot L ⟨-6 / 7, 2 / 7, 3 / 7⟩ * (⟨1, 1, 1⟩ : Vec3f)⟩ ∧
        (dot L ⟨-6 / 7, 2 / 7, 3 / 7⟩ * (⟨1, 1, 1⟩ : Vec3f)).x <
          ((1 / 10 : ℚ) *
            ((unitSphere MaterialType.Diffuse).hitAt grazeRay 2).hitSphere.kd).x ∧
        ¬ Vec3f.AllLE
          ((1 / 10 : ℚ) * ((unitSphere MaterialType.Diffuse).hitAt grazeRay 2).hitSphere.kd)
          (dot L ⟨-6 / 7, 2 / 7, 3 / 7⟩ * (⟨1, 1, 1⟩ : Vec3f)) := by
  refine ⟨nearLight_of_normalized, by norm_num [NearLight], diffuseScene_grazeRay, rfl, ?_,
    fun L hL => ?_⟩
  · norm_num [Vec3f.AllLE, Sphere.hitAt, unitSphere, Vec3f.splat_def]
  · obtain ⟨hcos0, hcos1⟩ := graze_cosine L hL
    have hx : (dot L ⟨-6 / 7, 2 / 7, 3 / 7⟩ * (⟨1, 1, 1⟩ : Vec3f)).x <
        ((1 / 10 : ℚ) *
          ((unitSphere MaterialType.Diffuse).hitAt grazeRay 2).hitSphere.kd).x := by
      simp only [Sphere.hitAt, unitSphere, Vec3f.smul_def]
      linarith
    refine ⟨?_, ?_, hx, fun hle => absurd hle.1 (not_le.mpr hx)⟩
    · rw [graze_hitPos]
      exact diffuseScene_graze_shadow L hL
    · rw [ssaa_body_diffuse L diffuseScene ⟨grazeRay, Vec3f.splat 0⟩
        ((unitSphere MaterialType.Diffuse).hitAt grazeRay 2) diffuseScene_grazeRay rfl,
        graze_direct_light L hL]

/-- C11, amended: on a Diffuse hit whose albedo `kd` has non-negative components,
`raytracer.cpp` assigns a colour that is component-wise at least `0.1*kd`, whether
or not the light is occluded.  `raytracer-ssaa.cpp` assigns a colour that is
component-wise non-negative, and at least `0.1*kd` when the light is occluded or
`dot(LIGHT_DIRECTION, n) >= 0.1`. -/
theorem ambient_floor (L : Vec3f) (intersect : Intersect) (refr : Refract) (s : State)
    (info : IntersectInfo) (h : intersect s.ray = some info)
    (hd : info.hitSphere.material_type = MaterialType.Diffuse)
    (hkd : Vec3f.AllLE (Vec3f.splat 0) info.hitSphere.kd) :
    (∃ c, Ref.body L intersect refr s = some ⟨s.ray, c⟩ ∧
        Vec3f.AllLE ((1 / 10 : ℚ) * info.hitSphere.kd) c) ∧
      (∃ c, SSAA.body L intersect s = some ⟨s.ray, c⟩ ∧ Vec3f.AllLE (Vec3f.splat 0) c ∧
        ((intersect ⟨info.hitPos, L⟩ ≠ none ∨ 1 / 10 ≤ dot L info.hitNormal) →
          Vec3f.AllLE ((1 / 10 : ℚ) * info.hitSphere.kd) c)) := by
  obtain ⟨hx, hy, hz⟩ := hkd
  simp only [Vec3f.splat_def] at hx hy hz
  have hm : (0 : ℚ) ≤ max (dot L info.hitNormal) 0 := le_max_right _ _
  refine ⟨⟨_, ref_body_diffuse L intersect refr s info h hd, ?_⟩,
    ⟨_, ssaa_body_diffuse L intersect s info h hd, ?_, ?_⟩⟩
  · unfold Ref.directLight
    simp only
    split
    · refine ⟨?_, ?_, ?_⟩ <;>
        simp only [Vec3f.add_def, Vec3f.smul_def, Vec3f.mul_def, Vec3f.splat_def] <;>
        nlinarith [mul_nonneg hm hx, mul_nonneg hm hy, mul_nonneg hm hz]
    · refine ⟨?_, ?_, ?_⟩ <;>
        simp only [Vec3f.smul_def, Vec3f.mul_def, Vec3f.splat_def] <;> exact le_refl _
  · unfold SSAA.directLight
    simp only
    split
    · refine ⟨?_, ?_, ?_⟩ <;>
        simp only [Vec3f.smul_def, Vec3f.splat_def] <;>
        nlinarith [mul_nonneg hm hx, mul_nonneg hm hy, mul_nonneg hm hz]
    · refine ⟨?_, ?_, ?_⟩ <;>
        simp only [Vec3f.mul_def, Vec3f.splat_def] <;> linarith
  · intro hcase
    unfold SSAA.directLight
    simp only
    split
    · rename_i hnone
      have hdot : 1 / 10 ≤ dot L info.hitNormal := by
        rcases hcase with hocc | hdot
        · exact absurd (Option.isNone_iff_eq_none.mp hnone) hocc
        · exact hdot
      have hmax : (1 / 10 : ℚ) ≤ max (dot L info.hitNormal) 0 := le_trans hdot (le_max_left _ _)
      refine ⟨?_, ?_, ?_⟩ <;>
        simp only [Vec3f.smul_def] <;>
        nlinarith [mul_le_mul_of_nonneg_right hmax hx, mul_le_mul_of_nonneg_right hmax hy,
          mul_le_mul_of_nonneg_right hmax hz]
    · refine ⟨?_, ?_, ?_⟩ <;>
        simp only [Vec3f.smul_def, Vec3f.mul_def, Vec3f.splat_def] <;> exact le_refl _

theorem ambient_floor_witness :
    diffuseScene axisRay = some ((unitSphere MaterialType.Diffuse).hitAt axisRay 2) ∧
      ((unitSphere MaterialType.Diffuse).hitAt axisRay 2).hitSphere.material_type =
        MaterialType.Diffuse ∧
      Vec3f.AllLE (Vec3f.splat 0)
        ((unitSphere MaterialType.Diffuse).hitAt axisRay 2).hitSphere.kd ∧
      ((∃ c, Ref.body lightQ diffuseScene refractFail ⟨axisRay, Vec3f.splat 0⟩ =
            some ⟨axisRay, c⟩ ∧
          Vec3f.AllLE
            ((1 / 10 : ℚ) * ((unitSphere MaterialType.Diffuse).hitAt axisRay 2).hitSphere.kd) c) ∧
        (∃ c, SSAA.body lightQ diffuseScene ⟨axisRay, Vec3f.splat 0⟩ = some ⟨axisRay, c⟩ ∧
          Vec3f.AllLE (Vec3f.splat 0) c ∧
          ((diffuseScene ⟨((unitSphere MaterialType.Diffuse).hitAt axisRay 2).hitPos, lightQ⟩ ≠
                none ∨
              1 / 10 ≤ dot lightQ ((unitSphere MaterialType.Diffuse).hitAt axisRay 2).hitNormal) →
            Vec3f.AllLE
              ((1 / 10 : ℚ) * ((unitSphere MaterialType.Diffuse).hitAt axisRay 2).hitSphere.kd)
              c))) :=
  have hkd : Vec3f.AllLE (Vec3f.splat 0)
      ((unitSphere MaterialType.Diffuse).hitAt axisRay 2).hitSphere.kd := by
    norm_num [Vec3f.AllLE, Sphere.hitAt, unitSphere, Vec3f.splat_def]
  ⟨diffuseScene_axisRay, rfl, hkd,
    ambient_floor lightQ diffuseScene refractFail ⟨axisRay, Vec3f.splat 0⟩
      ((unitSphere MaterialType.Diffuse).hitAt axisRay 2) diffuseScene_axisRay rfl hkd⟩

/-- C14, counterexample: the jitter value `r = 1 - 2^-24` is the largest `float`
below one; for the last pixel index `i = 511` the sum `i + r` rounds to `512`, and
`raytracer-ssaa.cpp` passes the coordinate `(2.0f*512 - 512)/512 = 1.0`, which is
not in `[-1, 1)`, although the exact quotient is below one. -/
theorem sample_coordinate_reaches_one :
    F32.IsFloat (16777215 / 16777216) ∧ (0 : ℚ) ≤ 16777215 / 16777216 ∧
      (16777215 / 16777216 : ℚ) < 1 ∧
      F32.add 511 (16777215 / 16777216) = some 512 ∧
      F32.sampleCoord 512 512 511 (16777215 / 16777216) = some 1 ∧
      SSAA.sampleCoord 512 512 511 (16777215 / 16777216) < 1 := by
  refine ⟨by decide!, by norm_num, by norm_num, by decide!, by decide!, ?_⟩
  norm_num [SSAA.sampleCoord]

/-- C14, amended: with `width = height = 512`, for every pixel `0 <= i < 512`,
`0 <= j < 512` and all jitter values `ru`, `rv` in `[0, 1)`:
(1) in exact arithmetic the coordinates `u = (2*(i + ru) - width)/height` and
`v = (2*(j + rv) - height)/height` lie in `[-1, 1)`, and so do the coordinates of
`raytracer.cpp` (jitter `0`);
(2) in `float` the coordinates of `raytracer.cpp` are computed without rounding
error, hence lie in `[-1, 1)`;
(3) in `float` the coordinates that `raytracer-ssaa.cpp` passes to
`camera.sampleRay` are finite and lie in the closed interval `[-1, 1]`. -/
theorem sample_coordinates_in_range (i j : ℤ) (ru rv : ℚ)
    (hi : 0 ≤ i) (hi' : i < 512) (hj : 0 ≤ j) (hj' : j < 512)
    (hru : 0 ≤ ru) (hru' : ru < 1) (hrv : 0 ≤ rv) (hrv' : rv < 1) :
    ((-1 ≤ SSAA.sampleCoord 512 512 i ru ∧ SSAA.sampleCoord 512 512 i ru < 1) ∧
        (-1 ≤ SSAA.sampleCoord 512 512 j rv ∧ SSAA.sampleCoord 512 512 j rv < 1) ∧
        (-1 ≤ Ref.pixelU 512 512 i ∧ Ref.pixelU 512 512 i < 1) ∧
        (-1 ≤ Ref.pixelV 512 j ∧ Ref.pixelV 512 j < 1)) ∧
      (F32.pixelCoord 512 512 i = some (Ref.pixelU 512 512 i) ∧
        F32.pixelCoord 512 512 j = some (Ref.pixelV 512 j)) ∧
      ∃ u v, F32.sampleCoord 512 512 i ru = some u ∧ F32.sampleCoord 512 512 j rv = some v ∧
        (-1 ≤ u ∧ u ≤ 1) ∧ (-1 ≤ v ∧ v ≤ 1) := by
  have hiq : (0 : ℚ) ≤ (i : ℚ) := by exact_mod_cast hi
  have hiq' : (i : ℚ) ≤ 511 := by exact_mod_cast Int.lt_add_one_iff.mp hi'
  have hjq : (0 : ℚ) ≤ (j : ℚ) := by exact_mod_cast hj
  have hjq' : (j : ℚ) ≤ 511 := by exact_mod_cast Int.lt_add_one_iff.mp hj'
  have h512 : (0 : ℚ) < 512 := by norm_num
  obtain ⟨u, hu, hu1, hu2⟩ := F32.sampleCoord_range i ru hi hi' hru hru'
  obtain ⟨v, hv, hv1, hv2⟩ := F32.sampleCoord_range j rv hj hj' hrv hrv'
  refine ⟨?_, ⟨?_, ?_⟩, u, v, hu, hv, ⟨hu1, hu2⟩, ⟨hv1, hv2⟩⟩
  · simp only [SSAA.sampleCoord, Ref.pixelU, Ref.pixelV, Int.cast_ofNat]
    refine ⟨⟨?_, ?_⟩, ⟨?_, ?_⟩, ⟨?_, ?_⟩, ⟨?_, ?_⟩⟩
    · rw [le_div_iff₀ h512]; linarith
    · rw [div_lt_iff₀ h512]; linarith
    · rw [le_div_iff₀ h512]; linarith
    · rw [div_lt_iff₀ h512]; linarith
    · rw [le_div_iff₀ h512]; linarith
    · rw [div_lt_iff₀ h512]; linarith
    · rw [le_div_iff₀ h512]; linarith
    · rw [div_lt_iff₀ h512]; linarith
  · rw [F32.pixelCoord_exact i hi hi']
    simp only [Ref.pixelU, Int.cast_ofNat]
  · rw [F32.pixelCoord_exact j hj hj']
    simp only [Ref.pixelV, Int.cast_ofNat]

theorem sample_coordinates_in_range_witness :
    ((0 : ℤ) ≤ 511 ∧ (511 : ℤ) < 512 ∧ (0 : ℤ) ≤ 0 ∧ (0 : ℤ) < 512 ∧
        (0 : ℚ) ≤ 16777215 / 16777216 ∧ (16777215 / 16777216 : ℚ) < 1 ∧ (0 : ℚ) ≤ 0 ∧
        (0 : ℚ) < 1) ∧
      (((-1 ≤ SSAA.sampleCoord 512 512 511 (16777215 / 16777216) ∧
            SSAA.sampleCoord 512 512 511 (16777215 / 16777216) < 1) ∧
          (-1 ≤ SSAA.sampleCoord 512 512 0 0 ∧ SSAA.sampleCoord 512 512 0 0 < 1) ∧
          (-1 ≤ Ref.pixelU 512 512 511 ∧ Ref.pixelU 512 512 511 < 1) ∧
          (-1 ≤ Ref.pixelV 512 0 ∧ Ref.pixelV 512 0 < 1)) ∧
        (F32.pixelCoord 512 512 511 = some (Ref.pixelU 512 512 511) ∧
          F32.pixelCoord 512 512 0 = some (Ref.pixelV 512 0)) ∧
        ∃ u v, F32.sampleCoord 512 512 511 (16777215 / 16777216) = some u ∧
          F32.sampleCoord 512 512 0 0 = some v ∧ (-1 ≤ u ∧ u ≤ 1) ∧ (-1 ≤ v ∧ v ≤ 1)) :=
  ⟨⟨by norm_num, by norm_num, by norm_num, by norm_num, by norm_num, by norm_num,
      by norm_num, by norm_num⟩,
    sample_coordinates_in_range 511 0 (16777215 / 16777216) 0 (by norm_num) (by norm_num)
      (by norm_num) (by norm_num) (by norm_num) (by norm_num) (by norm_num) (by norm_num)⟩

/-! ### The call of `refract` -/

theorem ref_bodyQ_fst (L : Vec3f) (intersect : Intersect) (refr : Refract) (s : State) :
    (Ref.bodyQ L intersect refr s).1 = Ref.body L intersect refr s := by
  unfold Ref.bodyQ Ref.body
  cases intersect s.ray with
  | none => rfl
  | some info => simp only; split_ifs <;> rfl

theorem ssaa_bodyQ_fst (L : Vec3f) (intersect : Intersect) (s : State) :
    (SSAA.bodyQ L intersect s).1 = SSAA.body L intersect s := by
  unfold SSAA.bodyQ SSAA.body
  cases intersect s.ray with
  | none => rfl
  | some info => simp only; split_ifs <;> rfl

theorem ref_bodyQ_snd (L : Vec3f) (intersect : Intersect) (refr : Refract) (s : State) :
    (Ref.bodyQ L intersect refr s).2.bounce = 1 ∧ (Ref.bodyQ L intersect refr s).2.shadow ≤ 1 := by
  unfold Ref.bodyQ
  cases intersect s.ray with
  | none => simp
  | some info => simp only; split_ifs <;> simp

theorem ssaa_bodyQ_snd (L : Vec3f) (intersect : Intersect) (s : State) :
    (SSAA.bodyQ L intersect s).2.bounce = 1 ∧ (SSAA.bodyQ L intersect s).2.shadow ≤ 1 := by
  unfold SSAA.bodyQ
  cases intersect s.ray with
  | none => simp
  | some info => simp only; split_ifs <;> simp

/-- The counting loop computes the state of the plain loop, makes at most one
bounce query per iteration, and never more shadow queries than bounce queries. -/
theorem loopQ_spec (bodyQ : State → Option State × Queries)
    (hq : ∀ s, (bodyQ s).2.bounce = 1 ∧ (bodyQ s).2.shadow ≤ 1) (n : Nat) (s : State)
    (q : Queries) :
    (loopQ bodyQ n s q).1 = loop (fun st => (bodyQ st).1) n s ∧
      (loopQ bodyQ n s q).2.bounce ≤ q.bounce + n ∧
      (loopQ bodyQ n s q).2.shadow + q.bounce ≤ (loopQ bodyQ n s q).2.bounce + q.shadow := by
  induction n generalizing s q with
  | zero =>
    simp only [loopQ, loop]
    refine ⟨trivial, ?_, ?_⟩ <;> omega
  | succ m ih =>
    obtain ⟨hb, hs⟩ := hq s
    rcases hbody : bodyQ s with ⟨_ | s', d⟩
    · rw [hbody] at hb hs
      simp only at hb hs
      simp only [loopQ, loop, hbody]
      refine ⟨trivial, ?_, ?_⟩ <;> omega
    · rw [hbody] at hb hs
      simp only at hb hs
      obtain ⟨h1, h2, h3⟩ := ih s' ⟨q.bounce + d.bounce, q.shadow + d.shadow⟩
      simp only at h2 h3
      simp only [loopQ, loop, hbody]
      refine ⟨h1, ?_, ?_⟩ <;> omega

/-- C15: in both programs `raytrace` returns for every scene and every ray (the
loop is a recursion on the iteration counter `i < MAX_DEPTH`).  Every iteration
makes exactly one nearest-hit query on the bounce ray and at most one shadow query;
the whole call makes at most `MAX_DEPTH = 100` queries on the bounce ray and never
more shadow queries than bounce queries. -/
theorem raytrace_query_bound (L : Vec3f) (intersect : Intersect) (refr : Refract)
    (ray_in : Ray) :
    MAX_DEPTH = 100 ∧
      (∀ s, (Ref.bodyQ L intersect refr s).1 = Ref.body L intersect refr s ∧
        (Ref.bodyQ L intersect refr s).2.bounce = 1 ∧
        (Ref.bodyQ L intersect refr s).2.shadow ≤ 1) ∧
      (∀ s, (SSAA.bodyQ L intersect s).1 = SSAA.body L intersect s ∧
        (SSAA.bodyQ L intersect s).2.bounce = 1 ∧ (SSAA.bodyQ L intersect s).2.shadow ≤ 1) ∧
      ((loopQ (Ref.bodyQ L intersect refr) MAX_DEPTH ⟨ray_in, Vec3f.splat 0⟩ ⟨0, 0⟩).1.color =
          Ref.raytrace L intersect refr ray_in ∧
        (loopQ (Ref.bodyQ L intersect refr) MAX_DEPTH ⟨ray_in, Vec3f.splat 0⟩
          ⟨0, 0⟩).2.bounce ≤ MAX_DEPTH ∧
        (loopQ (Ref.bodyQ L intersect refr) MAX_DEPTH ⟨ray_in, Vec3f.splat 0⟩
          ⟨0, 0⟩).2.shadow ≤
          (loopQ (Ref.bodyQ L intersect refr) MAX_DEPTH ⟨ray_in, Vec3f.splat 0⟩
            ⟨0, 0⟩).2.bounce) ∧
      ((loopQ (SSAA.bodyQ L intersect) MAX_DEPTH ⟨ray_in, Vec3f.splat 0⟩ ⟨0, 0⟩).1.color =
          SSAA.raytrace L intersect ray_in ∧
        (loopQ (SSAA.bodyQ L intersect) MAX_DEPTH ⟨ray_in, Vec3f.splat 0⟩
          ⟨0, 0⟩).2.bounce ≤ MAX_DEPTH ∧
        (loopQ (SSAA.bodyQ L intersect) MAX_DEPTH ⟨ray_in, Vec3f.splat 0⟩ ⟨0, 0⟩).2.shadow ≤
          (loopQ (SSAA.bodyQ L intersect) MAX_DEPTH ⟨ray_in, Vec3f.splat 0⟩ ⟨0, 0⟩).2.bounce) := by
  refine ⟨rfl,
    fun s => ⟨ref_bodyQ_fst L intersect refr s, ref_bodyQ_snd L intersect refr s⟩,
    fun s => ⟨ssaa_bodyQ_fst L intersect s, ssaa_bodyQ_snd L intersect s⟩, ?_, ?_⟩
  · obtain ⟨h1, h2, h3⟩ := loopQ_spec (Ref.bodyQ L intersect refr)
      (ref_bodyQ_snd L intersect refr) MAX_DEPTH ⟨ray_in, Vec3f.splat 0⟩ ⟨0, 0⟩
    have hfun : (fun st => (Ref.bodyQ L intersect refr st).1) = Ref.body L intersect refr :=
      funext (ref_bodyQ_fst L intersect refr)
    rw [hfun] at h1
    simp only [Nat.zero_add, Nat.add_zero] at h2 h3
    exact ⟨by rw [h1, Ref.raytrace], h2, h3⟩
  · obtain ⟨h1, h2, h3⟩ := loopQ_spec (SSAA.bodyQ L intersect)
      (ssaa_bodyQ_snd L intersect) MAX_DEPTH ⟨ray_in, Vec3f.splat 0⟩ ⟨0, 0⟩
    have hfun : (fun st => (SSAA.bodyQ L intersect st).1) = SSAA.body L intersect :=
      funext (ssaa_bodyQ_fst L intersect)
    rw [hfun] at h1
    simp only [Nat.zero_add, Nat.add_zero] at h2 h3
    exact ⟨by rw [h1, SSAA.raytrace], h2, h3⟩

/-! ### The path after a Diffuse hit -/

theorem stateAt_succ_of_some (body : State → Option State) (k : Nat) (s s' : State)
    (h : body s = some s') : stateAt body (k + 1) s = stateAt body k s' := by
  rw [stateAt, h, Option.some_bind]

theorem stateAt_succ_of_none (body : State → Option State) (k : Nat) (s : State)
    (h : body s = none) : stateAt body (k + 1) s = none := by
  rw [stateAt, h, Option.none_bind]

/-- Running `k` iterations and then `m` more is running `k + m` iterations. -/
theorem stateAt_add (body : State → Option State) (k m : Nat) (s : State) :
    stateAt body (k + m) s = (stateAt body k s).bind (stateAt body m) := by
  induction k generalizing s with
  | zero => simp [stateAt]
  | succ n ih =>
    rw [Nat.add_right_comm, stateAt]
    cases hb : body s with
    | none => simp [stateAt, hb]
    | some s1 => simp [stateAt, hb, ih s1]

/-- A loop body that maps every state on the ray `r` to the same state `⟨r, c⟩`
stays there. -/
theorem stateAt_fixed (body : State → Option State) (r : Ray) (c : Vec3f)
    (hfix : ∀ c', body ⟨r, c'⟩ = some ⟨r, c⟩) (m : Nat) (c' : Vec3f) :
    stateAt body (m + 1) ⟨r, c'⟩ = some ⟨r, c⟩ := by
  induction m generalizing c' with
  | zero => rw [stateAt_succ_of_some body 0 _ _ (hfix c')]; rfl
  | succ n ih => rw [stateAt_succ_of_some body (n + 1) _ _ (hfix c')]; exact ih c

/-- After an iteration that hits a Diffuse sphere, a loop body that keeps the ray
and stores the colour `c` on that hit is for ever in the state `⟨ray, c⟩`. -/
theorem stateAt_after_diffuse (body : State → Option State) (s0 st : State) (c : Vec3f)
    (k : Nat) (hk : stateAt body k s0 = some st)
    (hfix : ∀ c', body ⟨st.ray, c'⟩ = some ⟨st.ray, c⟩) (j : Nat) (hj : k < j) :
    stateAt body j s0 = some ⟨st.ray, c⟩ := by
  obtain ⟨m, rfl⟩ : ∃ m, j = k + (m + 1) := ⟨j - k - 1, by omega⟩
  rw [stateAt_add, hk, Option.some_bind]
  exact stateAt_fixed body st.ray c hfix m st.color

/-- The hit of an iteration is not both Diffuse and something else. -/
theorem hitsDiffuse_excludes (intersect : Intersect) (s : Option State) (info : IntersectInfo)
    (hd : HitsDiffuse intersect s info) :
    ¬ (HitsSpecular intersect s ∨ Escapes intersect s) := by
  obtain ⟨st, hst, hhit, hmat⟩ := hd
  rintro (⟨st', info', hst', hhit', hmat'⟩ | ⟨st', hst', hmiss⟩)
  · rw [hst] at hst'
    cases hst'
    rw [hhit] at hhit'
    cases hhit'
    rw [hmat] at hmat'
    rcases hmat' with h | h <;> cases h
  · rw [hst] at hst'
    cases hst'
    rw [hhit] at hmiss
    cases hmiss

/-- In `raytracer.cpp`, every iteration after one that hits a Diffuse sphere hits
the same sphere with the same record. -/
theorem ref_diffuse_repeats (L : Vec3f) (intersect : Intersect) (refr : Refract) (s0 : State)
    (k : Nat) (info : IntersectInfo)
    (hd : HitsDiffuse intersect (stateAt (Ref.body L intersect refr) k s0) info) :
    ∃ r, intersect r = some info ∧ ∀ j, k < j →
      stateAt (Ref.body L intersect refr) j s0 = some ⟨r, Ref.directLight L intersect info⟩ := by
  obtain ⟨st, hst, hhit, hmat⟩ := hd
  exact ⟨st.ray, hhit, fun j hj => stateAt_after_diffuse _ s0 st _ k hst
    (fun c' => ref_body_diffuse L intersect refr ⟨st.ray, c'⟩ info hhit hmat) j hj⟩

theorem ssaa_diffuse_repeats (L : Vec3f) (intersect : Intersect) (s0 : State)
    (k : Nat) (info : IntersectInfo)
    (hd : HitsDiffuse intersect (stateAt (SSAA.body L intersect) k s0) info) :
    ∃ r, intersect r = some info ∧ ∀ j, k < j →
      stateAt (SSAA.body L intersect) j s0 = some ⟨r, SSAA.directLight L intersect info⟩ := by
  obtain ⟨st, hst, hhit, hmat⟩ := hd
  exact ⟨st.ray, hhit, fun j hj => stateAt_after_diffuse _ s0 st _ k hst
    (fun c' => ssaa_body_diffuse L intersect ⟨st.ray, c'⟩ info hhit hmat) j hj⟩

/-- C12, counterexample (negation of the claim): in neither program is there a
scene, a primary ray and two iterations `k < j` of one call of `raytrace` such that
iteration `k` hits a Diffuse sphere and iteration `j` hits a Mirror or Glass sphere
or escapes.  The diffuse branch leaves `ray` unchanged, so iteration `j` repeats the
query of iteration `k`. -/
theorem no_specular_hit_after_diffuse :
    ¬ ∃ (L : Vec3f) (intersect : Intersect) (refr : Refract) (ray_in : Ray) (k j : Nat)
        (info : IntersectInfo), k < j ∧
      ((HitsDiffuse intersect
            (stateAt (Ref.body L intersect refr) k ⟨ray_in, Vec3f.splat 0⟩) info ∧
          (HitsSpecular intersect
              (stateAt (Ref.body L intersect refr) j ⟨ray_in, Vec3f.splat 0⟩) ∨
            Escapes intersect
              (stateAt (Ref.body L intersect refr) j ⟨ray_in, Vec3f.splat 0⟩))) ∨
        (HitsDiffuse intersect
            (stateAt (SSAA.body L intersect) k ⟨ray_in, Vec3f.splat 0⟩) info ∧
          (HitsSpecular intersect
              (stateAt (SSAA.body L intersect) j ⟨ray_in, Vec3f.splat 0⟩) ∨
            Escapes intersect
              (stateAt (SSAA.body L intersect) j ⟨ray_in, Vec3f.splat 0⟩)))) := by
  rintro ⟨L, intersect, refr, ray_in, k, j, info, hkj, ⟨hd, hlater⟩ | ⟨hd, hlater⟩⟩
  · obtain ⟨r, hr, hrep⟩ := ref_diffuse_repeats L intersect refr _ k info hd
    have hmat : info.hitSphere.material_type = MaterialType.Diffuse := by
      obtain ⟨_, _, _, hmat⟩ := hd
      exact hmat
    exact hitsDiffuse_excludes intersect _ info ⟨_, hrep j hkj, hr, hmat⟩ hlater
  · obtain ⟨r, hr, hrep⟩ := ssaa_diffuse_repeats L intersect _ k info hd
    have hmat : info.hitSphere.material_type = MaterialType.Diffuse := by
      obtain ⟨_, _, _, hmat⟩ := hd
      exact hmat
    exact hitsDiffuse_excludes intersect _ info ⟨_, hrep j hkj, hr, hmat⟩ hlater

/-- C12, amended: the loop keeps iterating after a Diffuse hit, but the diffuse
branch leaves `ray` unchanged: when iteration `k < MAX_DEPTH` hits a Diffuse sphere,
every later iteration hits the same sphere with the same hit record, and `raytrace`
returns the shading of that hit; the diffuse result is not lost. -/
theorem diffuse_hit_is_final (L : Vec3f) (intersect : Intersect) (refr : Refract)
    (ray_in : Ray) (k : Nat) (info : IntersectInfo) (hk : k < MAX_DEPTH) :
    (HitsDiffuse intersect
          (stateAt (Ref.body L intersect refr) k ⟨ray_in, Vec3f.splat 0⟩) info →
        (∀ j, k ≤ j → HitsDiffuse intersect
          (stateAt (Ref.body L intersect refr) j ⟨ray_in, Vec3f.splat 0⟩) info) ∧
        Ref.raytrace L intersect refr ray_in = Ref.directLight L intersect info) ∧
      (HitsDiffuse intersect
          (stateAt (SSAA.body L intersect) k ⟨ray_in, Vec3f.splat 0⟩) info →
        (∀ j, k ≤ j → HitsDiffuse intersect
          (stateAt (SSAA.body L intersect) j ⟨ray_in, Vec3f.splat 0⟩) info) ∧
        SSAA.raytrace L intersect ray_in = SSAA.directLight L intersect info) := by
  constructor
  · intro hd
    obtain ⟨r, hr, hrep⟩ := ref_diffuse_repeats L intersect refr _ k info hd
    have hmat : info.hitSphere.material_type = MaterialType.Diffuse := by
      obtain ⟨_, _, _, hmat⟩ := hd
      exact hmat
    refine ⟨fun j hj => ?_, ?_⟩
    · rcases Nat.eq_or_lt_of_le hj with rfl | hlt
      · exact hd
      · exact ⟨_, hrep j hlt, hr, hmat⟩
    · rw [Ref.raytrace, loop_eq_of_stateAt _ _ _ _ (hrep MAX_DEPTH hk)]
  · intro hd
    obtain ⟨r, hr, hrep⟩ := ssaa_diffuse_repeats L intersect _ k info hd
    have hmat : info.hitSphere.material_type = MaterialType.Diffuse := by
      obtain ⟨_, _, _, hmat⟩ := hd
      exact hmat
    refine ⟨fun j hj => ?_, ?_⟩
    · rcases Nat.eq_or_lt_of_le hj with rfl | hlt
      · exact hd
      · exact ⟨_, hrep j hlt, hr, hmat⟩
    · rw [SSAA.raytrace, loop_eq_of_stateAt _ _ _ _ (hrep MAX_DEPTH hk)]

theorem diffuse_hit_is_final_witness :
    0 < MAX_DEPTH ∧
      HitsDiffuse diffuseScene
        (stateAt (Ref.body lightQ diffuseScene refractFail) 0 ⟨axisRay, Vec3f.splat 0⟩)
        ((unitSphere MaterialType.Diffuse).hitAt axisRay 2) ∧
      HitsDiffuse diffuseScene
        (stateAt (SSAA.body lightQ diffuseScene) 0 ⟨axisRay, Vec3f.splat 0⟩)
        ((unitSphere MaterialType.Diffuse).hitAt axisRay 2) ∧
      Ref.raytrace lightQ diffuseScene refractFail axisRay =
        Ref.directLight lightQ diffuseScene ((unitSphere MaterialType.Diffuse).hitAt axisRay 2) ∧
      SSAA.raytrace lightQ diffuseScene axisRay =
        SSAA.directLight lightQ diffuseScene ((unitSphere MaterialType.Diffuse).hitAt axisRay 2) :=
  have hR : HitsDiffuse diffuseScene
      (stateAt (Ref.body lightQ diffuseScene refractFail) 0 ⟨axisRay, Vec3f.splat 0⟩)
      ((unitSphere MaterialType.Diffuse).hitAt axisRay 2) :=
    ⟨⟨axisRay, Vec3f.splat 0⟩, rfl, diffuseScene_axisRay, rfl⟩
  have hS : HitsDiffuse diffuseScene
      (stateAt (SSAA.body lightQ diffuseScene) 0 ⟨axisRay, Vec3f.splat 0⟩)
      ((unitSphere MaterialType.Diffuse).hitAt axisRay 2) :=
    ⟨⟨axisRay, Vec3f.splat 0⟩, rfl, diffuseScene_axisRay, rfl⟩
  ⟨Nat.succ_pos 99, hR, hS,
    ((diffuse_hit_is_final lightQ diffuseScene refractFail axisRay 0
      ((unitSphere MaterialType.Diffuse).hitAt axisRay 2) (Nat.succ_pos 99)).1 hR).2,
    ((diffuse_hit_is_final lightQ diffuseScene refractFail axisRay 0
      ((unitSphere MaterialType.Diffuse).hitAt axisRay 2) (Nat.succ_pos 99)).2 hS).2⟩

/-! ### The two variants side by side -/

/-- A hit reported by the sphere intersection refers to the sphere itself. -/
theorem Sphere.intersect_hitSphere (sqrt : ℚ → ℚ) (eps : ℚ) (sphere : Sphere) (ray : Ray)
    (info : IntersectInfo) (h : sphere.intersect sqrt eps ray = some info) :
    info.hitSphere = sphere := by
  unfold Sphere.intersect at h
  simp only at h
  split_ifs at h
  · cases h; rfl
  · cases h; rfl

/-- The scan of the spheres `l` that starts from `best` ends on a hit of a sphere
of `l` or on `best`. -/
theorem Scene.foldl_hitSphere (sqrt : ℚ → ℚ) (eps : ℚ) (ray : Ray) (P : Sphere → Prop)
    (l : List Sphere) (hl : ∀ sp ∈ l, P sp) (best : Option IntersectInfo)
    (hbest : ∀ b, best = some b → P b.hitSphere) (info : IntersectInfo)
    (h : l.foldl (fun best sphere => Scene.nearer best (sphere.intersect sqrt eps ray)) best =
      some info) : P info.hitSphere := by
  induction l generalizing best with
  | nil =>
    simp only [List.foldl] at h
    exact hbest info h
  | cons a t ih =>
    simp only [List.foldl] at h
    refine ih (fun sp hsp => hl sp (List.mem_cons_of_mem a hsp)) _ ?_ h
    intro b hb
    cases hhit : a.intersect sqrt eps ray with
    | none =>
      rw [hhit] at hb
      exact hbest b hb
    | some i =>
      have hi : P i.hitSphere := by
        rw [Sphere.intersect_hitSphere sqrt eps a ray i hhit]
        exact hl a (List.mem_cons_self a t)
      rw [hhit] at hb
      cases hbest' : best with
      | none =>
        rw [hbest'] at hb
        simp only [Scene.nearer, Option.some.injEq] at hb
        rw [← hb]
        exact hi
      | some b0 =>
        rw [hbest'] at hb
        simp only [Scene.nearer] at hb
        split_ifs at hb
        · cases hb; exact hi
        · cases hb; exact hbest _ hbest'

/-- A scene without Glass spheres never reports a Glass hit. -/
theorem Scene.avoidsGlass (sqrt : ℚ → ℚ) (eps : ℚ) (spheres : List Sphere)
    (h : ∀ sp ∈ spheres, sp.material_type ≠ MaterialType.Glass) (s : Option State) :
    AvoidsGlass (Scene.intersect sqrt eps spheres) s := by
  intro st info _ hhit
  exact Scene.foldl_hitSphere sqrt eps st.ray (fun sp => sp.material_type ≠ MaterialType.Glass)
    spheres h none (fun b hb => by cases hb) info hhit

/-- On a path without Glass hits the two loops visit the same rays, and their
results are related as the first Diffuse hit dictates. -/
theorem variants_sync (L : Vec3f) (intersect : Intersect) (refr : Refract) (n : Nat) (r : Ray)
    (hav : ∀ k < n, AvoidsGlass intersect
      (stateAt (Ref.body L intersect refr) k ⟨r, Vec3f.splat 0⟩)) :
    ((∀ k < n, ∀ info, ¬ HitsDiffuse intersect
          (stateAt (Ref.body L intersect refr) k ⟨r, Vec3f.splat 0⟩) info) ∧
        (loop (Ref.body L intersect refr) n ⟨r, Vec3f.splat 0⟩).color =
          (loop (SSAA.body L intersect) n ⟨r, Vec3f.splat 0⟩).color) ∨
      (∃ k < n, ∃ info, HitsDiffuse intersect
          (stateAt (Ref.body L intersect refr) k ⟨r, Vec3f.splat 0⟩) info ∧
        intersect ⟨info.hitPos, L⟩ ≠ none ∧
        (loop (Ref.body L intersect refr) n ⟨r, Vec3f.splat 0⟩).color =
          (loop (SSAA.body L intersect) n ⟨r, Vec3f.splat 0⟩).color) ∨
      (∃ k < n, ∃ info, HitsDiffuse intersect
          (stateAt (Ref.body L intersect refr) k ⟨r, Vec3f.splat 0⟩) info ∧
        intersect ⟨info.hitPos, L⟩ = none ∧
        (loop (Ref.body L intersect refr) n ⟨r, Vec3f.splat 0⟩).color =
          (loop (SSAA.body L intersect) n ⟨r, Vec3f.splat 0⟩).color +
            (1 / 10 : ℚ) * info.hitSphere.kd) := by
  induction n generalizing r with
  | zero => exact Or.inl ⟨fun k hk => absurd hk (Nat.not_lt_zero k), rfl⟩
  | succ m ih =>
    cases hI : intersect r with
    | none =>
      have hbR : Ref.body L intersect refr ⟨r, Vec3f.splat 0⟩ = none := by
        simp [Ref.body, hI]
      have hbS : SSAA.body L intersect ⟨r, Vec3f.splat 0⟩ = none := by
        simp [SSAA.body, hI]
      refine Or.inl ⟨?_, by rw [loop_of_none _ _ _ hbR, loop_of_none _ _ _ hbS]⟩
      rintro k - info ⟨st, hst, hhit, -⟩
      cases k with
      | zero =>
        simp only [stateAt, Option.some.injEq] at hst
        rw [← hst, hI] at hhit
        cases hhit
      | succ k' =>
        rw [stateAt_succ_of_none _ _ _ hbR] at hst
        cases hst
    | some info =>
      by_cases hmir : info.hitSphere.material_type = MaterialType.Mirror
      · have hbR := ref_body_mirror L intersect refr ⟨r, Vec3f.splat 0⟩ info hI hmir
        have hbS := ssaa_body_mirror L intersect ⟨r, Vec3f.splat 0⟩ info hI hmir
        have hshift : ∀ k, stateAt (Ref.body L intersect refr) (k + 1) ⟨r, Vec3f.splat 0⟩ =
            stateAt (Ref.body L intersect refr) k
              ⟨⟨info.hitPos, reflect (-r.direction) info.hitNormal⟩, Vec3f.splat 0⟩ :=
          fun k => stateAt_succ_of_some _ k _ _ hbR
        have hloopR := loop_succ_of_some _ m _ _ hbR
        have hloopS := loop_succ_of_some _ m _ _ hbS
        have hih := ih ⟨info.hitPos, reflect (-r.direction) info.hitNormal⟩
          (fun k hk => by
            have h := hav (k + 1) (Nat.succ_lt_succ hk)
            rwa [hshift k] at h)
        rcases hih with ⟨hnd, heq⟩ | ⟨k, hk, info', hd', hocc, heq⟩ | ⟨k, hk, info', hd', hlit, heq⟩
        · refine Or.inl ⟨?_, by rw [hloopR, hloopS]; exact heq⟩
          intro k hk info' hd'
          cases k with
          | zero =>
            obtain ⟨st, hst, hhit, hmat⟩ := hd'
            simp only [stateAt, Option.some.injEq] at hst
            rw [← hst, hI] at hhit
            cases hhit
            rw [hmir] at hmat
            cases hmat
          | succ k' =>
            rw [hshift k'] at hd'
            exact hnd k' (Nat.lt_of_succ_lt_succ hk) info' hd'
        · exact Or.inr (Or.inl ⟨k + 1, Nat.succ_lt_succ hk, info', by rw [hshift k]; exact hd',
            hocc, by rw [hloopR, hloopS]; exact heq⟩)
        · exact Or.inr (Or.inr ⟨k + 1, Nat.succ_lt_succ hk, info', by rw [hshift k]; exact hd',
            hlit, by rw [hloopR, hloopS]; exact heq⟩)
      · by_cases hgl : info.hitSphere.material_type = MaterialType.Glass
        · exact absurd hgl (hav 0 (Nat.succ_pos m) ⟨r, Vec3f.splat 0⟩ info rfl hI)
        · have hdif : info.hitSphere.material_type = MaterialType.Diffuse := by
            cases hmat : info.hitSphere.material_type with
            | Diffuse => rfl
            | Mirror => exact absurd hmat hmir
            | Glass => exact absurd hmat hgl
          have hloopR := ref_loop_diffuse L intersect refr r info hI hdif m (Vec3f.splat 0)
          have hloopS := ssaa_loop_diffuse L intersect r info hI hdif m (Vec3f.splat 0)
          have hd0 : HitsDiffuse intersect
              (stateAt (Ref.body L intersect refr) 0 ⟨r, Vec3f.splat 0⟩) info :=
            ⟨⟨r, Vec3f.splat 0⟩, rfl, hI, hdif⟩
          by_cases hs : intersect ⟨info.hitPos, L⟩ = none
          · refine Or.inr (Or.inr ⟨0, Nat.succ_pos m, info, hd0, hs, ?_⟩)
            rw [hloopR, hloopS]
            simp [Ref.directLight, SSAA.directLight, hs, Vec3f.splat_mul]
          · refine Or.inr (Or.inl ⟨0, Nat.succ_pos m, info, hd0, hs, ?_⟩)
            rw [hloopR, hloopS]
            have hsome : (intersect ⟨info.hitPos, L⟩).isNone = false := by
              cases hq : intersect ⟨info.hitPos, L⟩ with
              | none => exact absurd hq hs
              | some _ => rfl
            simp [Ref.directLight, SSAA.directLight, hsome]

/-- C16: for every scene and primary ray whose path hits no Glass sphere, the two
variants of `raytrace` differ only by the ambient term of the lit branch: either the
path has no Diffuse hit and both return the same colour, or it reaches a Diffuse hit
whose shadow ray is occluded and both return the same colour, or it reaches a
Diffuse hit with albedo `kd` whose shadow ray is unoccluded and `raytrace` of
`raytracer.cpp` equals `raytrace` of `raytracer-ssaa.cpp` plus `0.1*kd`. -/
theorem raytrace_variants_differ_by_ambient (L : Vec3f) (intersect : Intersect)
    (refr : Refract) (ray_in : Ray)
    (hav : ∀ k < MAX_DEPTH, AvoidsGlass intersect
      (stateAt (Ref.body L intersect refr) k ⟨ray_in, Vec3f.splat 0⟩)) :
    ((∀ k < MAX_DEPTH, ∀ info, ¬ HitsDiffuse intersect
          (stateAt (Ref.body L intersect refr) k ⟨ray_in, Vec3f.splat 0⟩) info) ∧
        Ref.raytrace L intersect refr ray_in = SSAA.raytrace L intersect ray_in) ∨
      (∃ k < MAX_DEPTH, ∃ info, HitsDiffuse intersect
          (stateAt (Ref.body L intersect refr) k ⟨ray_in, Vec3f.splat 0⟩) info ∧
        intersect ⟨info.hitPos, L⟩ ≠ none ∧
        Ref.raytrace L intersect refr ray_in = SSAA.raytrace L intersect ray_in) ∨
      (∃ k < MAX_DEPTH, ∃ info, HitsDiffuse intersect
          (stateAt (Ref.body L intersect refr) k ⟨ray_in, Vec3f.splat 0⟩) info ∧
        intersect ⟨info.hitPos, L⟩ = none ∧
        Ref.raytrace L intersect refr ray_in =
          SSAA.raytrace L intersect ray_in + (1 / 10 : ℚ) * info.hitSphere.kd) :=
  variants_sync L intersect refr MAX_DEPTH ray_in hav

theorem raytrace_variants_differ_by_ambient_witness :
    (∀ k < MAX_DEPTH, AvoidsGlass diffuseScene
        (stateAt (Ref.body lightQ diffuseScene refractFail) k ⟨axisRay, Vec3f.splat 0⟩)) ∧
      (((∀ k < MAX_DEPTH, ∀ info, ¬ HitsDiffuse diffuseScene
            (stateAt (Ref.body lightQ diffuseScene refractFail) k ⟨axisRay, Vec3f.splat 0⟩)
            info) ∧
          Ref.raytrace lightQ diffuseScene refractFail axisRay =
            SSAA.raytrace lightQ diffuseScene axisRay) ∨
        (∃ k < MAX_DEPTH, ∃ info, HitsDiffuse diffuseScene
            (stateAt (Ref.body lightQ diffuseScene refractFail) k ⟨axisRay, Vec3f.splat 0⟩)
            info ∧
          diffuseScene ⟨info.hitPos, lightQ⟩ ≠ none ∧
          Ref.raytrace lightQ diffuseScene refractFail axisRay =
            SSAA.raytrace lightQ diffuseScene axisRay) ∨
        (∃ k < MAX_DEPTH, ∃ info, HitsDiffuse diffuseScene
            (stateAt (Ref.body lightQ diffuseScene refractFail) k ⟨axisRay, Vec3f.splat 0⟩)
            info ∧
          diffuseScene ⟨info.hitPos, lightQ⟩ = none ∧
          Ref.raytrace lightQ diffuseScene refractFail axisRay =
            SSAA.raytrace lightQ diffuseScene axisRay +
              (1 / 10 : ℚ) * info.hitSphere.kd)) :=
  have hnoglass : ∀ sp ∈ [unitSphere MaterialType.Diffuse],
      sp.material_type ≠ MaterialType.Glass := by
    intro sp hsp
    rw [List.mem_singleton] at hsp
    rw [hsp]
    simp [unitSphere]
  have hav : ∀ k < MAX_DEPTH, AvoidsGlass diffuseScene
      (stateAt (Ref.body lightQ diffuseScene refractFail) k ⟨axisRay, Vec3f.splat 0⟩) :=
    fun k _ => Scene.avoidsGlass sqrtQ sceneEps [unitSphere MaterialType.Diffuse] hnoglass
      (stateAt (Ref.body lightQ diffuseScene refractFail) k ⟨axisRay, Vec3f.splat 0⟩)
  ⟨hav, raytrace_variants_differ_by_ambient lightQ diffuseScene refractFail axisRay hav⟩

end Raytracer
